import Mathlib

/-!
Gradient mask engine of `src/develop/masks/gradient.c`

A shallow embedding of the non-GUI functions of the gradient mask:
`_gradient_get_points`, `_gradient_get_pts_border`, `_gradient_get_points_border`,
`_gradient_get_area`, `dt_gradient_lookup`, `_gradient_get_mask`, `_gradient_get_mask_roi`,
and of the hit test `_gradient_get_distance`; then, in the namespace `Modulegroups`, of the
preset strings `_preset_to_string` and `_preset_from_string` of `src/libs/modulegroups.c`.

Conventions of the embedding:

* a C `float` is an exact rational number: arithmetic is exact, there is no rounding,
  no NaN and no infinity (the one infinite value the code stores, the polyline break
  marker of the border, is modelled by `none`); in particular `ihwscale = 1 / hwscale` is
  exactly `sqrtf (wd² + ht²)`, so a product `distance * ihwscale` can be an integer here
  and fall just beside it in single precision;
* a C `int` is an integer of `ℤ`; conversion of a `float` to `int` truncates toward zero,
  integer `/` and `%` are the truncating `Int.tdiv` and `Int.tmod`;
* a `float *` array of `2 * n` floats holding `n` points is a list of `n` pairs;
  a `NULL` pointer is `none`;
* functions of libm, the allocator and the distortion pipeline, which the file calls but
  does not define, are fields of an environment `Env`;
* output parameters are returned, next to the C return value, in a record.
-/

namespace Gradient

/-! ## Collaborators -/

/-- Everything `gradient.c` calls without defining it: libm, `M_PI`, the aligned allocator
(`true` when an allocation of that many floats succeeds) and the three distortion calls,
which work in place on a point buffer and report failure by returning 0 (`none`). -/
structure Env where
  sqrtf : ℚ → ℚ
  sinf : ℚ → ℚ
  cosf : ℚ → ℚ
  erff : ℚ → ℚ
  M_PI : ℚ
  dt_alloc_align_float : ℕ → Bool
  dt_dev_distort_transform : List (ℚ × ℚ) → Option (List (ℚ × ℚ))
  dt_dev_distort_transform_plus : List (ℚ × ℚ) → Option (List (ℚ × ℚ))
  dt_dev_distort_backtransform_plus : List (ℚ × ℚ) → Option (List (ℚ × ℚ))

/-- Falloff shape, `dt_masks_gradient_states_t`. -/
inductive dt_masks_gradient_states_t where
  | DT_MASKS_GRADIENT_STATE_LINEAR
  | DT_MASKS_GRADIENT_STATE_SIGMOIDAL
  deriving DecidableEq, Repr

open dt_masks_gradient_states_t

/-- The gradient parameters, `dt_masks_point_gradient_t` (fields read by the engine). -/
structure dt_masks_point_gradient_t where
  anchor : ℚ × ℚ
  rotation : ℚ
  compression : ℚ
  curvature : ℚ
  state : dt_masks_gradient_states_t
  deriving DecidableEq, Repr

/-- Region of interest, `dt_iop_roi_t`. -/
structure dt_iop_roi_t where
  x : ℤ
  y : ℤ
  width : ℤ
  height : ℤ
  scale : ℚ
  deriving DecidableEq, Repr

/-! ## C primitives -/

/-- Conversion of a `float` to `int`: truncation toward zero. -/
def toInt (q : ℚ) : ℤ := if 0 ≤ q then ⌊q⌋ else ⌈q⌉

/-- The libm `ceilf`. -/
def ceilf (q : ℚ) : ℚ := ((⌈q⌉ : ℤ) : ℚ)

/-- The libm `fminf`. -/
def fminf (a b : ℚ) : ℚ := if a < b then a else b

/-- The libm `fmaxf`. -/
def fmaxf (a b : ℚ) : ℚ := if a < b then b else a

/-- The libm `fabsf`. -/
def fabsf (a : ℚ) : ℚ := if a < 0 then -a else a

/-- The constant `FLT_MAX` of `float.h`, `(2 - 2^-23) * 2^127`. -/
def FLT_MAX : ℚ := (2 ^ 24 - 1) * 2 ^ 104

/-- The constant `FLT_MIN` of `float.h`, the smallest positive normal float `2^-126`. -/
def FLT_MIN : ℚ := 1 / 2 ^ 126

/-- The glib macro `CLAMP(x, low, high)`:
`(((x) > (high)) ? (high) : (((x) < (low)) ? (low) : (x)))`. -/
def CLAMP (x low high : ℚ) : ℚ := if x > high then high else if x < low then low else x

/-! ## Outline: `_gradient_get_points` (lines 888-966) -/

/-- Result of `_gradient_get_points`: return value, `*points` and `*points_count`.
The list holds the `*points_count` points in use of the buffer. -/
structure PointsOut where
  ret : ℤ
  points : Option (List (ℚ × ℚ))
  points_count : ℤ
  deriving DecidableEq, Repr

/-- Lines 928-929: `xstart`. -/
def line_xstart (E : Env) (curvature : ℚ) : ℚ :=
  if fabsf curvature > 1 then -E.sqrtf (1 / fabsf curvature) else -1

/-- Lines 934-939: the point `(xiii, yiii)` of loop index `i`, before the frame test. -/
def line_point (E : Env) (wd ht x y rotation curvature : ℚ) (count i : ℤ) : ℚ × ℚ :=
  let scale := E.sqrtf (wd * wd + ht * ht)
  let v := (-rotation / 180) * E.M_PI
  let cosv := E.cosf v
  let sinv := E.sinf v
  let xstart := line_xstart E curvature
  let xdelta := -2 * xstart / ((count - 3 : ℤ) : ℚ)
  let xi := xstart + ((i - 3 : ℤ) : ℚ) * xdelta
  let yi := curvature * xi * xi
  let xii := (cosv * xi + sinv * yi) * scale
  let yii := (sinv * xi - cosv * yi) * scale
  (xii + x * wd, yii + y * ht)

/-- Line 943: the test that a guide point extends too far beyond the image frame. -/
def out_of_frame (wd ht : ℚ) (p : ℚ × ℚ) : Bool :=
  decide (p.1 < -wd) || decide (p.1 > 2 * wd) || decide (p.2 < -ht) || decide (p.2 > 2 * ht)

/-- Lines 931-956: the loop over the line points. The list is the remaining loop indices,
the boolean is `in_frame`; `continue` skips a point, `break` ends the loop. -/
def line_loop (f : ℤ → ℚ × ℚ) (wd ht : ℚ) : List ℤ → Bool → List (ℚ × ℚ)
  | [], _ => []
  | i :: rest, in_frame =>
    if out_of_frame wd ht (f i) then
      (if !in_frame then line_loop f wd ht rest in_frame else [])
    else f i :: line_loop f wd ht rest true

/-- The loop indices `3, 4, ..., count - 1`. -/
def line_indices (count : ℤ) : List ℤ :=
  (List.range (count - 3).toNat).map (fun (k : ℕ) => (3 + k : ℤ))

/-- The buffer of `_gradient_get_points` before the distortion call (lines 909-956):
anchor, two pivots, line points. -/
def gradient_points_raw (E : Env) (iwidth iheight : ℤ) (x y rotation curvature : ℚ) :
    List (ℚ × ℚ) :=
  let wd : ℚ := iwidth
  let ht : ℚ := iheight
  let distance := (1 / 10 : ℚ) * fminf wd ht
  let count : ℤ := toInt (E.sqrtf (wd * wd + ht * ht) + 3)
  let v1 := (-(rotation - 90) / 180) * E.M_PI
  let x1 := x * wd + distance * E.cosf v1
  let y1 := y * ht + distance * E.sinf v1
  let v2 := (-(rotation + 90) / 180) * E.M_PI
  let x2 := x * wd + distance * E.cosf v2
  let y2 := y * ht + distance * E.sinf v2
  [(x * wd, y * ht), (x1, y1), (x2, y2)]
    ++ line_loop (line_point E wd ht x y rotation curvature count) wd ht
        (line_indices count) false

/-- The function `_gradient_get_points`. `iwidth`, `iheight` are
`dev->preview_pipe->iwidth` and `->iheight`. -/
def _gradient_get_points (E : Env) (iwidth iheight : ℤ) (x y rotation curvature : ℚ) :
    PointsOut :=
  let wd : ℚ := iwidth
  let ht : ℚ := iheight
  let count : ℤ := toInt (E.sqrtf (wd * wd + ht * ht) + 3)
  if E.dt_alloc_align_float (2 * count).toNat = false then ⟨0, none, 0⟩
  else
    let pts := gradient_points_raw E iwidth iheight x y rotation curvature
    match E.dt_dev_distort_transform pts with
    | some pts' => ⟨1, some pts', pts.length⟩
    | none => ⟨0, none, 0⟩

/-! ## Border: `_gradient_get_pts_border` (lines 968-1057) -/

/-- Result of `_gradient_get_pts_border`: return value, `*points`, `*points_count`.
A `none` element of the list is the pair `(INFINITY, INFINITY)`. -/
structure BorderOut where
  ret : ℤ
  points : Option (List (Option (ℚ × ℚ)))
  points_count : ℤ
  deriving DecidableEq, Repr

/-- The copy loops `for(int i = 3; i < points_count; i++)`: the points of index
`3 .. points_count - 1` of a buffer. -/
def line_part (r : PointsOut) : List (Option (ℚ × ℚ)) :=
  (((r.points.getD []).take r.points_count.toNat).drop 3).map some

/-- The function `_gradient_get_pts_border`. -/
def _gradient_get_pts_border (E : Env) (iwidth iheight : ℤ)
    (x y rotation distance curvature : ℚ) : BorderOut :=
  let wd : ℚ := iwidth
  let ht : ℚ := iheight
  let scale := E.sqrtf (wd * wd + ht * ht)
  let v1 := (-(rotation - 90) / 180) * E.M_PI
  let x1 := (x * wd + distance * scale * E.cosf v1) / wd
  let y1 := (y * ht + distance * scale * E.sinf v1) / ht
  let r1 := _gradient_get_points E iwidth iheight x1 y1 rotation curvature
  let v2 := (-(rotation + 90) / 180) * E.M_PI
  let x2 := (x * wd + distance * scale * E.cosf v2) / wd
  let y2 := (y * ht + distance * scale * E.sinf v2) / ht
  let r2 := _gradient_get_points E iwidth iheight x2 y2 rotation curvature
  let c1 := r1.points_count
  let c2 := r2.points_count
  if r1.ret ≠ 0 ∧ r2.ret ≠ 0 ∧ c1 > 4 ∧ c2 > 4 then
    if E.dt_alloc_align_float (2 * ((c1 - 3) + (c2 - 3) + 1)).toNat = false then ⟨0, none, 0⟩
    else ⟨1, some (line_part r1 ++ [none] ++ line_part r2), (c1 - 3) + (c2 - 3) + 1⟩
  else if r1.ret ≠ 0 ∧ c1 > 4 then
    if E.dt_alloc_align_float (2 * (c1 - 3)).toNat = false then ⟨0, none, 0⟩
    else ⟨1, some (line_part r1), c1 - 3⟩
  else if r2.ret ≠ 0 ∧ c2 > 4 then
    if E.dt_alloc_align_float (2 * (c2 - 3)).toNat = false then ⟨0, none, 0⟩
    else ⟨1, some (line_part r2), c2 - 3⟩
  else ⟨0, none, 0⟩

/-! ## `_gradient_get_points_border` (lines 1059-1076) -/

/-- The four output parameters of `_gradient_get_points_border`. -/
structure OutlineState where
  points : Option (List (ℚ × ℚ))
  points_count : ℤ
  border : Option (List (Option (ℚ × ℚ)))
  border_count : ℤ
  deriving DecidableEq, Repr

/-- The function `_gradient_get_points_border`: `want_border` is the test `if(border)`
on the output pointer, `s` the caller's values of the four output parameters. Returns the
C return value and the values of the output parameters afterwards. -/
def _gradient_get_points_border (E : Env) (iwidth iheight : ℤ)
    (gradient : dt_masks_point_gradient_t) (want_border : Bool) (s : OutlineState) :
    ℤ × OutlineState :=
  let r := _gradient_get_points E iwidth iheight gradient.anchor.1 gradient.anchor.2
    gradient.rotation gradient.curvature
  let s1 : OutlineState := { s with points := r.points, points_count := r.points_count }
  if r.ret ≠ 0 then
    if want_border then
      let b := _gradient_get_pts_border E iwidth iheight gradient.anchor.1 gradient.anchor.2
        gradient.rotation gradient.compression gradient.curvature
      (b.ret, { s1 with border := b.points, border_count := b.points_count })
    else (1, s1)
  else (0, s1)

/-! ## Area: `_gradient_get_area` (lines 1078-1107) -/

/-- The output parameters `*width`, `*height`, `*posx`, `*posy`. -/
structure AreaState where
  width : ℤ
  height : ℤ
  posx : ℤ
  posy : ℤ
  deriving DecidableEq, Repr

/-- Lines 1090-1099: the search of min and max over the four points; the result is
`(xmin, xmax, ymin, ymax)`. -/
def area_minmax (points : List (ℚ × ℚ)) : ℚ × ℚ × ℚ × ℚ :=
  (List.range 4).foldl
    (fun (m : ℚ × ℚ × ℚ × ℚ) i =>
      let p := points.getD i (0, 0)
      (fminf p.1 m.1, fmaxf p.1 m.2.1, fminf p.2 m.2.2.1, fmaxf p.2 m.2.2.2))
    (FLT_MAX, FLT_MIN, FLT_MAX, FLT_MIN)

/-- The function `_gradient_get_area`; `iwidth`, `iheight` are `piece->pipe->iwidth` and
`->iheight`, `s` holds the caller's values of the output parameters. -/
def _gradient_get_area (E : Env) (iwidth iheight : ℤ) (s : AreaState) : ℤ × AreaState :=
  let wd : ℚ := iwidth
  let ht : ℚ := iheight
  match E.dt_dev_distort_transform_plus [(0, 0), (wd, 0), (wd, ht), (0, ht)] with
  | none => (0, s)
  | some points =>
    let m := area_minmax points
    let xmin := m.1
    let xmax := m.2.1
    let ymin := m.2.2.1
    let ymax := m.2.2.2
    (1, { posx := toInt xmin, posy := toInt ymin,
          width := toInt (xmax - xmin), height := toInt (ymax - ymin) })

/-! ## Scalar field and lookup table (lines 1109-1116, 1187-1253, 1364-1430) -/

/-- The function `dt_gradient_lookup`; `lut` is the centred table, read at a signed offset. -/
def dt_gradient_lookup (lut : ℤ → ℚ) (i : ℚ) : ℚ :=
  let bin0 : ℤ := toInt i
  let bin1 : ℤ := toInt (i + 1)
  let f : ℚ := i - (bin0 : ℚ)
  lut bin1 * f + lut bin0 * (1 - f)

/-- The locals computed at lines 1187-1202 (and again at 1364-1379). -/
structure FieldConsts where
  hwscale : ℚ
  ihwscale : ℚ
  sinv : ℚ
  cosv : ℚ
  xoffset : ℚ
  yoffset : ℚ
  compression : ℚ
  normf : ℚ
  curvature : ℚ
  state : dt_masks_gradient_states_t
  lutmax : ℤ
  lutsize : ℤ
  deriving DecidableEq, Repr

/-- Lines 1187-1202. -/
def field_consts (E : Env) (iwidth iheight : ℤ) (gradient : dt_masks_point_gradient_t) :
    FieldConsts :=
  let wd : ℚ := iwidth
  let ht : ℚ := iheight
  let hwscale := 1 / E.sqrtf (wd * wd + ht * ht)
  let ihwscale := 1 / hwscale
  let v := (-gradient.rotation / 180) * E.M_PI
  let sinv := E.sinf v
  let cosv := E.cosf v
  let xoffset := cosv * gradient.anchor.1 * wd + sinv * gradient.anchor.2 * ht
  let yoffset := sinv * gradient.anchor.1 * wd - cosv * gradient.anchor.2 * ht
  let compression := fmaxf gradient.compression (1 / 1000)
  let normf := 1 / compression
  let lutmax : ℤ := toInt (ceilf (4 * compression * ihwscale))
  { hwscale := hwscale, ihwscale := ihwscale, sinv := sinv, cosv := cosv,
    xoffset := xoffset, yoffset := yoffset, compression := compression, normf := normf,
    curvature := gradient.curvature, state := gradient.state,
    lutmax := lutmax, lutsize := 2 * lutmax + 2 }

/-- Lines 1221-1223: the table entry of index `n`. -/
def lut_entry (E : Env) (c : FieldConsts) (n : ℤ) : ℚ :=
  let distance := ((n - c.lutmax : ℤ) : ℚ) * c.hwscale
  let value := 1 / 2 + 1 / 2 *
    (if c.state = DT_MASKS_GRADIENT_STATE_LINEAR then c.normf * distance
     else E.erff (distance / c.compression))
  if value < 0 then 0 else if value > 1 then 1 else value

/-- Lines 1219-1224: the table `lut`, of `lutsize` entries. -/
def gradient_lut (E : Env) (c : FieldConsts) : List ℚ :=
  (List.range c.lutsize.toNat).map (fun (n : ℕ) => lut_entry E c (n : ℤ))

/-- Line 1227, `clut = lut + lutmax`: the read `clut[k]`. A read outside the table is
undefined in C; it is given the value 0 here. -/
def clut (lut : List ℚ) (lutmax : ℤ) (k : ℤ) : ℚ :=
  if 0 ≤ lutmax + k then lut.getD (lutmax + k).toNat 0 else 0

/-- Lines 1251-1252: the value stored for a grid node of signed distance `distance`. -/
def node_value (c : FieldConsts) (lut : ℤ → ℚ) (distance : ℚ) : ℚ :=
  if distance ≤ -4 * c.compression then 0
  else if distance ≥ 4 * c.compression then 1
  else dt_gradient_lookup lut (distance * c.ihwscale)

/-- Lines 1246-1249: the signed distance of the point `(x, y)`. -/
def node_distance (c : FieldConsts) (p : ℚ × ℚ) : ℚ :=
  let x0 := (c.cosv * p.1 + c.sinv * p.2 - c.xoffset) * c.hwscale
  let y0 := (c.sinv * p.1 - c.cosv * p.2 - c.yoffset) * c.hwscale
  y0 - c.curvature * x0 * x0

/-- Lines 1239-1254: the grid buffer after evaluation, one value per node. -/
def grid_values (E : Env) (c : FieldConsts) (points : List (ℚ × ℚ)) : List ℚ :=
  points.map (fun p => node_value c (clut (gradient_lut E c) c.lutmax) (node_distance c p))

/-- Lines 1143-1144 (and 1317-1318): the number of grid nodes along a side of `w` pixels,
`(w + grid - 1) / grid + 1`. -/
def grid_count (w grid : ℤ) : ℤ := Int.tdiv (w + grid - 1) grid + 1

/-- Lines 1279-1288: the interpolated value of the output pixel `(i, j)`. -/
def interpolate (values : List ℚ) (grid gw : ℤ) (i j : ℤ) : ℚ :=
  let jj := Int.tmod j grid
  let mj := Int.tdiv j grid
  let ii := Int.tmod i grid
  let mi := Int.tdiv i grid
  (values.getD (mj * gw + mi).toNat 0 * ((grid - ii : ℤ) : ℚ) * ((grid - jj : ℤ) : ℚ)
    + values.getD (mj * gw + mi + 1).toNat 0 * (ii : ℚ) * ((grid - jj : ℤ) : ℚ)
    + values.getD ((mj + 1) * gw + mi).toNat 0 * ((grid - ii : ℤ) : ℚ) * (jj : ℚ)
    + values.getD ((mj + 1) * gw + mi + 1).toNat 0 * (ii : ℚ) * (jj : ℚ))
    / ((grid * grid : ℤ) : ℚ)

/-- Lines 1277-1290: the `w * h` values written row by row into the output buffer. -/
def fill_buffer (values : List ℚ) (grid gw w h : ℤ) : List ℚ :=
  (List.range h.toNat).flatMap (fun (j : ℕ) =>
    (List.range w.toNat).map (fun (i : ℕ) => interpolate values grid gw (i : ℤ) (j : ℤ)))

/-! ## Full-frame rasterizer: `_gradient_get_mask` (lines 1118-1299) -/

/-- The output parameters of `_gradient_get_mask`: `*buffer` and the area. -/
structure MaskState where
  buffer : Option (List ℚ)
  area : AreaState
  deriving DecidableEq, Repr

/-- Lines 1158-1163: the grid of raster coordinates, node `(i, j)` at index `j * gw + i`. -/
def mask_grid (grid gw gh px py : ℤ) : List (ℚ × ℚ) :=
  (List.range gh.toNat).flatMap (fun (j : ℕ) =>
    (List.range gw.toNat).map (fun (i : ℕ) =>
      (((grid * (i : ℤ) + px : ℤ) : ℚ), ((grid * (j : ℤ) + py : ℤ) : ℚ))))

/-- The grid buffer that `_gradient_get_mask` hands to the back-transform, for the area `a`
returned by `_gradient_get_area`. -/
def mask_points (a : AreaState) : List (ℚ × ℚ) :=
  mask_grid 8 (grid_count a.width 8) (grid_count a.height 8) a.posx a.posy

/-- The function `_gradient_get_mask`. -/
def _gradient_get_mask (E : Env) (iwidth iheight : ℤ) (gradient : dt_masks_point_gradient_t)
    (s : MaskState) : ℤ × MaskState :=
  match _gradient_get_area E iwidth iheight s.area with
  | (0, a) => (0, { s with area := a })
  | (_, a) =>
    let s1 : MaskState := { s with area := a }
    let w := a.width
    let h := a.height
    let grid : ℤ := 8
    let gw := grid_count w grid
    let gh := grid_count h grid
    if E.dt_alloc_align_float (2 * gw * gh).toNat = false then (0, s1)
    else
      match E.dt_dev_distort_backtransform_plus (mask_points a) with
      | none => (0, s1)
      | some points =>
        let c := field_consts E iwidth iheight gradient
        if E.dt_alloc_align_float c.lutsize.toNat = false then (0, s1)
        else
          let values := grid_values E c points
          if E.dt_alloc_align_float (w * h).toNat = false then (0, { s1 with buffer := none })
          else (1, { s1 with buffer := some (fill_buffer values grid gw w h) })

/-! ## Region rasterizer: `_gradient_get_mask_roi` (lines 1302-1467) -/

/-- Lines 1332-1339: the grid of scaled raster coordinates. -/
def roi_grid (grid gw gh px py : ℤ) (iscale : ℚ) : List (ℚ × ℚ) :=
  (List.range gh.toNat).flatMap (fun (j : ℕ) =>
    (List.range gw.toNat).map (fun (i : ℕ) =>
      (((grid * (i : ℤ) + px : ℤ) : ℚ) * iscale, ((grid * (j : ℤ) + py : ℤ) : ℚ) * iscale)))

/-- Line 1316: the grid step of a region of interest. -/
def roi_grid_step (scale : ℚ) : ℤ := toInt (CLAMP ((10 * scale + 2) / 3) 1 4)

/-- The grid buffer that `_gradient_get_mask_roi` hands to the back-transform. -/
def roi_points (roi : dt_iop_roi_t) : List (ℚ × ℚ) :=
  let grid := roi_grid_step roi.scale
  roi_grid grid (grid_count roi.width grid) (grid_count roi.height grid) roi.x roi.y
    (1 / roi.scale)

/-- The function `_gradient_get_mask_roi`; `buffer` is the caller-supplied buffer, the
result is the C return value and the buffer afterwards. -/
def _gradient_get_mask_roi (E : Env) (iwidth iheight : ℤ)
    (gradient : dt_masks_point_gradient_t) (roi : dt_iop_roi_t) (buffer : List ℚ) :
    ℤ × List ℚ :=
  let w := roi.width
  let h := roi.height
  let grid := roi_grid_step roi.scale
  let gw := grid_count w grid
  let gh := grid_count h grid
  if E.dt_alloc_align_float (2 * gw * gh).toNat = false then (0, buffer)
  else
    match E.dt_dev_distort_backtransform_plus (roi_points roi) with
    | none => (0, buffer)
    | some points =>
      let c := field_consts E iwidth iheight gradient
      if E.dt_alloc_align_float c.lutsize.toNat = false then (0, buffer)
      else
        let values := grid_values E c points
        let written := fill_buffer values grid gw w h
        (1, written ++ buffer.drop written.length)

/-! ## A concrete environment

Used to run the functions on concrete inputs: allocation always succeeds, the three
distortion calls are the identity, and libm is replaced by rational approximations. -/

/-- Integer square root by bisection: with `lo * lo ≤ n < hi * hi`, the largest `k` with
`k * k ≤ n`, given enough steps. -/
def ref_isqrt_loop (n : ℕ) : ℕ → ℕ → ℕ → ℕ
  | 0, lo, _ => lo
  | steps + 1, lo, hi =>
    if hi ≤ lo + 1 then lo
    else if (lo + hi) / 2 * ((lo + hi) / 2) ≤ n then ref_isqrt_loop n steps ((lo + hi) / 2) hi
    else ref_isqrt_loop n steps lo ((lo + hi) / 2)

/-- Square root to six decimals (for arguments below `2 ^ 88`), exact on the squares of
such numbers. -/
def ref_sqrtf (q : ℚ) : ℚ :=
  (ref_isqrt_loop (⌊q * 10 ^ 12⌋).toNat 128 0 ((⌊q * 10 ^ 12⌋).toNat + 1) : ℚ) / 10 ^ 6

/-- Sine by its Taylor polynomial of degree 11. -/
def ref_sinf (x : ℚ) : ℚ :=
  x - x ^ 3 / 6 + x ^ 5 / 120 - x ^ 7 / 5040 + x ^ 9 / 362880 - x ^ 11 / 39916800

/-- Cosine by its Taylor polynomial of degree 10. -/
def ref_cosf (x : ℚ) : ℚ :=
  1 - x ^ 2 / 2 + x ^ 4 / 24 - x ^ 6 / 720 + x ^ 8 / 40320 - x ^ 10 / 3628800

/-- The error function by the rational approximation
`1 - 1 / (1 + a1 x + a2 x^2 + a3 x^3 + a4 x^4)^4` for `x ≥ 0`, extended as an odd function. -/
def ref_erff (x : ℚ) : ℚ :=
  let t := fabsf x
  let d := 1 + 278393 / 1000000 * t + 230389 / 1000000 * t ^ 2 + 972 / 1000000 * t ^ 3
    + 78108 / 1000000 * t ^ 4
  let r := 1 - 1 / d ^ 4
  if x < 0 then -r else r

/-- The concrete environment. -/
def refEnv : Env where
  sqrtf := ref_sqrtf
  sinf := ref_sinf
  cosf := ref_cosf
  erff := ref_erff
  M_PI := 3141592653589793 / 10 ^ 15
  dt_alloc_align_float := fun _ => true
  dt_dev_distort_transform := fun pts => some pts
  dt_dev_distort_transform_plus := fun pts => some pts
  dt_dev_distort_backtransform_plus := fun pts => some pts

/-- The concrete environment with a failing forward transform `dt_dev_distort_transform`. -/
def forwardFailEnv : Env :=
  { refEnv with dt_dev_distort_transform := fun _ => none }

/-- The concrete environment with a failing `dt_dev_distort_backtransform_plus`. -/
def backFailEnv : Env :=
  { refEnv with dt_dev_distort_backtransform_plus := fun _ => none }

/-- The concrete environment in which `dt_dev_distort_transform_plus` moves every point
10 pixels to the left (as a crop of the left part of the frame does). -/
def shiftEnv : Env :=
  { refEnv with
    dt_dev_distort_transform_plus := fun pts => some (pts.map (fun p => (p.1 - 10, p.2))) }

/-- A linear gradient across the middle of the frame: rotation 0, compression 1/20, no
curvature. -/
def sample_linear : dt_masks_point_gradient_t :=
  { anchor := (1 / 2, 501 / 1000), rotation := 0, compression := 1 / 20, curvature := 0,
    state := DT_MASKS_GRADIENT_STATE_LINEAR }

/-- The same gradient with the sigmoidal falloff. -/
def sample_sigmoidal : dt_masks_point_gradient_t :=
  { sample_linear with state := DT_MASKS_GRADIENT_STATE_SIGMOIDAL }

/-- A gradient anchored at the image centre with the largest compression of the
editor, 1. -/
def sample_centre : dt_masks_point_gradient_t :=
  { anchor := (1 / 2, 1 / 2), rotation := 0, compression := 1, curvature := 0,
    state := DT_MASKS_GRADIENT_STATE_LINEAR }

/-- The value that lines 1251-1252 store for a node of signed distance `d`, for the
gradient `g` on an image of `iwidth` by `iheight` pixels, with the table of lines
1219-1227. -/
def field_value (E : Env) (iwidth iheight : ℤ) (g : dt_masks_point_gradient_t) (d : ℚ) : ℚ :=
  let c := field_consts E iwidth iheight g
  node_value c (clut (gradient_lut E c) c.lutmax) d

/-- The scalar field evaluated directly at the point `p`: signed distance of lines
1246-1249, then the value of lines 1251-1252. -/
def direct_value (E : Env) (iwidth iheight : ℤ) (g : dt_masks_point_gradient_t)
    (p : ℚ × ℚ) : ℚ :=
  field_value E iwidth iheight g (node_distance (field_consts E iwidth iheight g) p)

/-! ## The two sides of the border -/

/-- Lines 981-986: the first call of `_gradient_get_points` in `_gradient_get_pts_border`,
for the line moved by `distance * scale` in the direction of the first pivot. -/
def border_side1 (E : Env) (iwidth iheight : ℤ) (x y rotation distance curvature : ℚ) :
    PointsOut :=
  let wd : ℚ := iwidth
  let ht : ℚ := iheight
  let scale := E.sqrtf (wd * wd + ht * ht)
  let v1 := (-(rotation - 90) / 180) * E.M_PI
  let x1 := (x * wd + distance * scale * E.cosf v1) / wd
  let y1 := (y * ht + distance * scale * E.sinf v1) / ht
  _gradient_get_points E iwidth iheight x1 y1 rotation curvature

/-- Lines 988-993: the second call, for the line moved toward the second pivot. -/
def border_side2 (E : Env) (iwidth iheight : ℤ) (x y rotation distance curvature : ℚ) :
    PointsOut :=
  let wd : ℚ := iwidth
  let ht : ℚ := iheight
  let scale := E.sqrtf (wd * wd + ht * ht)
  let v2 := (-(rotation + 90) / 180) * E.M_PI
  let x2 := (x * wd + distance * scale * E.cosf v2) / wd
  let y2 := (y * ht + distance * scale * E.sinf v2) / ht
  _gradient_get_points E iwidth iheight x2 y2 rotation curvature

/-! ## Hit test: `_gradient_get_distance` (lines 37-81) -/

/-- The outline of one form, `dt_masks_form_gui_points_t` (fields read by the hit test).
A `none` element of `border` is the pair `(INFINITY, INFINITY)`. -/
structure dt_masks_form_gui_points_t where
  points : List (ℚ × ℚ)
  points_count : ℤ
  border : List (Option (ℚ × ℚ))
  border_count : ℤ
  deriving DecidableEq, Repr

/-- The four output parameters `*inside`, `*inside_border`, `*near`, `*inside_source`. -/
structure HitState where
  inside : ℤ
  inside_border : ℤ
  near : ℤ
  inside_source : ℤ
  deriving DecidableEq, Repr

/-- The glib function `g_list_nth_data`: the element at position `n` of the list, `NULL`
when the position is off the end; `n` is unsigned, so a negative `int` is off the end. -/
def g_list_nth_data {α : Type} (l : List α) (n : ℤ) : Option α :=
  if n < 0 then none else l[n.toNat]?

/-- The squared distance `(x - px) * (x - px) + (y - py) * (y - py)` of the tests. -/
def sq_dist (x y : ℚ) (p : ℚ × ℚ) : ℚ := (x - p.1) * (x - p.1) + (y - p.2) * (y - p.2)

/-- Lines 63-64: the test of a border vertex. The squared distance to the pair
`(INFINITY, INFINITY)` is infinite and never below `as2`. -/
def border_hit (x y as2 : ℚ) : Option (ℚ × ℚ) → Bool
  | some p => decide (sq_dist x y p < as2)
  | none => false

/-- The function `_gradient_get_distance`: `gui` is `none` for a `NULL` pointer and
otherwise the list `gui->points`; `s` holds the caller's values of the four outputs. -/
def _gradient_get_distance (x y as : ℚ) (gui : Option (List dt_masks_form_gui_points_t))
    (index _num_points : ℤ) (s : HitState) : HitState :=
  match gui with
  | none => s
  | some gui_points =>
    let s0 : HitState := { inside := 0, inside_border := 0, near := -1, inside_source := 0 }
    match g_list_nth_data gui_points index with
    | none => s0
    | some gpt =>
      let as2 := as * as
      if sq_dist x y (gpt.points.getD 0 (0, 0)) < as2
          ∨ sq_dist x y (gpt.points.getD 1 (0, 0)) < as2
          ∨ sq_dist x y (gpt.points.getD 2 (0, 0)) < as2 then
        { s0 with inside := 1 }
      else if (List.range gpt.border_count.toNat).any
          (fun (i : ℕ) => border_hit x y as2 (gpt.border.getD i none)) then
        { s0 with inside_border := 1 }
      else if (line_indices gpt.points_count).any
          (fun (i : ℤ) => decide (sq_dist x y (gpt.points.getD i.toNat (0, 0)) < as2)) then
        { s0 with inside := 1 }
      else s0

/-- An outline for the hit test: anchor (50, 50), pivots (50, 40) and (50, 60), a center
line of three vertices and a border of two lines of two vertices each. -/
def sample_outline : dt_masks_form_gui_points_t :=
  { points := [(50, 50), (50, 40), (50, 60), (0, 50), (50, 50), (100, 50)],
    points_count := 6,
    border := [some (0, 30), some (100, 30), none, some (0, 70), some (100, 70)],
    border_count := 5 }

/-- Sine at the multiples of a quarter turn, `k * M_PI / 2`, where it is exactly 0, 1, 0,
-1 in turn; between two multiples the value at the lower one. -/
def quarter_sinf (x : ℚ) : ℚ :=
  match ⌊x / (refEnv.M_PI / 2)⌋ % 4 with
  | 1 => 1
  | 3 => -1
  | _ => 0

/-- Cosine at the multiples of a quarter turn, where it is exactly 1, 0, -1, 0 in turn;
between two multiples the value at the lower one. -/
def quarter_cosf (x : ℚ) : ℚ :=
  match ⌊x / (refEnv.M_PI / 2)⌋ % 4 with
  | 0 => 1
  | 2 => -1
  | _ => 0

/-- The concrete environment with sine and cosine exact at the multiples of a quarter
turn, for gradients whose rotation is a multiple of 90 degrees. -/
def quarterEnv : Env :=
  { refEnv with sinf := quarter_sinf, cosf := quarter_cosf }

/-- The denominator `1 + a1 t + a2 t^2 + a3 t^3 + a4 t^4` of `ref_erff`. -/
def ref_erff_den (t : ℚ) : ℚ :=
  1 + 278393 / 1000000 * t + 230389 / 1000000 * t ^ 2 + 972 / 1000000 * t ^ 3
    + 78108 / 1000000 * t ^ 4

/-- The gradient of the end-to-end scenario: anchor at the image centre, rotation 0,
compression 1/2, no curvature, sigmoidal falloff. -/
def sample_scenario : dt_masks_point_gradient_t :=
  { anchor := (1 / 2, 1 / 2), rotation := 0, compression := 1 / 2, curvature := 0,
    state := DT_MASKS_GRADIENT_STATE_SIGMOIDAL }

/-- The full-frame mask value at pixel `(x, y)` of an image of `iwidth` by `iheight`
pixels: the entry `y * width + x` of the buffer that `_gradient_get_mask` returns, for a
caller that passes no buffer and a zero area (0 when no buffer is returned). -/
def mask_pixel (E : Env) (iwidth iheight : ℤ) (g : dt_masks_point_gradient_t) (x y : ℕ) : ℚ :=
  let r := _gradient_get_mask E iwidth iheight g { buffer := none, area := ⟨0, 0, 0, 0⟩ }
  (r.2.buffer.getD []).getD (y * r.2.area.width.toNat + x) 0

/-- Lines 934-935: the local coordinates `(xi, yi)` of the line point of loop index `i`,
before rotation, scaling and translation to the anchor. -/
def line_local (E : Env) (curvature : ℚ) (count i : ℤ) : ℚ × ℚ :=
  let xstart := line_xstart E curvature
  let xdelta := -2 * xstart / ((count - 3 : ℤ) : ℚ)
  let xi := xstart + ((i - 3 : ℤ) : ℚ) * xdelta
  let yi := curvature * xi * xi
  (xi, yi)

/-- Lines 1246-1247: the local coordinates `(x0, y0)` of the point `(x, y)` in the frame of
the gradient. -/
def node_local (c : FieldConsts) (p : ℚ × ℚ) : ℚ × ℚ :=
  let x0 := (c.cosv * p.1 + c.sinv * p.2 - c.xoffset) * c.hwscale
  let y0 := (c.sinv * p.1 - c.cosv * p.2 - c.yoffset) * c.hwscale
  (x0, y0)

/-- A curved gradient anchored at the image centre: rotation 0, compression 1/4,
curvature 1/2, sigmoidal falloff. -/
def sample_curved : dt_masks_point_gradient_t :=
  { anchor := (1 / 2, 1 / 2), rotation := 0, compression := 1 / 4, curvature := 1 / 2,
    state := DT_MASKS_GRADIENT_STATE_SIGMOIDAL }

end Gradient

/-! ## Module-group presets: `_preset_to_string` and `_preset_from_string`
(`src/libs/modulegroups.c`, lines 1376-1493)

A C string is the list of its characters; the separators `"ꬹ"` and `"|"` of the preset
format are single characters. `gboolean` is `Bool`, a `GList` is a list, and a `NULL`
text is `none`. -/

namespace Modulegroups

/-- The quick-access item `dt_lib_modulegroups_basic_item_t`, reduced to its field `id`:
the other fields are filled in from `id` by `_basics_init_item`. -/
structure dt_lib_modulegroups_basic_item_t where
  id : List Char
  deriving DecidableEq, Repr

/-- The group `dt_lib_modulegroups_group_t`: its name, its icon and its modules (the
widget fields are left out). -/
structure dt_lib_modulegroups_group_t where
  name : List Char
  icon : List Char
  modules : List (List Char)
  deriving DecidableEq, Repr

/-- The fields of `dt_lib_modulegroups_t` that the two functions read and write. -/
structure dt_lib_modulegroups_t where
  groups : List dt_lib_modulegroups_group_t
  show_search : Bool
  edit_groups : List dt_lib_modulegroups_group_t
  edit_show_search : Bool
  edit_basics_show : Bool
  edit_basics : List dt_lib_modulegroups_basic_item_t
  basics_show : Bool
  basics : List dt_lib_modulegroups_basic_item_t
  deriving DecidableEq, Repr

/-- The glib function `g_strsplit(string, delimiter, -1)` for a delimiter of one
character: the pieces between the delimiters, empty pieces included; the empty string
gives the empty vector. -/
def g_strsplit (string : List Char) (delimiter : Char) : List (List Char) :=
  if string = [] then [] else string.splitOn delimiter

/-- Line 1380 (and 1485-1493): `edition ? d->edit_show_search : d->show_search`. -/
def sel_show_search (d : dt_lib_modulegroups_t) (edition : Bool) : Bool :=
  if edition then d.edit_show_search else d.show_search

/-- Line 1383: `edition ? d->edit_basics_show : d->basics_show`. -/
def sel_basics_show (d : dt_lib_modulegroups_t) (edition : Bool) : Bool :=
  if edition then d.edit_basics_show else d.basics_show

/-- Line 1384: `edition ? d->edit_basics : d->basics`. -/
def sel_basics (d : dt_lib_modulegroups_t) (edition : Bool) :
    List dt_lib_modulegroups_basic_item_t :=
  if edition then d.edit_basics else d.basics

/-- Line 1385: `edition ? d->edit_groups : d->groups`. -/
def sel_groups (d : dt_lib_modulegroups_t) (edition : Bool) :
    List dt_lib_modulegroups_group_t :=
  if edition then d.edit_groups else d.groups

/-- The function `_preset_to_string`. Each `dt_util_dstrcat(res, format, ...)` appends
the formatted text to `res`; `%d` of `flag ? 1 : 0` is the digit `1` or `0`. -/
def _preset_to_string (d : dt_lib_modulegroups_t) (edition : Bool) : List Char :=
  let show_search := sel_show_search d edition
  let res : List Char := [if show_search then '1' else '0']
  let basics_show := sel_basics_show d edition
  let basics := sel_basics d edition
  let groups := sel_groups d edition
  let res := res ++ ['ꬹ', if basics_show then '1' else '0', '|', '|']
  let res := basics.foldl (fun res item => res ++ '|' :: item.id) res
  groups.foldl
    (fun res g =>
      g.modules.foldl (fun res m => res ++ '|' :: m)
        (res ++ 'ꬹ' :: g.name ++ '|' :: g.icon ++ ['|']))
    res

/-- Lines 1456-1480: the loop that reads the groups from the pieces `gr[2], gr[3], ...`;
a piece of more than two fields gives a group that is prepended to `res`. -/
def read_groups (pieces : List (List Char)) : List dt_lib_modulegroups_group_t :=
  pieces.foldl
    (fun (res : List dt_lib_modulegroups_group_t) tx =>
      let gr2 := g_strsplit tx '|'
      if gr2.length > 2 then
        { name := gr2.getD 0 [], icon := gr2.getD 1 [], modules := gr2.drop 3 } :: res
      else res)
    []

/-- The function `_preset_from_string`: `d` is the state before the call, the result the
state after it. -/
def _preset_from_string (d : dt_lib_modulegroups_t) (txt : Option (List Char))
    (edition : Bool) : dt_lib_modulegroups_t :=
  match txt with
  | none => d
  | some txt =>
    let gr := g_strsplit txt 'ꬹ'
    let show_search : Bool := if gr.length > 0 ∧ gr[0]? = some ['0'] then false else true
    let d1 : dt_lib_modulegroups_t :=
      if gr.length > 1 then
        match gr[1]? with
        | none => d
        | some s =>
          let gr2 := g_strsplit s '|'
          let basics_show : Bool :=
            if gr2.length > 3 ∧ gr2[0]? = some ['1'] then true else false
          let items := (gr2.drop 3).map
            (fun s => ({ id := s } : dt_lib_modulegroups_basic_item_t))
          if edition then
            { d with edit_basics_show := basics_show, edit_basics := d.edit_basics ++ items }
          else { d with basics_show := basics_show, basics := d.basics ++ items }
      else d
    let res := (read_groups (gr.drop 2)).reverse
    if edition then { d1 with edit_show_search := show_search, edit_groups := res }
    else { d1 with show_search := show_search, groups := res }

/-- The text that `_preset_to_string` writes for the quick-access panel, after the
separator `ꬹ`: the digit of the flag, `||`, then `|id` for each item. -/
def basics_text (basics_show : Bool) (basics : List dt_lib_modulegroups_basic_item_t) :
    List Char :=
  [if basics_show then '1' else '0', '|', '|'] ++ basics.flatMap (fun item => '|' :: item.id)

/-- The text that `_preset_to_string` writes for a group, after the separator `ꬹ`:
`name|icon|`, then `|module` for each module. -/
def group_text (g : dt_lib_modulegroups_group_t) : List Char :=
  g.name ++ '|' :: g.icon ++ '|' :: g.modules.flatMap (fun m => '|' :: m)

/-- A string without the two separators of the preset format. -/
def separator_free (s : List Char) : Prop := '|' ∉ s ∧ 'ꬹ' ∉ s

instance (s : List Char) : Decidable (separator_free s) := by
  unfold separator_free
  infer_instance

/-- The state with no group, no quick-access item and all flags off. -/
def empty_state : dt_lib_modulegroups_t :=
  { groups := [], show_search := false, edit_groups := [], edit_show_search := false,
    edit_basics_show := false, edit_basics := [], basics_show := false, basics := [] }

/-- A state with two groups, the second without modules, and one quick-access item. -/
def sample_state : dt_lib_modulegroups_t :=
  { groups := [⟨"base".toList, "basic".toList, ["exposure".toList, "lens".toList]⟩,
      ⟨"empty".toList, "x".toList, []⟩],
    show_search := true, edit_groups := [], edit_show_search := false,
    edit_basics_show := false, edit_basics := [], basics_show := true,
    basics := [⟨"exposure/exposure".toList⟩] }

/-- A state whose groups are free of separators and whose single quick-access item has
an id that contains both separators. -/
def injected_state : dt_lib_modulegroups_t :=
  { groups := [⟨"base".toList, "basic".toList, ["exposure".toList]⟩],
    show_search := true, edit_groups := [], edit_show_search := false,
    edit_basics_show := false, edit_basics := [], basics_show := true,
    basics := [⟨"lensꬹa|b|".toList⟩] }

/-- A state that shows the quick-access panel with no item in it. -/
def empty_panel_state : dt_lib_modulegroups_t :=
  { groups := [⟨"base".toList, "basic".toList, ["exposure".toList]⟩],
    show_search := true, edit_groups := [], edit_show_search := false,
    edit_basics_show := false, edit_basics := [], basics_show := true, basics := [] }

end Modulegroups

namespace Gradient
open dt_masks_gradient_states_t

/-! ## Properties of the rasterizers -/

/-! ### Auxiliary facts -/

theorem fmaxf_floor (c : ℚ) (hc : c ≤ 1 / 1000) : fmaxf c (1 / 1000) = 1 / 1000 := by
  unfold fmaxf
  split_ifs with h
  · rfl
  · exact le_antisymm hc (not_lt.mp h)

theorem field_consts_floor (E : Env) (iwidth iheight : ℤ) (g : dt_masks_point_gradient_t)
    (c : ℚ) (hc : c ≤ 1 / 1000) :
    field_consts E iwidth iheight { g with compression := c }
      = field_consts E iwidth iheight { g with compression := 1 / 1000 } := by
  simp only [field_consts, fmaxf_floor c hc, fmaxf_floor (1 / 1000) le_rfl]

theorem compression_pos (E : Env) (iwidth iheight : ℤ) (g : dt_masks_point_gradient_t) :
    0 < (field_consts E iwidth iheight g).compression := by
  simp only [field_consts, fmaxf]
  split_ifs with h <;> linarith

theorem length_flatMap_range_map {α : Type} (f : ℕ → ℕ → α) (w h : ℕ) :
    ((List.range h).flatMap (fun j => (List.range w).map (fun i => f j i))).length = h * w := by
  induction h with
  | zero => simp
  | succ n ih =>
    rw [List.range_succ, List.flatMap_append, List.length_append, ih, List.flatMap_singleton,
      List.length_map, List.length_range]
    ring

theorem getElem?_flatMap_range_map {α : Type} (f : ℕ → ℕ → α) (w h j i : ℕ)
    (hj : j < h) (hi : i < w) :
    ((List.range h).flatMap (fun j => (List.range w).map (fun i => f j i)))[j * w + i]?
      = some (f j i) := by
  induction h with
  | zero => omega
  | succ n ih =>
    rw [List.range_succ, List.flatMap_append, List.flatMap_singleton]
    by_cases hjn : j < n
    · have hlt : j * w + i < n * w := by
        calc j * w + i < j * w + w := by omega
          _ = (j + 1) * w := by ring
          _ ≤ n * w := Nat.mul_le_mul_right w hjn
      rw [List.getElem?_append_left (by rw [length_flatMap_range_map]; exact hlt)]
      exact ih hjn
    · have hjeq : j = n := by omega
      subst hjeq
      rw [List.getElem?_append_right (by rw [length_flatMap_range_map]; omega),
        length_flatMap_range_map, Nat.add_sub_cancel_left,
        List.getElem?_map, List.getElem?_range hi]
      rfl

theorem getD_flatMap_range_map {α : Type} (f : ℕ → ℕ → α) (d : α) (w h j i : ℕ)
    (hj : j < h) (hi : i < w) :
    ((List.range h).flatMap (fun j => (List.range w).map (fun i => f j i))).getD (j * w + i) d
      = f j i := by
  rw [List.getD_eq_getElem?_getD, getElem?_flatMap_range_map f w h j i hj hi]
  rfl

theorem getD_map_flatMap_range_map {α β : Type} (F : α → β) (f : ℕ → ℕ → α) (d : β)
    (w h j i : ℕ) (hj : j < h) (hi : i < w) :
    (((List.range h).flatMap (fun j => (List.range w).map (fun i => f j i))).map F).getD
      (j * w + i) d = F (f j i) := by
  rw [List.getD_eq_getElem?_getD, List.getElem?_map,
    getElem?_flatMap_range_map f w h j i hj hi]
  rfl

theorem toInt_natCast (n : ℕ) : toInt ((n : ℤ) : ℚ) = (n : ℤ) := by
  unfold toInt
  rw [if_pos (by positivity)]
  exact Int.floor_intCast _

theorem area_identity (E : Env) (W H : ℕ) (hW : 1 ≤ W) (hH : 1 ≤ H) (a : AreaState)
    (htf : ∀ pts, E.dt_dev_distort_transform_plus pts = some pts) :
    _gradient_get_area E W H a = (1, { width := W, height := H, posx := 0, posy := 0 }) := by
  have hw : (1 : ℚ) ≤ (W : ℚ) := by exact_mod_cast hW
  have hh : (1 : ℚ) ≤ (H : ℚ) := by exact_mod_cast hH
  have hmin : (FLT_MIN : ℚ) < 1 := by unfold FLT_MIN; norm_num
  have hmin0 : (0 : ℚ) < FLT_MIN := by unfold FLT_MIN; norm_num
  have hmax : (0 : ℚ) < FLT_MAX := by unfold FLT_MAX; norm_num
  have hr : List.range 4 = [0, 1, 2, 3] := rfl
  have hmm : area_minmax [(0, 0), ((W : ℚ), 0), ((W : ℚ), (H : ℚ)), (0, (H : ℚ))]
      = (0, (W : ℚ), 0, (H : ℚ)) := by
    simp only [area_minmax, hr, List.foldl, List.getD_cons_zero, List.getD_cons_succ, fminf, fmaxf]
    have h1 : ¬ ((W : ℚ) < 0) := by linarith
    have h2 : ¬ ((H : ℚ) < 0) := by linarith
    have h3 : ¬ ((W : ℚ) < FLT_MIN) := by linarith
    have h4 : ¬ ((H : ℚ) < FLT_MIN) := by linarith
    have h5 : (0 : ℚ) < (W : ℚ) := by linarith
    have h6 : (0 : ℚ) < (H : ℚ) := by linarith
    simp [hmin0, hmax, h1, h2, h3, h4, h5, h6]
  simp only [_gradient_get_area, Int.cast_natCast, htf, hmm, sub_zero]
  have e0 : toInt (0 : ℚ) = 0 := by simp [toInt]
  have eW : toInt ((W : ℚ)) = (W : ℤ) := by simpa using toInt_natCast W
  have eH : toInt ((H : ℚ)) = (H : ℤ) := by simpa using toInt_natCast H
  rw [e0, eW, eH]

theorem grid_count_natCast (w : ℕ) : grid_count (w : ℤ) 8 = (((w + 7) / 8 + 1 : ℕ) : ℤ) := by
  unfold grid_count
  rw [Int.tdiv_eq_ediv (by omega) (by norm_num)]
  push_cast
  omega

theorem grid_node_identity (E : Env) (W H : ℕ) (g : dt_masks_point_gradient_t)
    (w h mi mj : ℕ) (hmi : mi < (w + 7) / 8 + 1) (hmj : mj < (h + 7) / 8 + 1) :
    (grid_values E (field_consts E W H g)
        (mask_points { width := w, height := h, posx := 0, posy := 0 })).getD
      (mj * ((w + 7) / 8 + 1) + mi) 0
      = direct_value E W H g (((8 * mi : ℕ) : ℚ), ((8 * mj : ℕ) : ℚ)) := by
  unfold grid_values mask_points mask_grid
  simp only [grid_count_natCast, Int.toNat_natCast]
  rw [getD_map_flatMap_range_map _ _ _ _ _ _ _ hmj hmi]
  simp only [direct_value, field_value, add_zero]
  push_cast
  rfl

theorem interpolate_nat (values : List ℚ) (gw i j : ℕ) :
    interpolate values 8 (gw : ℤ) (i : ℤ) (j : ℤ)
      = (values.getD (j / 8 * gw + i / 8) 0 * ((8 - i % 8 : ℕ) : ℚ) * ((8 - j % 8 : ℕ) : ℚ)
        + values.getD (j / 8 * gw + (i / 8 + 1)) 0 * ((i % 8 : ℕ) : ℚ) * ((8 - j % 8 : ℕ) : ℚ)
        + values.getD ((j / 8 + 1) * gw + i / 8) 0 * ((8 - i % 8 : ℕ) : ℚ) * ((j % 8 : ℕ) : ℚ)
        + values.getD ((j / 8 + 1) * gw + (i / 8 + 1)) 0 * ((i % 8 : ℕ) : ℚ) * ((j % 8 : ℕ) : ℚ))
        / 64 := by
  have hi : Int.tdiv (i : ℤ) 8 = ((i / 8 : ℕ) : ℤ) := by
    rw [Int.tdiv_eq_ediv (by omega) (by norm_num)]; push_cast; rfl
  have hj : Int.tdiv (j : ℤ) 8 = ((j / 8 : ℕ) : ℤ) := by
    rw [Int.tdiv_eq_ediv (by omega) (by norm_num)]; push_cast; rfl
  have hi' : Int.tmod (i : ℤ) 8 = ((i % 8 : ℕ) : ℤ) := by
    rw [Int.tmod_eq_emod (by omega) (by norm_num)]; push_cast; rfl
  have hj' : Int.tmod (j : ℤ) 8 = ((j % 8 : ℕ) : ℤ) := by
    rw [Int.tmod_eq_emod (by omega) (by norm_num)]; push_cast; rfl
  have e1 : ((8 : ℤ) - ((i % 8 : ℕ) : ℤ)) = ((8 - i % 8 : ℕ) : ℤ) := by
    have := Nat.mod_lt i (show 8 > 0 by norm_num); omega
  have e2 : ((8 : ℤ) - ((j % 8 : ℕ) : ℤ)) = ((8 - j % 8 : ℕ) : ℤ) := by
    have := Nat.mod_lt j (show 8 > 0 by norm_num); omega
  have k1 : (((j / 8 : ℕ) : ℤ) * (gw : ℤ) + ((i / 8 : ℕ) : ℤ)).toNat = j / 8 * gw + i / 8 := by
    rw [← Int.toNat_natCast (j / 8 * gw + i / 8)]; push_cast; rfl
  have k2 : (((j / 8 : ℕ) : ℤ) * (gw : ℤ) + ((i / 8 : ℕ) : ℤ) + 1).toNat
      = j / 8 * gw + (i / 8 + 1) := by
    rw [← Int.toNat_natCast (j / 8 * gw + (i / 8 + 1))]; push_cast; ring_nf
  have k3 : ((((j / 8 : ℕ) : ℤ) + 1) * (gw : ℤ) + ((i / 8 : ℕ) : ℤ)).toNat
      = (j / 8 + 1) * gw + i / 8 := by
    rw [← Int.toNat_natCast ((j / 8 + 1) * gw + i / 8)]; push_cast; rfl
  have k4 : ((((j / 8 : ℕ) : ℤ) + 1) * (gw : ℤ) + ((i / 8 : ℕ) : ℤ) + 1).toNat
      = (j / 8 + 1) * gw + (i / 8 + 1) := by
    rw [← Int.toNat_natCast ((j / 8 + 1) * gw + (i / 8 + 1))]; push_cast; ring_nf
  unfold interpolate
  simp only [hi, hj, hi', hj', e1, e2, k1, k2, k3, k4, Int.cast_natCast]
  norm_num

/-! ### Rasterizer, area and outline -/

/-- C1, the code at the failing input: on a 400 x 300 image with the identity
back-transform, `_gradient_get_mask_roi` writes the negative value -7/500 into the output
buffer for the one-pixel region at (0, 176) of a linear gradient, so a value outside
[0,1] reaches the mask. The node has table index -257/10; the lookup truncates it to the
bins -25 and -24, whose entries are 0 and 1/50, and weighs them with 17/10 and -7/10. -/
theorem mask_roi_writes_negative_value :
    _gradient_get_mask_roi refEnv 400 300 sample_linear
      { x := 0, y := 176, width := 1, height := 1, scale := 1 } [0] = (1, [-7 / 500])
    ∧ node_distance (field_consts refEnv 400 300 sample_linear) (0, 176)
        * (field_consts refEnv 400 300 sample_linear).ihwscale = -257 / 10
    ∧ toInt (-257 / 10) = -25 ∧ toInt (-257 / 10 + 1) = -24
    ∧ clut (gradient_lut refEnv (field_consts refEnv 400 300 sample_linear))
        (field_consts refEnv 400 300 sample_linear).lutmax (-25) = 0
    ∧ clut (gradient_lut refEnv (field_consts refEnv 400 300 sample_linear))
        (field_consts refEnv 400 300 sample_linear).lutmax (-24) = 1 / 50 := by
  decide!

/-- C2: saturation. For every gradient, image size and grid node `p`, with
`c = fmaxf compression 0.001`, a node whose signed distance is at most `-4c` or at least
`4c` gets exactly 0, respectively exactly 1, whatever the table holds (`lut` is
arbitrary), and this is the value the rasterizers store at the index `k` of the node in
the grid buffer. -/
theorem node_saturation (E : Env) (iwidth iheight : ℤ) (g : dt_masks_point_gradient_t)
    (lut : ℤ → ℚ) (points : List (ℚ × ℚ)) (k : ℕ) (p : ℚ × ℚ) (hp : points[k]? = some p)
    (hsat : node_distance (field_consts E iwidth iheight g) p ≤ -4 * fmaxf g.compression (1 / 1000)
      ∨ 4 * fmaxf g.compression (1 / 1000) ≤ node_distance (field_consts E iwidth iheight g) p) :
    node_value (field_consts E iwidth iheight g) lut
        (node_distance (field_consts E iwidth iheight g) p)
      = (if node_distance (field_consts E iwidth iheight g) p < 0 then 0 else 1)
    ∧ (grid_values E (field_consts E iwidth iheight g) points)[k]?
      = some (if node_distance (field_consts E iwidth iheight g) p < 0 then 0 else 1) := by
  have hc : 0 < fmaxf g.compression (1 / 1000) := compression_pos E iwidth iheight g
  have hcc : (field_consts E iwidth iheight g).compression = fmaxf g.compression (1 / 1000) := rfl
  have key : ∀ l : ℤ → ℚ, node_value (field_consts E iwidth iheight g) l
        (node_distance (field_consts E iwidth iheight g) p)
      = (if node_distance (field_consts E iwidth iheight g) p < 0 then 0 else 1) := by
    intro l
    unfold node_value
    rw [hcc]
    rcases hsat with h | h
    · rw [if_pos h, if_pos (by linarith)]
    · rw [if_neg (by linarith), if_pos h, if_neg (by linarith)]
  refine ⟨key lut, ?_⟩
  simp only [grid_values, List.getElem?_map, hp, Option.map_some', key]

/-- C2, at a concrete node: the point (0, 300) of the 400 x 300 image lies beyond `-4c`
for the linear sample gradient and gets the value 0. -/
theorem node_saturation_witness :
    node_value (field_consts refEnv 400 300 sample_linear) (fun _ => 7)
        (node_distance (field_consts refEnv 400 300 sample_linear) (0, 300))
      = (if node_distance (field_consts refEnv 400 300 sample_linear) (0, 300) < 0 then 0 else 1)
    ∧ (grid_values refEnv (field_consts refEnv 400 300 sample_linear) [(0, 0), (0, 300)])[1]?
      = some (if node_distance (field_consts refEnv 400 300 sample_linear) (0, 300) < 0
          then 0 else 1) :=
  node_saturation refEnv 400 300 sample_linear (fun _ => 7) [(0, 0), (0, 300)] 1 (0, 300) rfl
    (by decide!)

/-- C3, refuted at a concrete pixel: on a 40 x 30 image with the identity transform, the
full-frame mask of the linear sample gradient holds 3/4 at pixel (0, 12) (index
12 * 40 + 0), while the scalar field evaluated directly at (0, 12) is 1; the two differ
by 1/4, far more than 1/1000. -/
theorem grid_direct_disagree :
    (_gradient_get_mask refEnv 40 30 sample_linear { buffer := none, area := ⟨0, 0, 0, 0⟩ }).1 = 1
    ∧ ((_gradient_get_mask refEnv 40 30 sample_linear
        { buffer := none, area := ⟨0, 0, 0, 0⟩ }).2.buffer.map (fun b => b.getD 480 0))
      = some (3 / 4)
    ∧ direct_value refEnv 40 30 sample_linear (0, 12) = 1
    ∧ ¬ (|(3 / 4 : ℚ) - direct_value refEnv 40 30 sample_linear (0, 12)| ≤ 1 / 1000) := by
  decide!

/-- C3, amended: with identity transforms (and successful allocations), on an image of
`W` by `H` pixels the full-frame mask holds, at every pixel `(i, j)`, exactly the bilinear
interpolation, with the weights `(8 - i % 8) * (8 - j % 8) / 64` and so on, of the scalar
field evaluated directly at the four surrounding grid nodes; at a pixel whose two
coordinates are multiples of 8 it is the directly evaluated value itself. -/
theorem mask_identity_bilinear (E : Env) (W H : ℕ) (g : dt_masks_point_gradient_t)
    (s : MaskState) (i j : ℕ)
    (hW : 1 ≤ W) (hH : 1 ≤ H) (hi : i < W) (hj : j < H)
    (halloc : ∀ n, E.dt_alloc_align_float n = true)
    (htf : ∀ pts, E.dt_dev_distort_transform_plus pts = some pts)
    (hbt : ∀ pts, E.dt_dev_distort_backtransform_plus pts = some pts) :
    ∃ buf : List ℚ,
      _gradient_get_mask E W H g s
        = (1, { buffer := some buf, area := { width := W, height := H, posx := 0, posy := 0 } })
      ∧ buf.length = H * W
      ∧ buf.getD (j * W + i) 0
        = (direct_value E W H g (((8 * (i / 8) : ℕ) : ℚ), ((8 * (j / 8) : ℕ) : ℚ))
              * ((8 - i % 8 : ℕ) : ℚ) * ((8 - j % 8 : ℕ) : ℚ)
          + direct_value E W H g (((8 * (i / 8 + 1) : ℕ) : ℚ), ((8 * (j / 8) : ℕ) : ℚ))
              * ((i % 8 : ℕ) : ℚ) * ((8 - j % 8 : ℕ) : ℚ)
          + direct_value E W H g (((8 * (i / 8) : ℕ) : ℚ), ((8 * (j / 8 + 1) : ℕ) : ℚ))
              * ((8 - i % 8 : ℕ) : ℚ) * ((j % 8 : ℕ) : ℚ)
          + direct_value E W H g (((8 * (i / 8 + 1) : ℕ) : ℚ), ((8 * (j / 8 + 1) : ℕ) : ℚ))
              * ((i % 8 : ℕ) : ℚ) * ((j % 8 : ℕ) : ℚ)) / 64
      ∧ (i % 8 = 0 → j % 8 = 0 →
          buf.getD (j * W + i) 0 = direct_value E W H g ((i : ℚ), (j : ℚ))) := by
  have harea := area_identity E W H hW hH s.area htf
  have hmi : i / 8 + 1 < (W + 7) / 8 + 1 := by omega
  have hmj : j / 8 + 1 < (H + 7) / 8 + 1 := by omega
  have hval : (fill_buffer (grid_values E (field_consts E W H g)
        (mask_points { width := W, height := H, posx := 0, posy := 0 })) 8
        (grid_count (W : ℤ) 8) W H).getD (j * W + i) 0
      = (direct_value E W H g (((8 * (i / 8) : ℕ) : ℚ), ((8 * (j / 8) : ℕ) : ℚ))
              * ((8 - i % 8 : ℕ) : ℚ) * ((8 - j % 8 : ℕ) : ℚ)
          + direct_value E W H g (((8 * (i / 8 + 1) : ℕ) : ℚ), ((8 * (j / 8) : ℕ) : ℚ))
              * ((i % 8 : ℕ) : ℚ) * ((8 - j % 8 : ℕ) : ℚ)
          + direct_value E W H g (((8 * (i / 8) : ℕ) : ℚ), ((8 * (j / 8 + 1) : ℕ) : ℚ))
              * ((8 - i % 8 : ℕ) : ℚ) * ((j % 8 : ℕ) : ℚ)
          + direct_value E W H g (((8 * (i / 8 + 1) : ℕ) : ℚ), ((8 * (j / 8 + 1) : ℕ) : ℚ))
              * ((i % 8 : ℕ) : ℚ) * ((j % 8 : ℕ) : ℚ)) / 64 := by
    unfold fill_buffer
    simp only [Int.toNat_natCast]
    rw [getD_flatMap_range_map _ _ _ _ _ _ hj hi, grid_count_natCast, interpolate_nat,
      grid_node_identity E W H g W H (i / 8) (j / 8) (by omega) (by omega),
      grid_node_identity E W H g W H (i / 8 + 1) (j / 8) hmi (by omega),
      grid_node_identity E W H g W H (i / 8) (j / 8 + 1) (by omega) hmj,
      grid_node_identity E W H g W H (i / 8 + 1) (j / 8 + 1) hmi hmj]
  refine ⟨fill_buffer (grid_values E (field_consts E W H g)
        (mask_points { width := W, height := H, posx := 0, posy := 0 })) 8
        (grid_count (W : ℤ) 8) W H, ?_, ?_, hval, ?_⟩
  · unfold _gradient_get_mask
    rw [harea]
    simp only [halloc, hbt]
    simp
  · unfold fill_buffer
    simp only [Int.toNat_natCast]
    exact length_flatMap_range_map _ W H
  · intro hi0 hj0
    rw [hval, hi0, hj0]
    have ei : 8 * (i / 8) = i := by omega
    have ej : 8 * (j / 8) = j := by omega
    rw [ei, ej]
    norm_num
    ring

/-- C3 amended, at concrete inputs: the 40 x 30 image, the linear sample gradient and the
pixel (0, 12), in the concrete environment. -/
theorem mask_identity_bilinear_witness :
    ∃ buf : List ℚ,
      _gradient_get_mask refEnv ((40 : ℕ) : ℤ) ((30 : ℕ) : ℤ) sample_linear
          { buffer := none, area := ⟨0, 0, 0, 0⟩ }
        = (1, { buffer := some buf,
                area := { width := ((40 : ℕ) : ℤ), height := ((30 : ℕ) : ℤ), posx := 0, posy := 0
                    } })
      ∧ buf.length = 30 * 40
      ∧ buf.getD (12 * 40 + 0) 0
        = (direct_value refEnv ((40 : ℕ) : ℤ) ((30 : ℕ) : ℤ) sample_linear
              (((8 * (0 / 8) : ℕ) : ℚ), ((8 * (12 / 8) : ℕ) : ℚ))
              * ((8 - 0 % 8 : ℕ) : ℚ) * ((8 - 12 % 8 : ℕ) : ℚ)
          + direct_value refEnv ((40 : ℕ) : ℤ) ((30 : ℕ) : ℤ) sample_linear
              (((8 * (0 / 8 + 1) : ℕ) : ℚ), ((8 * (12 / 8) : ℕ) : ℚ))
              * ((0 % 8 : ℕ) : ℚ) * ((8 - 12 % 8 : ℕ) : ℚ)
          + direct_value refEnv ((40 : ℕ) : ℤ) ((30 : ℕ) : ℤ) sample_linear
              (((8 * (0 / 8) : ℕ) : ℚ), ((8 * (12 / 8 + 1) : ℕ) : ℚ))
              * ((8 - 0 % 8 : ℕ) : ℚ) * ((12 % 8 : ℕ) : ℚ)
          + direct_value refEnv ((40 : ℕ) : ℤ) ((30 : ℕ) : ℤ) sample_linear
              (((8 * (0 / 8 + 1) : ℕ) : ℚ), ((8 * (12 / 8 + 1) : ℕ) : ℚ))
              * ((0 % 8 : ℕ) : ℚ) * ((12 % 8 : ℕ) : ℚ)) / 64
      ∧ (0 % 8 = 0 → 12 % 8 = 0 →
          buf.getD (12 * 40 + 0) 0
            = direct_value refEnv ((40 : ℕ) : ℤ) ((30 : ℕ) : ℤ) sample_linear
                (((0 : ℕ) : ℚ), ((12 : ℕ) : ℚ))) :=
  mask_identity_bilinear refEnv 40 30 sample_linear { buffer := none, area := ⟨0, 0, 0, 0⟩ }
    0 12 (by decide) (by decide) (by decide) (by decide)
    (fun _ => rfl) (fun _ => rfl) (fun _ => rfl)

/-- C4, the code at failing inputs: on a 400 x 300 image the node value is not monotone in
the signed distance on [-4c, 4c] = [-1/5, 1/5]. The table indices of the distances used
are -26.5, -25.7, -18.02, -17.98, -0.5 and -0.25, each more than one hundredth away from
an integer, and -100, the saturated end of the interval. Linear state: the distance -1/5 gets the
saturated value 0 and the distance -53/1000 gets a value above -1/250, but the larger
distance -257/5000 gets -7/500. Sigmoidal state: the value at -901/25000 exceeds by more
than 1/10000 the value at the larger distance -899/25000, and the values at -1/1000 and
-1/2000 are both 1/2. -/
theorem field_value_not_monotone :
    -4 * (field_consts refEnv 400 300 sample_linear).compression = -1 / 5
    ∧ (field_consts refEnv 400 300 sample_linear).ihwscale = 500
    ∧ (-1 / 5 : ℚ) < -53 / 1000 ∧ (-53 / 1000 : ℚ) < -257 / 5000
    ∧ field_value refEnv 400 300 sample_linear (-1 / 5) = 0
    ∧ field_value refEnv 400 300 sample_linear (-257 / 5000) = -7 / 500
    ∧ field_value refEnv 400 300 sample_linear (-257 / 5000)
        < field_value refEnv 400 300 sample_linear (-1 / 5)
    ∧ field_value refEnv 400 300 sample_linear (-257 / 5000) + 1 / 100
        < field_value refEnv 400 300 sample_linear (-53 / 1000)
    ∧ (-901 / 25000 : ℚ) < -899 / 25000
    ∧ field_value refEnv 400 300 sample_sigmoidal (-899 / 25000) + 1 / 10000
        < field_value refEnv 400 300 sample_sigmoidal (-901 / 25000)
    ∧ field_value refEnv 400 300 sample_sigmoidal (-1 / 1000) = 1 / 2
    ∧ field_value refEnv 400 300 sample_sigmoidal (-1 / 2000) = 1 / 2 := by
  decide!

/-- C5, the code at a failing input: in the sigmoidal state on a 400 x 300 image, with an
odd error function, the node values at the distances 257/5000 and -257/5000 add up to
less than 1 - 1/10000. The value at 257/5000 (table index 257/10) interpolates between
the bins 25 and 26; the value at -257/5000 is taken from the bins -25 and -24, with the
weights 17/10 and -7/10, and not from the bins -26 and -25. -/
theorem field_value_not_symmetric :
    (∀ x, refEnv.erff (-x) = -refEnv.erff x)
    ∧ field_value refEnv 400 300 sample_sigmoidal (257 / 5000)
        + field_value refEnv 400 300 sample_sigmoidal (-257 / 5000) < 1 - 1 / 10000
    ∧ field_value refEnv 400 300 sample_sigmoidal (257 / 5000)
        = clut (gradient_lut refEnv (field_consts refEnv 400 300 sample_sigmoidal)) 100 26
            * (7 / 10)
          + clut (gradient_lut refEnv (field_consts refEnv 400 300 sample_sigmoidal)) 100 25
            * (3 / 10)
    ∧ field_value refEnv 400 300 sample_sigmoidal (-257 / 5000)
        = clut (gradient_lut refEnv (field_consts refEnv 400 300 sample_sigmoidal)) 100 (-24)
            * (-7 / 10)
          + clut (gradient_lut refEnv (field_consts refEnv 400 300 sample_sigmoidal)) 100 (-25)
            * (17 / 10) := by
  refine ⟨?_, by decide!⟩
  intro x
  simp only [refEnv, ref_erff, fabsf]
  rcases lt_trichotomy x 0 with h | h | h
  · have h1 : ¬ (-x < 0) := by linarith
    simp [h, h1]
  · subst h; norm_num
  · have h1 : -x < 0 := by linarith
    have h2 : ¬ (x < 0) := by linarith
    simp [h1, h2]

/-- C6: compression floor. For every stored compression `c ≤ 0.001` the divisor and
threshold used is `0.001` (positive, so no division by zero), and the lookup table, the
result of `_gradient_get_mask` and the result of `_gradient_get_mask_roi` are those of
compression `0.001`, all other inputs equal. -/
theorem compression_floor (E : Env) (iwidth iheight : ℤ) (g : dt_masks_point_gradient_t)
    (c : ℚ) (hc : c ≤ 1 / 1000) (s : MaskState) (roi : dt_iop_roi_t) (buffer : List ℚ) :
    (field_consts E iwidth iheight { g with compression := c }).compression = 1 / 1000
    ∧ (field_consts E iwidth iheight { g with compression := c }).normf = 1000
    ∧ gradient_lut E (field_consts E iwidth iheight { g with compression := c })
        = gradient_lut E (field_consts E iwidth iheight { g with compression := 1 / 1000 })
    ∧ _gradient_get_mask E iwidth iheight { g with compression := c } s
        = _gradient_get_mask E iwidth iheight { g with compression := 1 / 1000 } s
    ∧ _gradient_get_mask_roi E iwidth iheight { g with compression := c } roi buffer
        = _gradient_get_mask_roi E iwidth iheight { g with compression := 1 / 1000 } roi
            buffer := by
  have h := field_consts_floor E iwidth iheight g c hc
  refine ⟨?_, ?_, ?_, ?_, ?_⟩
  · simp only [field_consts, fmaxf_floor c hc]
  · simp only [field_consts, fmaxf_floor c hc]; norm_num
  · rw [h]
  · simp only [_gradient_get_mask, h]
  · simp only [_gradient_get_mask_roi, h]

/-- C6, at concrete inputs: the stored compression 0 on a 400 x 300 image. -/
theorem compression_floor_witness :
    (field_consts refEnv 400 300 { sample_linear with compression := 0 }).compression
      = 1 / 1000
    ∧ (field_consts refEnv 400 300 { sample_linear with compression := 0 }).normf = 1000
    ∧ gradient_lut refEnv (field_consts refEnv 400 300 { sample_linear with compression := 0 })
        = gradient_lut refEnv
            (field_consts refEnv 400 300 { sample_linear with compression := 1 / 1000 })
    ∧ _gradient_get_mask refEnv 400 300 { sample_linear with compression := 0 }
          { buffer := none, area := ⟨0, 0, 0, 0⟩ }
        = _gradient_get_mask refEnv 400 300 { sample_linear with compression := 1 / 1000 }
          { buffer := none, area := ⟨0, 0, 0, 0⟩ }
    ∧ _gradient_get_mask_roi refEnv 400 300 { sample_linear with compression := 0 }
          { x := 0, y := 176, width := 1, height := 1, scale := 1 } [0]
        = _gradient_get_mask_roi refEnv 400 300 { sample_linear with compression := 1 / 1000 }
          { x := 0, y := 176, width := 1, height := 1, scale := 1 } [0] :=
  compression_floor refEnv 400 300 sample_linear 0 (by norm_num)
    { buffer := none, area := ⟨0, 0, 0, 0⟩ }
    { x := 0, y := 176, width := 1, height := 1, scale := 1 } [0]

/-- C7: a failing back-transform leaves the caller's buffer alone. If the back-transform
of the grid built by `_gradient_get_mask_roi` fails, the function returns 0 and the
caller-supplied buffer is unchanged; if the back-transform of the grid built by
`_gradient_get_mask` (for whatever area `_gradient_get_area` returned) fails, the function
returns 0 and `*buffer` keeps the caller's value. -/
theorem backtransform_failure_atomic (E : Env) (iwidth iheight : ℤ)
    (g : dt_masks_point_gradient_t) (roi : dt_iop_roi_t) (buffer : List ℚ) (s : MaskState)
    (hroi : E.dt_dev_distort_backtransform_plus (roi_points roi) = none)
    (hmask : E.dt_dev_distort_backtransform_plus
      (mask_points (_gradient_get_area E iwidth iheight s.area).2) = none) :
    _gradient_get_mask_roi E iwidth iheight g roi buffer = (0, buffer)
    ∧ (_gradient_get_mask E iwidth iheight g s).1 = 0
    ∧ (_gradient_get_mask E iwidth iheight g s).2.buffer = s.buffer := by
  refine ⟨?_, ?_⟩
  · simp only [_gradient_get_mask_roi, hroi]
    split_ifs <;> rfl
  · unfold _gradient_get_mask
    split
    · exact ⟨rfl, rfl⟩
    · next r a hne heq =>
      rw [heq] at hmask
      simp only [hmask]
      split_ifs <;> exact ⟨rfl, rfl⟩

/-- C7, at concrete inputs: the environment whose back-transform always fails, a 400 x 300
image, a one-pixel region and a caller buffer holding 7. -/
theorem backtransform_failure_atomic_witness :
    _gradient_get_mask_roi backFailEnv 400 300 sample_linear
        { x := 0, y := 176, width := 1, height := 1, scale := 1 } [7] = (0, [7])
    ∧ (_gradient_get_mask backFailEnv 400 300 sample_linear
        { buffer := some [7], area := ⟨0, 0, 0, 0⟩ }).1 = 0
    ∧ (_gradient_get_mask backFailEnv 400 300 sample_linear
        { buffer := some [7], area := ⟨0, 0, 0, 0⟩ }).2.buffer = some [7] :=
  backtransform_failure_atomic backFailEnv 400 300 sample_linear
    { x := 0, y := 176, width := 1, height := 1, scale := 1 } [7]
    { buffer := some [7], area := ⟨0, 0, 0, 0⟩ } rfl rfl

/-- C8, the code at the failing input: for a 5 x 4 image whose corners are moved 10
pixels to the left by the transform, to (-10,0), (-5,0), (-5,4), (-10,4), the bounding box
is 5 wide, but `_gradient_get_area` returns width 10: the maximum search starts from
`FLT_MIN`, the smallest positive float, which stays the "maximum" of negative abscissas. -/
theorem area_of_negative_corners :
    shiftEnv.dt_dev_distort_transform_plus [(0, 0), (5, 0), (5, 4), (0, 4)]
      = some [(-10, 0), (-5, 0), (-5, 4), (-10, 4)]
    ∧ _gradient_get_area shiftEnv 5 4 ⟨0, 0, 0, 0⟩
      = (1, { width := 10, height := 4, posx := -10, posy := 0 })
    ∧ (area_minmax [(-10, 0), (-5, 0), (-5, 4), (-10, 4)]).2.1 = FLT_MIN := by
  decide!

/-- C9: failing forward transform. If `dt_dev_distort_transform` fails on the buffer of
anchor, pivots and line points, `_gradient_get_points` returns 0 with `*points = NULL` and
`*points_count = 0`, and `_gradient_get_points_border` returns 0 with the same empty
center line and without touching `border` and `border_count`. -/
theorem forward_failure_no_outline (E : Env) (iwidth iheight : ℤ)
    (g : dt_masks_point_gradient_t) (want_border : Bool) (s : OutlineState)
    (hfail : E.dt_dev_distort_transform
      (gradient_points_raw E iwidth iheight g.anchor.1 g.anchor.2 g.rotation g.curvature)
        = none) :
    _gradient_get_points E iwidth iheight g.anchor.1 g.anchor.2 g.rotation g.curvature
      = { ret := 0, points := none, points_count := 0 }
    ∧ _gradient_get_points_border E iwidth iheight g want_border s
      = (0, { s with points := none, points_count := 0 }) := by
  have h1 : _gradient_get_points E iwidth iheight g.anchor.1 g.anchor.2 g.rotation g.curvature
      = { ret := 0, points := none, points_count := 0 } := by
    simp only [_gradient_get_points, hfail]
    split_ifs <;> rfl
  refine ⟨h1, ?_⟩
  simp [_gradient_get_points_border, h1]

/-- C9, at concrete inputs: the environment whose forward transform always fails, a
400 x 300 image, a caller that asks for the border and holds stale values. -/
theorem forward_failure_no_outline_witness :
    _gradient_get_points forwardFailEnv 400 300 sample_centre.anchor.1 sample_centre.anchor.2
        sample_centre.rotation sample_centre.curvature
      = { ret := 0, points := none, points_count := 0 }
    ∧ _gradient_get_points_border forwardFailEnv 400 300 sample_centre true
        { points := some [(1, 1)], points_count := 1, border := some [none], border_count := 1 }
      = (0, { points := none, points_count := 0, border := some [none], border_count := 1 }) :=
  forward_failure_no_outline forwardFailEnv 400 300 sample_centre true
    { points := some [(1, 1)], points_count := 1, border := some [none], border_count := 1 }
    rfl

/-- C10, the code at the failing input: on a 4 x 3 image with the identity transform, the
gradient anchored at the centre with compression 1 has both border lines outside the
frame, so `_gradient_get_pts_border` fails and `_gradient_get_points_border` returns 0
with an empty border, but the center line it generated before stays in `points`, with
`points_count = 8`. -/
theorem points_border_failure_keeps_points :
    (_gradient_get_points_border refEnv 4 3 sample_centre true
      { points := none, points_count := 0, border := none, border_count := 0 }).1 = 0
    ∧ (_gradient_get_points_border refEnv 4 3 sample_centre true
      { points := none, points_count := 0, border := none, border_count := 0 }).2.border = none
    ∧ (_gradient_get_points_border refEnv 4 3 sample_centre true
      { points := none, points_count := 0, border := none, border_count := 0 }).2.points_count
        = 8
    ∧ ((_gradient_get_points_border refEnv 4 3 sample_centre true
      { points := none, points_count := 0, border := none, border_count := 0 }).2.points.map
        (fun l => l.drop 3)) = some [(-3, 3 / 2), (-1, 3 / 2), (1, 3 / 2), (3, 3 / 2), (5, 3 / 2)]
            := by
  decide!

/-! ### Auxiliary facts for the hit test, the outline, the table and the grid -/

theorem toInt_mem (q : ℚ) (a b : ℤ) (ha : (a : ℚ) ≤ q) (hb : q ≤ (b : ℚ)) :
    a ≤ toInt q ∧ toInt q ≤ b := by
  unfold toInt
  split_ifs with h
  · exact ⟨Int.le_floor.mpr ha, by exact_mod_cast (Int.floor_le q).trans hb⟩
  · exact ⟨by exact_mod_cast ha.trans (Int.le_ceil q), Int.ceil_le.mpr hb⟩

theorem toInt_intCast (n : ℤ) : toInt (n : ℚ) = n := by
  have h := toInt_mem (n : ℚ) n n le_rfl le_rfl
  omega

theorem ihwscale_eq (E : Env) (iwidth iheight : ℤ) (g : dt_masks_point_gradient_t) :
    (field_consts E iwidth iheight g).ihwscale
      = E.sqrtf ((iwidth : ℚ) * iwidth + (iheight : ℚ) * iheight) := by
  simp [field_consts]

theorem lutmax_eq (E : Env) (iwidth iheight : ℤ) (g : dt_masks_point_gradient_t) :
    (field_consts E iwidth iheight g).lutmax
      = ⌈4 * (field_consts E iwidth iheight g).compression
          * (field_consts E iwidth iheight g).ihwscale⌉ := by
  show toInt (ceilf _) = _
  unfold ceilf
  exact toInt_intCast _

theorem lut_length (E : Env) (c : FieldConsts) :
    (gradient_lut E c).length = c.lutsize.toNat := by
  simp [gradient_lut]

theorem clamp_eq (v : ℚ) :
    (if v < 0 then 0 else if v > 1 then 1 else v) = max 0 (min 1 v) := by
  split_ifs with h1 h2
  · rw [max_eq_left]; exact (min_le_right _ _).trans h1.le
  · rw [min_eq_left h2.le, max_eq_right zero_le_one]
  · rw [min_eq_right (not_lt.mp h2), max_eq_right (not_lt.mp h1)]

theorem lut_getElem (E : Env) (c : FieldConsts) (n : ℕ) (hn : (n : ℤ) < c.lutsize) :
    (gradient_lut E c)[n]? = some (lut_entry E c (n : ℤ)) := by
  unfold gradient_lut
  rw [List.getElem?_map, List.getElem?_range (by omega)]
  rfl

theorem lookup_intCast (lut : ℤ → ℚ) (k : ℤ) : dt_gradient_lookup lut (k : ℚ) = lut k := by
  have h1 : toInt ((k : ℚ) + 1) = k + 1 := by
    have := toInt_intCast (k + 1)
    push_cast at this
    exact this
  unfold dt_gradient_lookup
  simp only [toInt_intCast, h1]
  ring

theorem clut_entry (E : Env) (c : FieldConsts) (k : ℤ) (h0 : 0 ≤ c.lutmax + k)
    (h1 : c.lutmax + k < c.lutsize) :
    clut (gradient_lut E c) c.lutmax k = lut_entry E c (c.lutmax + k) := by
  unfold clut
  rw [if_pos h0, List.getD_eq_getElem?_getD, lut_getElem E c _ (by omega),
    Int.toNat_of_nonneg h0]
  rfl

theorem get_points_length (E : Env) (iwidth iheight : ℤ) (x y rotation curvature : ℚ)
    (hlen : ∀ pts q, E.dt_dev_distort_transform pts = some q → q.length = pts.length)
    (hret : (_gradient_get_points E iwidth iheight x y rotation curvature).ret ≠ 0) :
    ∃ q, (_gradient_get_points E iwidth iheight x y rotation curvature).points = some q
      ∧ ((q.length : ℕ) : ℤ)
          = (_gradient_get_points E iwidth iheight x y rotation curvature).points_count := by
  unfold _gradient_get_points at hret ⊢
  simp only at hret ⊢
  split_ifs at hret ⊢ with ha
  · exact absurd rfl hret
  · cases ht : E.dt_dev_distort_transform
        (gradient_points_raw E iwidth iheight x y rotation curvature) with
    | none => rw [ht] at hret; exact absurd rfl hret
    | some q => exact ⟨q, rfl, by rw [hlen _ _ ht]⟩

theorem line_part_eq (r : PointsOut) (q : List (ℚ × ℚ)) (hq : r.points = some q)
    (hl : ((q.length : ℕ) : ℤ) = r.points_count) :
    line_part r = ((r.points.getD []).drop 3).map some
      ∧ ((line_part r).length : ℤ) = r.points_count - 3 + (if r.points_count < 3 then 3 -
          r.points_count else 0) := by
  unfold line_part
  have e : r.points_count.toNat = q.length := by omega
  rw [hq, Option.getD_some, e, List.take_length]
  refine ⟨rfl, ?_⟩
  rw [List.length_map, List.length_drop]
  split_ifs <;> omega

theorem pts_border_unfold (E : Env) (iwidth iheight : ℤ)
    (x y rotation distance curvature : ℚ) (halloc : ∀ n, E.dt_alloc_align_float n = true) :
    _gradient_get_pts_border E iwidth iheight x y rotation distance curvature
      = (if (border_side1 E iwidth iheight x y rotation distance curvature).ret ≠ 0
            ∧ (border_side2 E iwidth iheight x y rotation distance curvature).ret ≠ 0
            ∧ (border_side1 E iwidth iheight x y rotation distance curvature).points_count > 4
            ∧ (border_side2 E iwidth iheight x y rotation distance curvature).points_count > 4
          then
            { ret := 1,
              points := some
                (line_part (border_side1 E iwidth iheight x y rotation distance curvature)
                  ++ [none]
                  ++ line_part (border_side2 E iwidth iheight x y rotation distance curvature)),
              points_count :=
                ((border_side1 E iwidth iheight x y rotation distance curvature).points_count - 3)
                + ((border_side2 E iwidth iheight x y rotation distance curvature).points_count
                    - 3) + 1 }
          else if (border_side1 E iwidth iheight x y rotation distance curvature).ret ≠ 0
            ∧ (border_side1 E iwidth iheight x y rotation distance curvature).points_count > 4
          then
            { ret := 1,
              points := some
                (line_part (border_side1 E iwidth iheight x y rotation distance curvature)),
              points_count :=
                (border_side1 E iwidth iheight x y rotation distance curvature).points_count
                  - 3 }
          else if (border_side2 E iwidth iheight x y rotation distance curvature).ret ≠ 0
            ∧ (border_side2 E iwidth iheight x y rotation distance curvature).points_count > 4
          then
            { ret := 1,
              points := some
                (line_part (border_side2 E iwidth iheight x y rotation distance curvature)),
              points_count :=
                (border_side2 E iwidth iheight x y rotation distance curvature).points_count
                  - 3 }
          else { ret := 0, points := none, points_count := 0 }) := by
  unfold _gradient_get_pts_border border_side1 border_side2
  simp only [halloc, Bool.true_eq_false, if_false]

theorem mem_line_loop (f : ℤ → ℚ × ℚ) (wd ht : ℚ) (l : List ℤ) (b : Bool) (p : ℚ × ℚ)
    (hp : p ∈ line_loop f wd ht l b) :
    ∃ i, i ∈ l ∧ p = f i ∧ out_of_frame wd ht (f i) = false := by
  induction l generalizing b with
  | nil => simp [line_loop] at hp
  | cons i rest ih =>
    unfold line_loop at hp
    by_cases ho : out_of_frame wd ht (f i) = true
    · rw [if_pos ho] at hp
      by_cases hb : (!b) = true
      · rw [if_pos hb] at hp
        obtain ⟨k, hk, h⟩ := ih b hp
        exact ⟨k, List.mem_cons_of_mem _ hk, h⟩
      · rw [if_neg hb] at hp
        simp at hp
    · rw [if_neg ho] at hp
      rcases List.mem_cons.mp hp with h | h
      · exact ⟨i, List.mem_cons_self _ _, h, by simpa using ho⟩
      · obtain ⟨k, hk, h'⟩ := ih true h
        exact ⟨k, List.mem_cons_of_mem _ hk, h'⟩

theorem mem_line_indices (count i : ℤ) (h : i ∈ line_indices count) : 3 ≤ i ∧ i < count := by
  simp only [line_indices, List.mem_map, List.mem_range] at h
  obtain ⟨k, hk, rfl⟩ := h
  omega

theorem get_points_identity (E : Env) (iwidth iheight : ℤ) (x y rotation curvature : ℚ)
    (halloc : ∀ n, E.dt_alloc_align_float n = true)
    (hid : ∀ pts, E.dt_dev_distort_transform pts = some pts) :
    _gradient_get_points E iwidth iheight x y rotation curvature
      = { ret := 1,
          points := some (gradient_points_raw E iwidth iheight x y rotation curvature),
          points_count :=
            ((gradient_points_raw E iwidth iheight x y rotation curvature).length : ℤ) } := by
  simp only [_gradient_get_points, halloc, hid, Bool.true_eq_false, if_false]

theorem grid_count_eq (w grid : ℤ) (hw : 1 ≤ w) (hg : 1 ≤ grid) :
    grid_count w grid = (w - 1) / grid + 2 := by
  unfold grid_count
  rw [Int.tdiv_eq_ediv (by omega) (by omega)]
  have : w + grid - 1 = (w - 1) + 1 * grid := by ring
  rw [this, Int.add_mul_ediv_right _ _ (by omega)]
  ring

theorem tdiv_bounds (i w grid : ℤ) (hg : 1 ≤ grid) (hi : 0 ≤ i) (hiw : i < w) :
    0 ≤ Int.tdiv i grid ∧ Int.tdiv i grid ≤ (w - 1) / grid := by
  rw [Int.tdiv_eq_ediv hi (by omega)]
  exact ⟨Int.ediv_nonneg hi (by omega), Int.ediv_le_ediv (by omega) (by omega)⟩

theorem length_mask_grid (grid gw gh px py : ℤ) :
    (mask_grid grid gw gh px py).length = gh.toNat * gw.toNat := by
  unfold mask_grid
  exact length_flatMap_range_map _ _ _

theorem length_roi_grid (grid gw gh px py : ℤ) (iscale : ℚ) :
    (roi_grid grid gw gh px py iscale).length = gh.toNat * gw.toNat := by
  unfold roi_grid
  exact length_flatMap_range_map _ _ _

theorem weighted_mean_bounds (a b c d p q r s : ℚ) (hp : 0 ≤ p) (hq : 0 ≤ q) (hr : 0 ≤ r)
    (hs : 0 ≤ s) (hsum : 0 < p + q + r + s) :
    min (min a b) (min c d) ≤ (a * p + b * q + c * r + d * s) / (p + q + r + s)
    ∧ (a * p + b * q + c * r + d * s) / (p + q + r + s) ≤ max (max a b) (max c d) := by
  have ha1 : min (min a b) (min c d) ≤ a := (min_le_left _ _).trans (min_le_left _ _)
  have hb1 : min (min a b) (min c d) ≤ b := (min_le_left _ _).trans (min_le_right _ _)
  have hc1 : min (min a b) (min c d) ≤ c := (min_le_right _ _).trans (min_le_left _ _)
  have hd1 : min (min a b) (min c d) ≤ d := (min_le_right _ _).trans (min_le_right _ _)
  have ha2 : a ≤ max (max a b) (max c d) := (le_max_left _ _).trans (le_max_left _ _)
  have hb2 : b ≤ max (max a b) (max c d) := (le_max_right _ _).trans (le_max_left _ _)
  have hc2 : c ≤ max (max a b) (max c d) := (le_max_left _ _).trans (le_max_right _ _)
  have hd2 : d ≤ max (max a b) (max c d) := (le_max_right _ _).trans (le_max_right _ _)
  generalize min (min a b) (min c d) = m at *
  generalize max (max a b) (max c d) = M at *
  constructor
  · rw [le_div_iff₀ hsum]
    nlinarith [mul_le_mul_of_nonneg_right ha1 hp, mul_le_mul_of_nonneg_right hb1 hq,
      mul_le_mul_of_nonneg_right hc1 hr, mul_le_mul_of_nonneg_right hd1 hs]
  · rw [div_le_iff₀ hsum]
    nlinarith [mul_le_mul_of_nonneg_right ha2 hp, mul_le_mul_of_nonneg_right hb2 hq,
      mul_le_mul_of_nonneg_right hc2 hr, mul_le_mul_of_nonneg_right hd2 hs]

theorem mask_identity_result (E : Env) (W H : ℕ) (g : dt_masks_point_gradient_t)
    (s : MaskState) (hW : 1 ≤ W) (hH : 1 ≤ H)
    (halloc : ∀ n, E.dt_alloc_align_float n = true)
    (htf : ∀ pts, E.dt_dev_distort_transform_plus pts = some pts)
    (hbt : ∀ pts, E.dt_dev_distort_backtransform_plus pts = some pts) :
    _gradient_get_mask E W H g s
      = (1, { buffer := some (fill_buffer (grid_values E (field_consts E W H g)
                (mask_points { width := W, height := H, posx := 0, posy := 0 })) 8
                (grid_count (W : ℤ) 8) W H),
              area := { width := W, height := H, posx := 0, posy := 0 } }) := by
  unfold _gradient_get_mask
  rw [area_identity E W H hW hH s.area htf]
  simp only [halloc, hbt]
  simp

theorem mask_identity_pixel (E : Env) (W H : ℕ) (g : dt_masks_point_gradient_t)
    (i j : ℕ) (hi : i < W) (hj : j < H) :
    (fill_buffer (grid_values E (field_consts E W H g)
        (mask_points { width := W, height := H, posx := 0, posy := 0 })) 8
        (grid_count (W : ℤ) 8) W H).getD (j * W + i) 0
      = (direct_value E W H g (((8 * (i / 8) : ℕ) : ℚ), ((8 * (j / 8) : ℕ) : ℚ))
              * ((8 - i % 8 : ℕ) : ℚ) * ((8 - j % 8 : ℕ) : ℚ)
          + direct_value E W H g (((8 * (i / 8 + 1) : ℕ) : ℚ), ((8 * (j / 8) : ℕ) : ℚ))
              * ((i % 8 : ℕ) : ℚ) * ((8 - j % 8 : ℕ) : ℚ)
          + direct_value E W H g (((8 * (i / 8) : ℕ) : ℚ), ((8 * (j / 8 + 1) : ℕ) : ℚ))
              * ((8 - i % 8 : ℕ) : ℚ) * ((j % 8 : ℕ) : ℚ)
          + direct_value E W H g (((8 * (i / 8 + 1) : ℕ) : ℚ), ((8 * (j / 8 + 1) : ℕ) : ℚ))
              * ((i % 8 : ℕ) : ℚ) * ((j % 8 : ℕ) : ℚ)) / 64 := by
  have hmi : i / 8 + 1 < (W + 7) / 8 + 1 := by omega
  have hmj : j / 8 + 1 < (H + 7) / 8 + 1 := by omega
  unfold fill_buffer
  simp only [Int.toNat_natCast]
  rw [getD_flatMap_range_map _ _ _ _ _ _ hj hi, grid_count_natCast, interpolate_nat,
    grid_node_identity E W H g W H (i / 8) (j / 8) (by omega) (by omega),
    grid_node_identity E W H g W H (i / 8 + 1) (j / 8) hmi (by omega),
    grid_node_identity E W H g W H (i / 8) (j / 8 + 1) (by omega) hmj,
    grid_node_identity E W H g W H (i / 8 + 1) (j / 8 + 1) hmi hmj]

theorem ref_erff_eq (x : ℚ) :
    ref_erff x = if x < 0 then -(1 - 1 / ref_erff_den (-x) ^ 4)
      else 1 - 1 / ref_erff_den x ^ 4 := by
  unfold ref_erff ref_erff_den fabsf
  split_ifs <;> rfl

theorem ref_erff_den_lt (a b : ℚ) (ha : 0 ≤ a) (hab : a < b) :
    ref_erff_den a < ref_erff_den b := by
  have h2 : a ^ 2 < b ^ 2 := pow_lt_pow_left₀ hab ha (by norm_num)
  have h3 : a ^ 3 < b ^ 3 := pow_lt_pow_left₀ hab ha (by norm_num)
  have h4 : a ^ 4 < b ^ 4 := pow_lt_pow_left₀ hab ha (by norm_num)
  unfold ref_erff_den
  linarith

theorem ref_erff_den_ge (a : ℚ) (ha : 0 ≤ a) : 1 ≤ ref_erff_den a := by
  have h2 : 0 ≤ a ^ 2 := by positivity
  have h3 : 0 ≤ a ^ 3 := by positivity
  have h4 : 0 ≤ a ^ 4 := by positivity
  unfold ref_erff_den
  linarith

theorem ref_erff_half_lt (a b : ℚ) (ha : 0 ≤ a) (hab : a < b) :
    1 - 1 / ref_erff_den a ^ 4 < 1 - 1 / ref_erff_den b ^ 4 := by
  have hda := ref_erff_den_ge a ha
  have hlt := ref_erff_den_lt a b ha hab
  have h4 : ref_erff_den a ^ 4 < ref_erff_den b ^ 4 :=
    pow_lt_pow_left₀ hlt (by linarith) (by norm_num)
  have hpos : 0 < ref_erff_den a ^ 4 := by positivity
  have := one_div_lt_one_div_of_lt hpos h4
  linarith

theorem ref_erff_half_range (a : ℚ) (ha : 0 ≤ a) :
    0 ≤ 1 - 1 / ref_erff_den a ^ 4 ∧ 1 - 1 / ref_erff_den a ^ 4 < 1 := by
  have hda := ref_erff_den_ge a ha
  have h1 : 1 ≤ ref_erff_den a ^ 4 := one_le_pow₀ hda
  have hpos : 0 < ref_erff_den a ^ 4 := by linarith
  have h2 : 1 / ref_erff_den a ^ 4 ≤ 1 := by
    rw [div_le_iff₀ hpos]; linarith
  have h3 : 0 < 1 / ref_erff_den a ^ 4 := by positivity
  constructor <;> linarith

theorem ref_erff_strictMono (a b : ℚ) (hab : a < b) : ref_erff a < ref_erff b := by
  rw [ref_erff_eq, ref_erff_eq]
  by_cases ha : a < 0
  · rw [if_pos ha]
    by_cases hb : b < 0
    · rw [if_pos hb]
      have := ref_erff_half_lt (-b) (-a) (by linarith) (by linarith)
      linarith
    · rw [if_neg hb]
      have h1 := ref_erff_half_lt 0 (-a) le_rfl (by linarith)
      have h0 := (ref_erff_half_range 0 le_rfl).1
      have h2 := (ref_erff_half_range b (by linarith)).1
      linarith
  · rw [if_neg ha, if_neg (by linarith)]
    exact ref_erff_half_lt a b (by linarith) hab

theorem ref_erff_range (a : ℚ) : -1 < ref_erff a ∧ ref_erff a < 1 := by
  rw [ref_erff_eq]
  by_cases ha : a < 0
  · rw [if_pos ha]
    have := ref_erff_half_range (-a) (by linarith)
    constructor <;> linarith [this.1, this.2]
  · rw [if_neg ha]
    have := ref_erff_half_range a (by linarith)
    constructor <;> linarith [this.1, this.2]

theorem ref_erff_small (a : ℚ) (ha : |a| ≤ 1 / 10) : |ref_erff a| ≤ 1 / 5 := by
  have hval : 1 - 1 / ref_erff_den (1 / 10) ^ 4 ≤ 1 / 5 := by
    unfold ref_erff_den; norm_num
  have hle : ∀ t : ℚ, 0 ≤ t → t ≤ 1 / 10 → 1 - 1 / ref_erff_den t ^ 4 ≤ 1 / 5 := by
    intro t h0 h1
    rcases eq_or_lt_of_le h1 with h | h
    · rw [h]; exact hval
    · exact (ref_erff_half_lt t (1 / 10) h0 h).le.trans hval
  rw [abs_le] at ha ⊢
  rw [ref_erff_eq]
  by_cases h : a < 0
  · rw [if_pos h]
    have h1 := hle (-a) (by linarith) (by linarith [ha.1])
    have h2 := (ref_erff_half_range (-a) (by linarith)).1
    constructor <;> linarith
  · rw [if_neg h]
    have h1 := hle a (by linarith) ha.2
    have h2 := (ref_erff_half_range a (by linarith)).1
    constructor <;> linarith

theorem scenario_consts (E : Env) (hsin : E.sinf 0 = 0) (hcos : E.cosf 0 = 1) :
    field_consts E 100 100 sample_scenario
      = { hwscale := 1 / E.sqrtf 20000, ihwscale := E.sqrtf 20000, sinv := 0, cosv := 1,
          xoffset := 50, yoffset := -50, compression := 1 / 2, normf := 2, curvature := 0,
          state := DT_MASKS_GRADIENT_STATE_SIGMOIDAL, lutmax := ⌈2 * E.sqrtf 20000⌉,
          lutsize := 2 * ⌈2 * E.sqrtf 20000⌉ + 2 } := by
  have h20 : ((100 : ℤ) : ℚ) * ((100 : ℤ) : ℚ) + ((100 : ℤ) : ℚ) * ((100 : ℤ) : ℚ) = 20000 := by
    norm_num
  have hf : fmaxf (1 / 2) (1 / 1000) = 1 / 2 := by unfold fmaxf; norm_num
  have hv : (-(0 : ℚ) / 180) * E.M_PI = 0 := by norm_num
  have hL : toInt (ceilf (4 * (1 / 2) * (1 / (1 / E.sqrtf 20000)))) = ⌈2 * E.sqrtf 20000⌉ := by
    unfold ceilf
    rw [toInt_intCast]
    congr 1
    rw [one_div_one_div]
    ring
  have hL2 : toInt (ceilf (2 * E.sqrtf 20000)) = ⌈2 * E.sqrtf 20000⌉ := by
    unfold ceilf
    exact toInt_intCast _
  simp only [field_consts, sample_scenario, h20, hf, hv, hsin, hcos, hL, one_div_one_div]
  norm_num
  exact hL2

/-- The node value of the scenario gradient at the point `(x, y)` of the 100 x 100 image,
`y` an integer between -4 and 104. -/
theorem scenario_node (E : Env) (x : ℚ) (y : ℤ)
    (hsin : E.sinf 0 = 0) (hcos : E.cosf 0 = 1)
    (hs : 141 < E.sqrtf 20000)
    (hbound : ∀ a, -1 < E.erff a ∧ E.erff a < 1)
    (hy1 : -4 ≤ y) (hy2 : y ≤ 104) :
    direct_value E 100 100 sample_scenario (x, (y : ℚ))
      = 1 / 2 + 1 / 2 * E.erff (2 * ((50 - y : ℤ) : ℚ) / E.sqrtf 20000) := by
  unfold direct_value field_value
  rw [scenario_consts E hsin hcos]
  generalize E.sqrtf 20000 = s at *
  have hspos : 0 < s := by linarith
  have hnd : node_distance
      { hwscale := 1 / s, ihwscale := s, sinv := 0, cosv := 1,
        xoffset := 50, yoffset := -50, compression := 1 / 2, normf := 2, curvature := 0,
        state := DT_MASKS_GRADIENT_STATE_SIGMOIDAL, lutmax := ⌈2 * s⌉,
        lutsize := 2 * ⌈2 * s⌉ + 2 } (x, (y : ℚ))
      = ((50 - y : ℤ) : ℚ) * (1 / s) := by
    simp only [node_distance]
    push_cast
    ring
  rw [hnd]
  generalize hk : (50 - y : ℤ) = k
  have hk1 : -54 ≤ k := by omega
  have hk2 : k ≤ 54 := by omega
  have hLlo : (282 : ℤ) ≤ ⌈2 * s⌉ := by
    apply Int.le_ceil_iff.mpr
    push_cast
    linarith
  have hkq1 : (-54 : ℚ) ≤ (k : ℚ) := by exact_mod_cast hk1
  have hkq2 : (k : ℚ) ≤ 54 := by exact_mod_cast hk2
  have hdiv : (k : ℚ) * (1 / s) * s = k := by field_simp
  have hks : (k : ℚ) * (1 / s) = (k : ℚ) / s := by ring
  have hlo : ¬ ((k : ℚ) * (1 / s) ≤ -4 * (1 / 2)) := by
    rw [not_le, hks, lt_div_iff₀ hspos]; linarith
  have hhi : ¬ ((k : ℚ) * (1 / s) ≥ 4 * (1 / 2)) := by
    rw [ge_iff_le, not_le, hks, div_lt_iff₀ hspos]; linarith
  have hne : ¬ (DT_MASKS_GRADIENT_STATE_SIGMOIDAL = DT_MASKS_GRADIENT_STATE_LINEAR) := by
    decide
  unfold node_value
  simp only []
  rw [if_neg hlo, if_neg hhi, hdiv, lookup_intCast,
    clut_entry E _ k (by simp only []; omega) (by simp only []; omega)]
  unfold lut_entry
  simp only [add_sub_cancel_left]
  rw [if_neg hne]
  have harg : (k : ℚ) * (1 / s) / (1 / 2) = 2 * (k : ℚ) / s := by field_simp; ring
  rw [harg]
  obtain ⟨hb1, hb2⟩ := hbound (2 * (k : ℚ) / s)
  rw [if_neg (by linarith), if_neg (by linarith)]

theorem scenario_pixel (E : Env) (x y : ℕ) (hx : x < 100) (hy : y < 100)
    (halloc : ∀ n, E.dt_alloc_align_float n = true)
    (htf : ∀ pts, E.dt_dev_distort_transform_plus pts = some pts)
    (hbt : ∀ pts, E.dt_dev_distort_backtransform_plus pts = some pts)
    (hsin : E.sinf 0 = 0) (hcos : E.cosf 0 = 1)
    (hs : 141 < E.sqrtf 20000)
    (hbound : ∀ a, -1 < E.erff a ∧ E.erff a < 1) :
    mask_pixel E 100 100 sample_scenario x y
      = ((1 / 2 + 1 / 2 * E.erff (2 * ((50 - (8 * (y / 8) : ℕ) : ℤ) : ℚ) / E.sqrtf 20000))
            * ((8 - y % 8 : ℕ) : ℚ)
          + (1 / 2 + 1 / 2 * E.erff (2 * ((50 - (8 * (y / 8 + 1) : ℕ) : ℤ) : ℚ) / E.sqrtf 20000))
            * ((y % 8 : ℕ) : ℚ)) / 8 := by
  have hr := mask_identity_result E 100 100 sample_scenario
    { buffer := none, area := ⟨0, 0, 0, 0⟩ } (by norm_num) (by norm_num) halloc htf hbt
  have hv := mask_identity_pixel E 100 100 sample_scenario x y hx hy
  have hD := fun (a : ℚ) (b : ℕ) (hb : b ≤ 104) =>
    scenario_node E a (b : ℤ) hsin hcos hs hbound (by omega) (by omega)
  simp only [Nat.cast_ofNat, Int.cast_natCast] at hr hv hD
  have hpix : mask_pixel E 100 100 sample_scenario x y
      = (fill_buffer (grid_values E (field_consts E 100 100 sample_scenario)
          (mask_points { width := 100, height := 100, posx := 0, posy := 0 })) 8
          (grid_count 100 8) 100 100).getD (y * 100 + x) 0 := by
    unfold mask_pixel
    simp only [hr]
    rfl
  rw [hpix, hv, hD _ _ (by omega), hD _ _ (by omega), hD _ _ (by omega), hD _ _ (by omega)]
  have hxm : ((8 - x % 8 : ℕ) : ℚ) + ((x % 8 : ℕ) : ℚ) = 8 := by
    have : 8 - x % 8 + x % 8 = 8 := by omega
    exact_mod_cast this
  generalize ((8 - x % 8 : ℕ) : ℚ) = p at *
  generalize ((x % 8 : ℕ) : ℚ) = q at *
  have hp : p = 8 - q := by linarith
  subst hp
  ring

/-! ### Hit test, border, outline, scenario, table and grid -/

/-- C11: hit-test classification. For an outline `gpt` found at `index`, every cursor
`(x, y)` and threshold `as`: `near` is -1 and `inside_source` is 0; if the anchor or a
pivot (points 0, 1, 2) is at squared distance below `as * as`, then `inside = 1` and
`inside_border = 0` whatever the other vertices are; otherwise, if a border vertex is,
then `inside_border = 1` and `inside = 0` even when a center-line vertex is in range too;
otherwise `inside = 1` exactly when a center-line vertex of index at least 3 is, and
`inside_border = 0`. -/
theorem hit_test_classification (x y as : ℚ) (gui_points : List dt_masks_form_gui_points_t)
    (index num_points : ℤ) (gpt : dt_masks_form_gui_points_t) (s : HitState)
    (hgpt : g_list_nth_data gui_points index = some gpt) :
    (_gradient_get_distance x y as (some gui_points) index num_points s).near = -1
    ∧ (_gradient_get_distance x y as (some gui_points) index num_points s).inside_source = 0
    ∧ ((sq_dist x y (gpt.points.getD 0 (0, 0)) < as * as
          ∨ sq_dist x y (gpt.points.getD 1 (0, 0)) < as * as
          ∨ sq_dist x y (gpt.points.getD 2 (0, 0)) < as * as) →
        (_gradient_get_distance x y as (some gui_points) index num_points s).inside = 1
        ∧ (_gradient_get_distance x y as (some gui_points) index num_points s).inside_border
            = 0)
    ∧ (¬ (sq_dist x y (gpt.points.getD 0 (0, 0)) < as * as
          ∨ sq_dist x y (gpt.points.getD 1 (0, 0)) < as * as
          ∨ sq_dist x y (gpt.points.getD 2 (0, 0)) < as * as) →
        ((∃ i : ℕ, (i : ℤ) < gpt.border_count
            ∧ ∃ p, gpt.border.getD i none = some p ∧ sq_dist x y p < as * as) →
          (_gradient_get_distance x y as (some gui_points) index num_points s).inside_border
              = 1
          ∧ (_gradient_get_distance x y as (some gui_points) index num_points s).inside = 0)
        ∧ (¬ (∃ i : ℕ, (i : ℤ) < gpt.border_count
            ∧ ∃ p, gpt.border.getD i none = some p ∧ sq_dist x y p < as * as) →
          (_gradient_get_distance x y as (some gui_points) index num_points s).inside_border
              = 0
          ∧ ((_gradient_get_distance x y as (some gui_points) index num_points s).inside = 1
              ↔ ∃ i : ℕ, 3 ≤ i ∧ (i : ℤ) < gpt.points_count
                  ∧ sq_dist x y (gpt.points.getD i (0, 0)) < as * as)
          ∧ ((_gradient_get_distance x y as (some gui_points) index num_points s).inside = 0
              ∨ (_gradient_get_distance x y as (some gui_points) index num_points s).inside
                  = 1))) := by
  have hb : ((List.range gpt.border_count.toNat).any
        (fun (i : ℕ) => border_hit x y (as * as) (gpt.border.getD i none)) = true)
      ↔ ∃ i : ℕ, (i : ℤ) < gpt.border_count
            ∧ ∃ p, gpt.border.getD i none = some p ∧ sq_dist x y p < as * as := by
    simp only [List.any_eq_true, List.mem_range]
    constructor
    · rintro ⟨i, hi, h⟩
      refine ⟨i, by omega, ?_⟩
      cases hbi : gpt.border.getD i none with
      | none => rw [hbi] at h; simp [border_hit] at h
      | some p => rw [hbi] at h; exact ⟨p, rfl, by simpa [border_hit] using h⟩
    · rintro ⟨i, hi, p, hp, h⟩
      exact ⟨i, by omega, by rw [hp]; simpa [border_hit] using h⟩
  have hl : ((line_indices gpt.points_count).any
        (fun (i : ℤ) => decide (sq_dist x y (gpt.points.getD i.toNat (0, 0)) < as * as)) = true)
      ↔ ∃ i : ℕ, 3 ≤ i ∧ (i : ℤ) < gpt.points_count
            ∧ sq_dist x y (gpt.points.getD i (0, 0)) < as * as := by
    simp only [List.any_eq_true, line_indices, List.mem_map, List.mem_range, decide_eq_true_eq]
    constructor
    · rintro ⟨i, ⟨k, hk, rfl⟩, h⟩
      refine ⟨3 + k, by omega, by push_cast; omega, ?_⟩
      have e : ((3 : ℤ) + (k : ℤ)).toNat = 3 + k := by omega
      rwa [e] at h
    · rintro ⟨i, h3, hi, h⟩
      refine ⟨(i : ℤ), ⟨i - 3, by omega, by omega⟩, ?_⟩
      simpa using h
  unfold _gradient_get_distance
  simp only [hgpt]
  by_cases hk : (sq_dist x y (gpt.points.getD 0 (0, 0)) < as * as
          ∨ sq_dist x y (gpt.points.getD 1 (0, 0)) < as * as
          ∨ sq_dist x y (gpt.points.getD 2 (0, 0)) < as * as)
  · rw [if_pos hk]
    exact ⟨rfl, rfl, fun _ => ⟨rfl, rfl⟩, fun h => absurd hk h⟩
  · rw [if_neg hk]
    by_cases hbb : (List.range gpt.border_count.toNat).any
        (fun (i : ℕ) => border_hit x y (as * as) (gpt.border.getD i none)) = true
    · rw [if_pos hbb]
      exact ⟨rfl, rfl, fun h => absurd h hk,
        fun _ => ⟨fun _ => ⟨rfl, rfl⟩, fun h => absurd (hb.mp hbb) h⟩⟩
    · rw [if_neg hbb]
      by_cases hll : (line_indices gpt.points_count).any
        (fun (i : ℤ) => decide (sq_dist x y (gpt.points.getD i.toNat (0, 0)) < as * as)) = true
      · rw [if_pos hll]
        exact ⟨rfl, rfl, fun h => absurd h hk,
          fun _ => ⟨fun h => absurd (hb.mpr h) hbb,
            fun _ => ⟨rfl, ⟨fun _ => hl.mp hll, fun _ => rfl⟩, Or.inr rfl⟩⟩⟩
      · rw [if_neg hll]
        exact ⟨rfl, rfl, fun h => absurd h hk,
          fun _ => ⟨fun h => absurd (hb.mpr h) hbb,
            fun _ => ⟨rfl, ⟨fun h => absurd h (by decide), fun h => absurd (hl.mpr h) hll⟩,
              Or.inl rfl⟩⟩⟩

/-- C11, at concrete inputs: the sample outline, the cursor (0, 40) and the threshold 15.
The border vertex (0, 30) and the center-line vertex (0, 50) are both in range, the anchor
and the pivots are not. -/
theorem hit_test_classification_witness :
    (_gradient_get_distance 0 40 15 (some [sample_outline]) 0 0 ⟨9, 9, 9, 9⟩).near = -1
    ∧ (_gradient_get_distance 0 40 15 (some [sample_outline]) 0 0 ⟨9, 9, 9, 9⟩).inside_source = 0
    ∧ ((sq_dist 0 40 (sample_outline.points.getD 0 (0, 0)) < 15 * 15
          ∨ sq_dist 0 40 (sample_outline.points.getD 1 (0, 0)) < 15 * 15
          ∨ sq_dist 0 40 (sample_outline.points.getD 2 (0, 0)) < 15 * 15) →
        (_gradient_get_distance 0 40 15 (some [sample_outline]) 0 0 ⟨9, 9, 9, 9⟩).inside = 1
        ∧ (_gradient_get_distance 0 40 15 (some [sample_outline]) 0 0 ⟨9, 9, 9, 9⟩).inside_border
            = 0)
    ∧ (¬ (sq_dist 0 40 (sample_outline.points.getD 0 (0, 0)) < 15 * 15
          ∨ sq_dist 0 40 (sample_outline.points.getD 1 (0, 0)) < 15 * 15
          ∨ sq_dist 0 40 (sample_outline.points.getD 2 (0, 0)) < 15 * 15) →
        ((∃ i : ℕ, (i : ℤ) < sample_outline.border_count
            ∧ ∃ p, sample_outline.border.getD i none = some p ∧ sq_dist 0 40 p < 15 * 15) →
          (_gradient_get_distance 0 40 15 (some [sample_outline]) 0 0 ⟨9, 9, 9, 9⟩).inside_border
              = 1
          ∧ (_gradient_get_distance 0 40 15 (some [sample_outline]) 0 0 ⟨9, 9, 9, 9⟩).inside = 0)
        ∧ (¬ (∃ i : ℕ, (i : ℤ) < sample_outline.border_count
            ∧ ∃ p, sample_outline.border.getD i none = some p ∧ sq_dist 0 40 p < 15 * 15) →
          (_gradient_get_distance 0 40 15 (some [sample_outline]) 0 0 ⟨9, 9, 9, 9⟩).inside_border
              = 0
          ∧ ((_gradient_get_distance 0 40 15 (some [sample_outline]) 0 0 ⟨9, 9, 9, 9⟩).inside = 1
              ↔ ∃ i : ℕ, 3 ≤ i ∧ (i : ℤ) < sample_outline.points_count
                  ∧ sq_dist 0 40 (sample_outline.points.getD i (0, 0)) < 15 * 15)
          ∧ ((_gradient_get_distance 0 40 15 (some [sample_outline]) 0 0 ⟨9, 9, 9, 9⟩).inside = 0
              ∨ (_gradient_get_distance 0 40 15 (some [sample_outline]) 0 0 ⟨9, 9, 9, 9⟩).inside
                  = 1))) :=
  hit_test_classification 0 40 15 [sample_outline] 0 0 sample_outline
    ⟨9, 9, 9, 9⟩ rfl

/-- C12: border assembly, with successful allocations and a distortion that keeps the
number of points. `r1` and `r2` are the results of the two calls of
`_gradient_get_points`, `n1` and `n2` their point counts. When both sides succeed with
more than 4 points, the border is the line vertices of side 1 (indices 3 to `n1 - 1`, in
order), one `(INFINITY, INFINITY)` pair at index `n1 - 3`, then the line vertices of side
2, `(n1 - 3) + (n2 - 3) + 1` vertices in all; when only one side qualifies it is that
side's line vertices and nothing else; when neither qualifies the function returns 0 with
`*points = NULL` and `*points_count = 0`. -/
theorem border_assembly (E : Env) (iwidth iheight : ℤ) (x y rotation distance curvature : ℚ)
    (r1 r2 : PointsOut)
    (halloc : ∀ n, E.dt_alloc_align_float n = true)
    (hlen : ∀ pts q, E.dt_dev_distort_transform pts = some q → q.length = pts.length)
    (h1 : border_side1 E iwidth iheight x y rotation distance curvature = r1)
    (h2 : border_side2 E iwidth iheight x y rotation distance curvature = r2) :
    ((r1.ret ≠ 0 ∧ r1.points_count > 4) ∧ (r2.ret ≠ 0 ∧ r2.points_count > 4) →
        _gradient_get_pts_border E iwidth iheight x y rotation distance curvature
          = { ret := 1,
              points := some (((r1.points.getD []).drop 3).map some ++ [none]
                ++ ((r2.points.getD []).drop 3).map some),
              points_count := (r1.points_count - 3) + (r2.points_count - 3) + 1 }
        ∧ (((r1.points.getD []).drop 3).length : ℤ) = r1.points_count - 3
        ∧ (((r2.points.getD []).drop 3).length : ℤ) = r2.points_count - 3
        ∧ ((((r1.points.getD []).drop 3).map some ++ [none]
              ++ ((r2.points.getD []).drop 3).map some).length : ℤ)
            = (r1.points_count - 3) + (r2.points_count - 3) + 1
        ∧ (((r1.points.getD []).drop 3).map some ++ [none]
              ++ ((r2.points.getD []).drop 3).map some)[(r1.points_count - 3).toNat]?
            = some none)
    ∧ ((r1.ret ≠ 0 ∧ r1.points_count > 4) ∧ ¬ (r2.ret ≠ 0 ∧ r2.points_count > 4) →
        _gradient_get_pts_border E iwidth iheight x y rotation distance curvature
          = { ret := 1, points := some (((r1.points.getD []).drop 3).map some),
              points_count := r1.points_count - 3 }
        ∧ (((r1.points.getD []).drop 3).length : ℤ) = r1.points_count - 3)
    ∧ (¬ (r1.ret ≠ 0 ∧ r1.points_count > 4) ∧ (r2.ret ≠ 0 ∧ r2.points_count > 4) →
        _gradient_get_pts_border E iwidth iheight x y rotation distance curvature
          = { ret := 1, points := some (((r2.points.getD []).drop 3).map some),
              points_count := r2.points_count - 3 }
        ∧ (((r2.points.getD []).drop 3).length : ℤ) = r2.points_count - 3)
    ∧ (¬ (r1.ret ≠ 0 ∧ r1.points_count > 4) ∧ ¬ (r2.ret ≠ 0 ∧ r2.points_count > 4) →
        _gradient_get_pts_border E iwidth iheight x y rotation distance curvature
          = { ret := 0, points := none, points_count := 0 }) := by
  have key : ∀ r : PointsOut,
      (∃ a b, _gradient_get_points E iwidth iheight a b rotation curvature = r) →
      r.ret ≠ 0 → r.points_count > 4 →
        line_part r = ((r.points.getD []).drop 3).map some
        ∧ (((r.points.getD []).drop 3).length : ℤ) = r.points_count - 3 := by
    rintro r ⟨a, b, rfl⟩ hret hn
    obtain ⟨q, hq, hl⟩ := get_points_length E iwidth iheight a b rotation curvature hlen hret
    have h := line_part_eq _ q hq hl
    refine ⟨h.1, ?_⟩
    rw [hq, Option.getD_some, List.length_drop]
    omega
  have k1 := key r1 ⟨_, _, h1⟩
  have k2 := key r2 ⟨_, _, h2⟩
  rw [pts_border_unfold E iwidth iheight x y rotation distance curvature halloc, h1, h2]
  refine ⟨?_, ?_, ?_, ?_⟩
  · rintro ⟨⟨a1, b1⟩, ⟨a2, b2⟩⟩
    obtain ⟨e1, l1⟩ := k1 a1 b1
    obtain ⟨e2, l2⟩ := k2 a2 b2
    rw [if_pos ⟨a1, a2, b1, b2⟩, e1, e2]
    refine ⟨rfl, l1, l2, ?_, ?_⟩
    · simp only [List.length_append, List.length_map, List.length_singleton]
      push_cast
      omega
    · have hidx : (r1.points_count - 3).toNat
          = (List.map some ((r1.points.getD []).drop 3)).length := by
        rw [List.length_map]; omega
      rw [hidx, List.append_assoc, List.getElem?_append_right (le_refl _), Nat.sub_self]
      simp
  · rintro ⟨⟨a1, b1⟩, hn2⟩
    obtain ⟨e1, l1⟩ := k1 a1 b1
    rw [if_neg (fun h => hn2 ⟨h.2.1, h.2.2.2⟩), if_pos ⟨a1, b1⟩, e1]
    exact ⟨rfl, l1⟩
  · rintro ⟨hn1, ⟨a2, b2⟩⟩
    obtain ⟨e2, l2⟩ := k2 a2 b2
    rw [if_neg (fun h => hn1 ⟨h.1, h.2.2.1⟩), if_neg hn1, if_pos ⟨a2, b2⟩, e2]
    exact ⟨rfl, l2⟩
  · rintro ⟨hn1, hn2⟩
    rw [if_neg (fun h => hn1 ⟨h.1, h.2.2.1⟩), if_neg hn1, if_neg hn2]

/-- C12, at concrete inputs: a 4 x 3 image with the identity transform and the gradient
anchored at the centre with compression 1/2, both of whose border lines are in the
frame. -/
theorem border_assembly_witness :
    (((border_side1 refEnv 4 3 (1 / 2) (1 / 2) 0 (1 / 2) 0).ret ≠ 0 ∧ (border_side1 refEnv 4 3 (1
        / 2) (1 / 2) 0 (1 / 2) 0).points_count > 4) ∧ ((border_side2 refEnv 4 3 (1 / 2) (1 / 2) 0
        (1 / 2) 0).ret ≠ 0 ∧ (border_side2 refEnv 4 3 (1 / 2) (1 / 2) 0 (1 / 2) 0).points_count >
        4) →
        _gradient_get_pts_border refEnv 4 3 (1 / 2) (1 / 2) 0 (1 / 2) 0
          = { ret := 1,
              points := some ((((border_side1 refEnv 4 3 (1 / 2) (1 / 2) 0 (1 / 2) 0).points.getD
                  []).drop 3).map some ++ [none]
                ++ (((border_side2 refEnv 4 3 (1 / 2) (1 / 2) 0 (1 / 2) 0).points.getD []).drop
                    3).map some),
              points_count := ((border_side1 refEnv 4 3 (1 / 2) (1 / 2) 0 (1 / 2) 0).points_count
                  - 3) + ((border_side2 refEnv 4 3 (1 / 2) (1 / 2) 0 (1 / 2) 0).points_count - 3)
                  + 1 }
        ∧ ((((border_side1 refEnv 4 3 (1 / 2) (1 / 2) 0 (1 / 2) 0).points.getD []).drop 3).length
            : ℤ) = (border_side1 refEnv 4 3 (1 / 2) (1 / 2) 0 (1 / 2) 0).points_count - 3
        ∧ ((((border_side2 refEnv 4 3 (1 / 2) (1 / 2) 0 (1 / 2) 0).points.getD []).drop 3).length
            : ℤ) = (border_side2 refEnv 4 3 (1 / 2) (1 / 2) 0 (1 / 2) 0).points_count - 3
        ∧ (((((border_side1 refEnv 4 3 (1 / 2) (1 / 2) 0 (1 / 2) 0).points.getD []).drop 3).map
            some ++ [none]
              ++ (((border_side2 refEnv 4 3 (1 / 2) (1 / 2) 0 (1 / 2) 0).points.getD []).drop
                  3).map some).length : ℤ)
            = ((border_side1 refEnv 4 3 (1 / 2) (1 / 2) 0 (1 / 2) 0).points_count - 3) +
                ((border_side2 refEnv 4 3 (1 / 2) (1 / 2) 0 (1 / 2) 0).points_count - 3) + 1
        ∧ ((((border_side1 refEnv 4 3 (1 / 2) (1 / 2) 0 (1 / 2) 0).points.getD []).drop 3).map
            some ++ [none]
              ++ (((border_side2 refEnv 4 3 (1 / 2) (1 / 2) 0 (1 / 2) 0).points.getD []).drop
                  3).map some)[((border_side1 refEnv 4 3 (1 / 2) (1 / 2) 0 (1 / 2) 0).points_count
                  - 3).toNat]?
            = some none)
    ∧ (((border_side1 refEnv 4 3 (1 / 2) (1 / 2) 0 (1 / 2) 0).ret ≠ 0 ∧ (border_side1 refEnv 4 3
        (1 / 2) (1 / 2) 0 (1 / 2) 0).points_count > 4) ∧ ¬ ((border_side2 refEnv 4 3 (1 / 2) (1 /
        2) 0 (1 / 2) 0).ret ≠ 0 ∧ (border_side2 refEnv 4 3 (1 / 2) (1 / 2) 0 (1 / 2)
        0).points_count > 4) →
        _gradient_get_pts_border refEnv 4 3 (1 / 2) (1 / 2) 0 (1 / 2) 0
          = { ret := 1, points := some ((((border_side1 refEnv 4 3 (1 / 2) (1 / 2) 0 (1 / 2)
              0).points.getD []).drop 3).map some),
              points_count := (border_side1 refEnv 4 3 (1 / 2) (1 / 2) 0 (1 / 2) 0).points_count -
                  3 }
        ∧ ((((border_side1 refEnv 4 3 (1 / 2) (1 / 2) 0 (1 / 2) 0).points.getD []).drop 3).length
            : ℤ) = (border_side1 refEnv 4 3 (1 / 2) (1 / 2) 0 (1 / 2) 0).points_count - 3)
    ∧ (¬ ((border_side1 refEnv 4 3 (1 / 2) (1 / 2) 0 (1 / 2) 0).ret ≠ 0 ∧ (border_side1 refEnv 4 3
        (1 / 2) (1 / 2) 0 (1 / 2) 0).points_count > 4) ∧ ((border_side2 refEnv 4 3 (1 / 2) (1 / 2)
        0 (1 / 2) 0).ret ≠ 0 ∧ (border_side2 refEnv 4 3 (1 / 2) (1 / 2) 0 (1 / 2) 0).points_count
        > 4) →
        _gradient_get_pts_border refEnv 4 3 (1 / 2) (1 / 2) 0 (1 / 2) 0
          = { ret := 1, points := some ((((border_side2 refEnv 4 3 (1 / 2) (1 / 2) 0 (1 / 2)
              0).points.getD []).drop 3).map some),
              points_count := (border_side2 refEnv 4 3 (1 / 2) (1 / 2) 0 (1 / 2) 0).points_count -
                  3 }
        ∧ ((((border_side2 refEnv 4 3 (1 / 2) (1 / 2) 0 (1 / 2) 0).points.getD []).drop 3).length
            : ℤ) = (border_side2 refEnv 4 3 (1 / 2) (1 / 2) 0 (1 / 2) 0).points_count - 3)
    ∧ (¬ ((border_side1 refEnv 4 3 (1 / 2) (1 / 2) 0 (1 / 2) 0).ret ≠ 0 ∧ (border_side1 refEnv 4 3
        (1 / 2) (1 / 2) 0 (1 / 2) 0).points_count > 4) ∧ ¬ ((border_side2 refEnv 4 3 (1 / 2) (1 /
        2) 0 (1 / 2) 0).ret ≠ 0 ∧ (border_side2 refEnv 4 3 (1 / 2) (1 / 2) 0 (1 / 2)
        0).points_count > 4) →
        _gradient_get_pts_border refEnv 4 3 (1 / 2) (1 / 2) 0 (1 / 2) 0
          = { ret := 0, points := none, points_count := 0 }) :=
  border_assembly refEnv 4 3 (1 / 2) (1 / 2) 0 (1 / 2) 0
    (border_side1 refEnv 4 3 (1 / 2) (1 / 2) 0 (1 / 2) 0)
    (border_side2 refEnv 4 3 (1 / 2) (1 / 2) 0 (1 / 2) 0)
    (fun _ => rfl) (fun _ _ h => by injection h with h; rw [h]) rfl rfl

/-- C13: boundary round trip. With curvature 0, an identity forward transform and
successful allocation, `_gradient_get_points` succeeds, its point 0 is the anchor
`A = (x * wd, y * ht)`, and every point `P` of index at least 3 satisfies
`P - A = t * (cosf v, sinf v)` for some `t`, with `v = (-rotation / 180) * M_PI`, hence
`(Px - Ax) * sinf v - (Py - Ay) * cosf v = 0`. -/
theorem center_line_straight (E : Env) (iwidth iheight : ℤ) (x y rotation : ℚ)
    (halloc : ∀ n, E.dt_alloc_align_float n = true)
    (hid : ∀ pts, E.dt_dev_distort_transform pts = some pts) :
    ∃ pts : List (ℚ × ℚ),
      _gradient_get_points E iwidth iheight x y rotation 0
        = { ret := 1, points := some pts, points_count := (pts.length : ℤ) }
      ∧ pts[0]? = some (x * (iwidth : ℚ), y * (iheight : ℚ))
      ∧ ∀ (k : ℕ) (P : ℚ × ℚ), 3 ≤ k → pts[k]? = some P →
          (∃ t : ℚ, P.1 - x * (iwidth : ℚ) = t * E.cosf ((-rotation / 180) * E.M_PI)
              ∧ P.2 - y * (iheight : ℚ) = t * E.sinf ((-rotation / 180) * E.M_PI))
          ∧ (P.1 - x * (iwidth : ℚ)) * E.sinf ((-rotation / 180) * E.M_PI)
              - (P.2 - y * (iheight : ℚ)) * E.cosf ((-rotation / 180) * E.M_PI) = 0 := by
  refine ⟨gradient_points_raw E iwidth iheight x y rotation 0,
    get_points_identity E iwidth iheight x y rotation 0 halloc hid, rfl, ?_⟩
  intro k P hk hP
  have hmem : P ∈ line_loop (line_point E iwidth iheight x y rotation 0
        (toInt (E.sqrtf ((iwidth : ℚ) * iwidth + (iheight : ℚ) * iheight) + 3)))
        iwidth iheight
        (line_indices (toInt (E.sqrtf ((iwidth : ℚ) * iwidth + (iheight : ℚ) * iheight) + 3)))
        false := by
    unfold gradient_points_raw at hP
    simp only at hP
    rw [List.getElem?_append_right (by simpa using hk)] at hP
    exact List.getElem?_mem hP
  obtain ⟨i, -, rfl, -⟩ := mem_line_loop _ _ _ _ _ _ hmem
  simp only [line_point]
  refine ⟨⟨(line_xstart E 0 + ((i - 3 : ℤ) : ℚ) * (-2 * line_xstart E 0
      / (((toInt (E.sqrtf ((iwidth : ℚ) * iwidth + (iheight : ℚ) * iheight) + 3)) - 3 : ℤ) : ℚ)))
      * E.sqrtf ((iwidth : ℚ) * iwidth + (iheight : ℚ) * iheight), ?_, ?_⟩, ?_⟩ <;> ring

/-- C13, at concrete inputs: a 4 x 3 image, the anchor at the centre and a rotation of
30 degrees, in the concrete environment. -/
theorem center_line_straight_witness :
    ∃ pts : List (ℚ × ℚ),
      _gradient_get_points refEnv 4 3 (1 / 2) (1 / 2) 30 0
        = { ret := 1, points := some pts, points_count := (pts.length : ℤ) }
      ∧ pts[0]? = some ((1 / 2) * (4 : ℚ), (1 / 2) * (3 : ℚ))
      ∧ ∀ (k : ℕ) (P : ℚ × ℚ), 3 ≤ k → pts[k]? = some P →
          (∃ t : ℚ, P.1 - (1 / 2) * (4 : ℚ) = t * refEnv.cosf ((-30 / 180) * refEnv.M_PI)
              ∧ P.2 - (1 / 2) * (3 : ℚ) = t * refEnv.sinf ((-30 / 180) * refEnv.M_PI))
          ∧ (P.1 - (1 / 2) * (4 : ℚ)) * refEnv.sinf ((-30 / 180) * refEnv.M_PI)
              - (P.2 - (1 / 2) * (3 : ℚ)) * refEnv.cosf ((-30 / 180) * refEnv.M_PI) = 0 :=
  center_line_straight refEnv 4 3 (1 / 2) (1 / 2) 30 (fun _ => rfl) (fun _ => rfl)

/-- C14: outline layout. With an identity forward transform, successful allocation, and
sine and cosine that take at the pivot angles `v + M_PI / 2` and `v - M_PI / 2` the values
of exact trigonometry (`cos (v ± π/2) = ∓ sin v`, `sin (v ± π/2) = ± cos v`,
`cos² v + sin² v = 1`), `_gradient_get_points` succeeds with `points_count ≥ 3`; point 0
is the anchor `A = (x * wd, y * ht)`; points 1 and 2 are at squared distance
`(0.1 * fminf wd ht)²` from `A`, have `A` as their midpoint and are perpendicular, seen
from `A`, to the direction `(cosf v, sinf v)`; every further point is a center-line sample
`line_point` of a loop index between 3 and `count - 1`. -/
theorem outline_layout (E : Env) (iwidth iheight : ℤ) (x y rotation curvature : ℚ)
    (halloc : ∀ n, E.dt_alloc_align_float n = true)
    (hid : ∀ pts, E.dt_dev_distort_transform pts = some pts)
    (hc1 : E.cosf ((-(rotation - 90) / 180) * E.M_PI) = -E.sinf ((-rotation / 180) * E.M_PI))
    (hs1 : E.sinf ((-(rotation - 90) / 180) * E.M_PI) = E.cosf ((-rotation / 180) * E.M_PI))
    (hc2 : E.cosf ((-(rotation + 90) / 180) * E.M_PI) = E.sinf ((-rotation / 180) * E.M_PI))
    (hs2 : E.sinf ((-(rotation + 90) / 180) * E.M_PI) = -E.cosf ((-rotation / 180) * E.M_PI))
    (hpyth : E.cosf ((-rotation / 180) * E.M_PI) * E.cosf ((-rotation / 180) * E.M_PI)
      + E.sinf ((-rotation / 180) * E.M_PI) * E.sinf ((-rotation / 180) * E.M_PI) = 1) :
    ∃ (A P1 P2 : ℚ × ℚ) (line : List (ℚ × ℚ)),
      _gradient_get_points E iwidth iheight x y rotation curvature
        = { ret := 1, points := some (A :: P1 :: P2 :: line),
            points_count := ((A :: P1 :: P2 :: line).length : ℤ) }
      ∧ (3 : ℤ) ≤ ((A :: P1 :: P2 :: line).length : ℤ)
      ∧ A = (x * (iwidth : ℚ), y * (iheight : ℚ))
      ∧ sq_dist A.1 A.2 P1 = (1 / 10 * fminf iwidth iheight) * (1 / 10 * fminf iwidth iheight)
      ∧ sq_dist A.1 A.2 P2 = (1 / 10 * fminf iwidth iheight) * (1 / 10 * fminf iwidth iheight)
      ∧ P1.1 + P2.1 = 2 * A.1 ∧ P1.2 + P2.2 = 2 * A.2
      ∧ (P1.1 - A.1) * E.cosf ((-rotation / 180) * E.M_PI)
          + (P1.2 - A.2) * E.sinf ((-rotation / 180) * E.M_PI) = 0
      ∧ (P2.1 - A.1) * E.cosf ((-rotation / 180) * E.M_PI)
          + (P2.2 - A.2) * E.sinf ((-rotation / 180) * E.M_PI) = 0
      ∧ ∀ P ∈ line, ∃ i : ℤ, 3 ≤ i
          ∧ i < toInt (E.sqrtf ((iwidth : ℚ) * iwidth + (iheight : ℚ) * iheight) + 3)
          ∧ P = line_point E iwidth iheight x y rotation curvature
              (toInt (E.sqrtf ((iwidth : ℚ) * iwidth + (iheight : ℚ) * iheight) + 3)) i := by
  refine ⟨_, _, _, _, get_points_identity E iwidth iheight x y rotation curvature halloc hid,
    ?_, rfl, ?_, ?_, ?_, ?_, ?_, ?_, ?_⟩
  · simp only [List.length_cons]; push_cast; omega
  · simp only [sq_dist, hc1, hs1]; linear_combination
      (1 / 10 * fminf iwidth iheight) * (1 / 10 * fminf iwidth iheight) * hpyth
  · simp only [sq_dist, hc2, hs2]; linear_combination
      (1 / 10 * fminf iwidth iheight) * (1 / 10 * fminf iwidth iheight) * hpyth
  · simp only [hc1, hc2]; ring
  · simp only [hs1, hs2]; ring
  · simp only [hc1, hs1]; ring
  · simp only [hc2, hs2]; ring
  · intro P hP
    obtain ⟨i, hi, rfl, -⟩ := mem_line_loop _ _ _ _ _ _ hP
    exact ⟨i, (mem_line_indices _ _ hi).1, (mem_line_indices _ _ hi).2, rfl⟩

/-- C14, at concrete inputs: a 4 x 3 image, the anchor at the centre, rotation 0 and
curvature 1, with sine and cosine exact at the quarter turns. -/
theorem outline_layout_witness :
    ∃ (A P1 P2 : ℚ × ℚ) (line : List (ℚ × ℚ)),
      _gradient_get_points quarterEnv 4 3 (1 / 2) (1 / 2) 0 1
        = { ret := 1, points := some (A :: P1 :: P2 :: line),
            points_count := ((A :: P1 :: P2 :: line).length : ℤ) }
      ∧ (3 : ℤ) ≤ ((A :: P1 :: P2 :: line).length : ℤ)
      ∧ A = ((1 / 2) * (4 : ℚ), (1 / 2) * (3 : ℚ))
      ∧ sq_dist A.1 A.2 P1 = (1 / 10 * fminf 4 3) * (1 / 10 * fminf 4 3)
      ∧ sq_dist A.1 A.2 P2 = (1 / 10 * fminf 4 3) * (1 / 10 * fminf 4 3)
      ∧ P1.1 + P2.1 = 2 * A.1 ∧ P1.2 + P2.2 = 2 * A.2
      ∧ (P1.1 - A.1) * quarterEnv.cosf ((-0 / 180) * quarterEnv.M_PI)
          + (P1.2 - A.2) * quarterEnv.sinf ((-0 / 180) * quarterEnv.M_PI) = 0
      ∧ (P2.1 - A.1) * quarterEnv.cosf ((-0 / 180) * quarterEnv.M_PI)
          + (P2.2 - A.2) * quarterEnv.sinf ((-0 / 180) * quarterEnv.M_PI) = 0
      ∧ ∀ P ∈ line, ∃ i : ℤ, 3 ≤ i
          ∧ i < toInt (quarterEnv.sqrtf ((4 : ℚ) * 4 + (3 : ℚ) * 3) + 3)
          ∧ P = line_point quarterEnv 4 3 (1 / 2) (1 / 2) 0 1
              (toInt (quarterEnv.sqrtf ((4 : ℚ) * 4 + (3 : ℚ) * 3) + 3)) i :=
  outline_layout quarterEnv 4 3 (1 / 2) (1 / 2) 0 1 (fun _ => rfl) (fun _ => rfl)
    (by decide!) (by decide!) (by decide!) (by decide!) (by decide!)

/-- C15, refuted in the concrete environment: for the scenario gradient on the 100 x 100
image with identity transforms, the mask value at pixel (x=50, y=50) is within 1/1000 of
1/2, but the value at (x=50, y=5) is above 4/5, not below the centre value, and the value
at (x=50, y=95) is below 1/5, not above the centre value. -/
theorem scenario_direction_reversed :
    |mask_pixel refEnv 100 100 sample_scenario 50 50 - 1 / 2| < 1 / 1000
    ∧ 4 / 5 < mask_pixel refEnv 100 100 sample_scenario 50 5
    ∧ mask_pixel refEnv 100 100 sample_scenario 50 95 < 1 / 5
    ∧ ¬ (mask_pixel refEnv 100 100 sample_scenario 50 5
          < mask_pixel refEnv 100 100 sample_scenario 50 50)
    ∧ ¬ (mask_pixel refEnv 100 100 sample_scenario 50 50
          < mask_pixel refEnv 100 100 sample_scenario 50 95) := by
  decide!

/-- C15, amended: the end-to-end scenario with the direction the code has. For the
gradient with anchor (0.5, 0.5), rotation 0, compression 0.5, curvature 0 and sigmoidal
falloff on a 100 x 100 image, with identity transforms, successful allocations and a libm
with `sinf 0 = 0`, `cosf 0 = 1`, `141 < sqrtf 20000`, an `erff` that is strictly
increasing, takes its values in (-1, 1) and is at most 1/5 in absolute value on
[-1/10, 1/10]: the mask value at pixel (x=50, y=50) is
`1/2 + (3 * erff (4 / s) + erff (-12 / s)) / 8`, `s = sqrtf 20000`, within 1/10 of 1/2;
the value at (x=50, y=5) is above it and the value at (x=50, y=95) is below it. -/
theorem scenario_direction (E : Env)
    (halloc : ∀ n, E.dt_alloc_align_float n = true)
    (htf : ∀ pts, E.dt_dev_distort_transform_plus pts = some pts)
    (hbt : ∀ pts, E.dt_dev_distort_backtransform_plus pts = some pts)
    (hsin : E.sinf 0 = 0) (hcos : E.cosf 0 = 1)
    (hs : 141 < E.sqrtf 20000)
    (hmono : ∀ a b, a < b → E.erff a < E.erff b)
    (hbound : ∀ a, -1 < E.erff a ∧ E.erff a < 1)
    (hsmall : ∀ a, |a| ≤ 1 / 10 → |E.erff a| ≤ 1 / 5) :
    mask_pixel E 100 100 sample_scenario 50 50
      = 1 / 2 + (3 * E.erff (4 / E.sqrtf 20000) + E.erff (-12 / E.sqrtf 20000)) / 8
    ∧ |mask_pixel E 100 100 sample_scenario 50 50 - 1 / 2| ≤ 1 / 10
    ∧ mask_pixel E 100 100 sample_scenario 50 95 < mask_pixel E 100 100 sample_scenario 50 50
    ∧ mask_pixel E 100 100 sample_scenario 50 50 < mask_pixel E 100 100 sample_scenario 50 5 := by
  have h50 := scenario_pixel E 50 50 (by norm_num) (by norm_num) halloc htf hbt hsin hcos hs
    hbound
  have h5 := scenario_pixel E 50 5 (by norm_num) (by norm_num) halloc htf hbt hsin hcos hs
    hbound
  have h95 := scenario_pixel E 50 95 (by norm_num) (by norm_num) halloc htf hbt hsin hcos hs
    hbound
  norm_num at h50 h5 h95
  generalize E.sqrtf 20000 = s at *
  have hspos : 0 < s := by linarith
  have m1 : E.erff (-92 / s) < E.erff (-76 / s) :=
    hmono _ _ (div_lt_div_of_pos_right (by norm_num) hspos)
  have m2 : E.erff (-76 / s) < E.erff (-12 / s) :=
    hmono _ _ (div_lt_div_of_pos_right (by norm_num) hspos)
  have m3 : E.erff (-12 / s) < E.erff (4 / s) :=
    hmono _ _ (div_lt_div_of_pos_right (by norm_num) hspos)
  have m4 : E.erff (4 / s) < E.erff (84 / s) :=
    hmono _ _ (div_lt_div_of_pos_right (by norm_num) hspos)
  have m5 : E.erff (84 / s) < E.erff (100 / s) :=
    hmono _ _ (div_lt_div_of_pos_right (by norm_num) hspos)
  have s1 : |E.erff (4 / s)| ≤ 1 / 5 := by
    apply hsmall
    rw [abs_of_pos (by positivity), div_le_iff₀ hspos]
    linarith
  have s2 : |E.erff (-12 / s)| ≤ 1 / 5 := by
    apply hsmall
    rw [neg_div, abs_neg, abs_of_pos (by positivity), div_le_iff₀ hspos]
    linarith
  rw [abs_le] at s1 s2
  rw [h50, h5, h95]
  refine ⟨by ring, ?_, ?_, ?_⟩
  · rw [abs_le]
    constructor <;> linarith [s1.1, s1.2, s2.1, s2.2]
  · linarith
  · linarith

/-- C15 amended, in the concrete environment. -/
theorem scenario_direction_witness :
    mask_pixel refEnv 100 100 sample_scenario 50 50
      = 1 / 2 + (3 * refEnv.erff (4 / refEnv.sqrtf 20000) + refEnv.erff (-12 / refEnv.sqrtf
          20000)) / 8
    ∧ |mask_pixel refEnv 100 100 sample_scenario 50 50 - 1 / 2| ≤ 1 / 10
    ∧ mask_pixel refEnv 100 100 sample_scenario 50 95 < mask_pixel refEnv 100 100 sample_scenario
        50 50
    ∧ mask_pixel refEnv 100 100 sample_scenario 50 50 < mask_pixel refEnv 100 100 sample_scenario
        50 5 :=
  scenario_direction refEnv (fun _ => rfl) (fun _ => rfl) (fun _ => rfl) (by decide!)
    (by decide!) (by decide!) ref_erff_strictMono ref_erff_range ref_erff_small

/-- C16, the code at the failing input: for the linear sample gradient on a 400 x 300
image, the in-domain distance -257/5000 has table index `i = -257/10`, whose floor is -26.
The entries at -26 and -25 are both 0, so interpolation between the adjacent bins gives 0,
but `dt_gradient_lookup` returns -7/500, which is not between the two entries: it reads
the bins -25 and -24 (entries 0 and 1/50) with the weights 17/10 and -7/10. -/
theorem lookup_not_between_bins :
    |(-257 / 5000 : ℚ)| < 4 * (field_consts refEnv 400 300 sample_linear).compression
    ∧ (-257 / 5000 : ℚ) * (field_consts refEnv 400 300 sample_linear).ihwscale = -257 / 10
    ∧ ⌊(-257 / 10 : ℚ)⌋ = -26
    ∧ clut (gradient_lut refEnv (field_consts refEnv 400 300 sample_linear))
        (field_consts refEnv 400 300 sample_linear).lutmax (-26) = 0
    ∧ clut (gradient_lut refEnv (field_consts refEnv 400 300 sample_linear))
        (field_consts refEnv 400 300 sample_linear).lutmax (-25) = 0
    ∧ clut (gradient_lut refEnv (field_consts refEnv 400 300 sample_linear))
        (field_consts refEnv 400 300 sample_linear).lutmax (-24) = 1 / 50
    ∧ dt_gradient_lookup
        (clut (gradient_lut refEnv (field_consts refEnv 400 300 sample_linear))
          (field_consts refEnv 400 300 sample_linear).lutmax) (-257 / 10) = -7 / 500 := by
  decide!

/-- C17: table index safety. When `sqrtf` returns a non-negative value, for every signed
distance with `-4c < distance < 4c` the two entries read by `dt_gradient_lookup`, at the
offsets `(int)i` and `(int)(i + 1)` from the centre `lutmax`, `i = distance * ihwscale`,
have absolute indices between 0 and `2 * lutmax + 1`, inside the table of
`2 * lutmax + 2` entries. -/
theorem lut_index_safety (E : Env) (iwidth iheight : ℤ) (g : dt_masks_point_gradient_t)
    (distance : ℚ)
    (hs : 0 ≤ E.sqrtf ((iwidth : ℚ) * iwidth + (iheight : ℚ) * iheight))
    (hlo : -4 * (field_consts E iwidth iheight g).compression < distance)
    (hhi : distance < 4 * (field_consts E iwidth iheight g).compression) :
    0 ≤ (field_consts E iwidth iheight g).lutmax
        + toInt (distance * (field_consts E iwidth iheight g).ihwscale)
    ∧ (field_consts E iwidth iheight g).lutmax
        + toInt (distance * (field_consts E iwidth iheight g).ihwscale)
        ≤ 2 * (field_consts E iwidth iheight g).lutmax + 1
    ∧ 0 ≤ (field_consts E iwidth iheight g).lutmax
        + toInt (distance * (field_consts E iwidth iheight g).ihwscale + 1)
    ∧ (field_consts E iwidth iheight g).lutmax
        + toInt (distance * (field_consts E iwidth iheight g).ihwscale + 1)
        ≤ 2 * (field_consts E iwidth iheight g).lutmax + 1
    ∧ ((field_consts E iwidth iheight g).lutmax
        + toInt (distance * (field_consts E iwidth iheight g).ihwscale)).toNat
        < (gradient_lut E (field_consts E iwidth iheight g)).length
    ∧ ((field_consts E iwidth iheight g).lutmax
        + toInt (distance * (field_consts E iwidth iheight g).ihwscale + 1)).toNat
        < (gradient_lut E (field_consts E iwidth iheight g)).length := by
  have hihw := ihwscale_eq E iwidth iheight g
  have hL := lutmax_eq E iwidth iheight g
  have hsize : (field_consts E iwidth iheight g).lutsize
      = 2 * (field_consts E iwidth iheight g).lutmax + 2 := rfl
  have hlen := lut_length E (field_consts E iwidth iheight g)
  generalize (field_consts E iwidth iheight g).lutmax = L at *
  generalize (field_consts E iwidth iheight g).compression = c at *
  generalize (field_consts E iwidth iheight g).ihwscale = s at *
  generalize (field_consts E iwidth iheight g).lutsize = sz at *
  rw [← hihw] at hs
  have hup : 4 * c * s ≤ (L : ℚ) := by rw [hL]; exact Int.le_ceil _
  have h1 : distance * s ≤ 4 * c * s := mul_le_mul_of_nonneg_right hhi.le hs
  have h2 : -(4 * c * s) ≤ distance * s := by
    have := mul_le_mul_of_nonneg_right hlo.le hs
    linarith
  have hb0 := toInt_mem (distance * s) (-L) L (by push_cast; linarith) (by linarith)
  have hb1 := toInt_mem (distance * s + 1) (-L + 1) (L + 1) (by push_cast; linarith)
    (by push_cast; linarith)
  have hL0 : 0 ≤ L := by
    have : (0 : ℚ) ≤ (L : ℚ) := by
      have hc : 0 < c := by linarith
      have : 0 ≤ 4 * c * s := by positivity
      linarith
    exact_mod_cast this
  refine ⟨by omega, by omega, by omega, by omega, ?_, ?_⟩ <;> rw [hlen, hsize] <;> omega

/-- C17, at concrete inputs: the linear sample gradient on a 400 x 300 image and the
distance -257/5000. -/
theorem lut_index_safety_witness :
    0 ≤ (field_consts refEnv 400 300 sample_linear).lutmax
        + toInt ((-257 / 5000) * (field_consts refEnv 400 300 sample_linear).ihwscale)
    ∧ (field_consts refEnv 400 300 sample_linear).lutmax
        + toInt ((-257 / 5000) * (field_consts refEnv 400 300 sample_linear).ihwscale)
        ≤ 2 * (field_consts refEnv 400 300 sample_linear).lutmax + 1
    ∧ 0 ≤ (field_consts refEnv 400 300 sample_linear).lutmax
        + toInt ((-257 / 5000) * (field_consts refEnv 400 300 sample_linear).ihwscale + 1)
    ∧ (field_consts refEnv 400 300 sample_linear).lutmax
        + toInt ((-257 / 5000) * (field_consts refEnv 400 300 sample_linear).ihwscale + 1)
        ≤ 2 * (field_consts refEnv 400 300 sample_linear).lutmax + 1
    ∧ ((field_consts refEnv 400 300 sample_linear).lutmax
        + toInt ((-257 / 5000) * (field_consts refEnv 400 300 sample_linear).ihwscale)).toNat
        < (gradient_lut refEnv (field_consts refEnv 400 300 sample_linear)).length
    ∧ ((field_consts refEnv 400 300 sample_linear).lutmax
        + toInt ((-257 / 5000) * (field_consts refEnv 400 300 sample_linear).ihwscale + 1)).toNat
        < (gradient_lut refEnv (field_consts refEnv 400 300 sample_linear)).length :=
  lut_index_safety refEnv 400 300 sample_linear (-257 / 5000) (by decide!) (by decide!)
    (by decide!)

/-- C18: grid index safety. For a region of `w ≥ 1` by `h ≥ 1` pixels and a grid step
`grid ≥ 1`, with `gw = (w + grid - 1) / grid + 1` and `gh = (h + grid - 1) / grid + 1`,
every output pixel `0 ≤ i < w`, `0 ≤ j < h` has `mi = i / grid`, `mj = j / grid` with
`mi + 1 ≤ gw - 1` and `mj + 1 ≤ gh - 1`, and the four indices read by the interpolation
lie in `[0, gw * gh)`, the size of the grid buffers built by both rasterizers. -/
theorem grid_index_safety (w h grid i j px py : ℤ) (iscale : ℚ)
    (hw : 1 ≤ w) (hh : 1 ≤ h) (hg : 1 ≤ grid)
    (hi : 0 ≤ i) (hiw : i < w) (hj : 0 ≤ j) (hjh : j < h) :
    0 ≤ Int.tdiv i grid ∧ 0 ≤ Int.tdiv j grid
    ∧ Int.tdiv i grid + 1 ≤ grid_count w grid - 1
    ∧ Int.tdiv j grid + 1 ≤ grid_count h grid - 1
    ∧ (0 ≤ Int.tdiv j grid * grid_count w grid + Int.tdiv i grid
      ∧ Int.tdiv j grid * grid_count w grid + Int.tdiv i grid
          < grid_count w grid * grid_count h grid)
    ∧ (0 ≤ Int.tdiv j grid * grid_count w grid + Int.tdiv i grid + 1
      ∧ Int.tdiv j grid * grid_count w grid + Int.tdiv i grid + 1
          < grid_count w grid * grid_count h grid)
    ∧ (0 ≤ (Int.tdiv j grid + 1) * grid_count w grid + Int.tdiv i grid
      ∧ (Int.tdiv j grid + 1) * grid_count w grid + Int.tdiv i grid
          < grid_count w grid * grid_count h grid)
    ∧ (0 ≤ (Int.tdiv j grid + 1) * grid_count w grid + Int.tdiv i grid + 1
      ∧ (Int.tdiv j grid + 1) * grid_count w grid + Int.tdiv i grid + 1
          < grid_count w grid * grid_count h grid)
    ∧ ((mask_grid grid (grid_count w grid) (grid_count h grid) px py).length : ℤ)
        = grid_count w grid * grid_count h grid
    ∧ ((roi_grid grid (grid_count w grid) (grid_count h grid) px py iscale).length : ℤ)
        = grid_count w grid * grid_count h grid := by
  have hgw := grid_count_eq w grid hw hg
  have hgh := grid_count_eq h grid hh hg
  obtain ⟨hmi0, hmi⟩ := tdiv_bounds i w grid hg hi hiw
  obtain ⟨hmj0, hmj⟩ := tdiv_bounds j h grid hg hj hjh
  have hqw : 0 ≤ (w - 1) / grid := Int.ediv_nonneg (by omega) (by omega)
  have hqh : 0 ≤ (h - 1) / grid := Int.ediv_nonneg (by omega) (by omega)
  rw [length_mask_grid, length_roi_grid]
  generalize Int.tdiv i grid = mi at *
  generalize Int.tdiv j grid = mj at *
  generalize grid_count w grid = gw at *
  generalize grid_count h grid = gh at *
  have hgw1 : mi + 2 ≤ gw := by omega
  have hgh1 : mj + 2 ≤ gh := by omega
  have hp1 : 0 ≤ mj * gw := mul_nonneg hmj0 (by omega)
  have hp2 : (mj + 2) * gw ≤ gh * gw := by
    apply mul_le_mul_of_nonneg_right hgh1; omega
  have hcast : ((gh.toNat * gw.toNat : ℕ) : ℤ) = gw * gh := by
    push_cast
    rw [Int.toNat_of_nonneg (by omega), Int.toNat_of_nonneg (by omega)]
    ring
  refine ⟨hmi0, hmj0, by omega, by omega, ⟨by omega, by nlinarith⟩, ⟨by omega, by nlinarith⟩,
    ⟨by nlinarith, by nlinarith⟩, ⟨by nlinarith, by nlinarith⟩, hcast, hcast⟩

/-- C18, at concrete inputs: the last pixel (399, 299) of a 400 x 300 region with the
grid step 8. -/
theorem grid_index_safety_witness :
    0 ≤ Int.tdiv 399 8 ∧ 0 ≤ Int.tdiv 299 8
    ∧ Int.tdiv 399 8 + 1 ≤ grid_count 400 8 - 1
    ∧ Int.tdiv 299 8 + 1 ≤ grid_count 300 8 - 1
    ∧ (0 ≤ Int.tdiv 299 8 * grid_count 400 8 + Int.tdiv 399 8
      ∧ Int.tdiv 299 8 * grid_count 400 8 + Int.tdiv 399 8
          < grid_count 400 8 * grid_count 300 8)
    ∧ (0 ≤ Int.tdiv 299 8 * grid_count 400 8 + Int.tdiv 399 8 + 1
      ∧ Int.tdiv 299 8 * grid_count 400 8 + Int.tdiv 399 8 + 1
          < grid_count 400 8 * grid_count 300 8)
    ∧ (0 ≤ (Int.tdiv 299 8 + 1) * grid_count 400 8 + Int.tdiv 399 8
      ∧ (Int.tdiv 299 8 + 1) * grid_count 400 8 + Int.tdiv 399 8
          < grid_count 400 8 * grid_count 300 8)
    ∧ (0 ≤ (Int.tdiv 299 8 + 1) * grid_count 400 8 + Int.tdiv 399 8 + 1
      ∧ (Int.tdiv 299 8 + 1) * grid_count 400 8 + Int.tdiv 399 8 + 1
          < grid_count 400 8 * grid_count 300 8)
    ∧ ((mask_grid 8 (grid_count 400 8) (grid_count 300 8) 0 0).length : ℤ)
        = grid_count 400 8 * grid_count 300 8
    ∧ ((roi_grid 8 (grid_count 400 8) (grid_count 300 8) 0 0 1).length : ℤ)
        = grid_count 400 8 * grid_count 300 8 :=
  grid_index_safety 400 300 8 399 299 0 0 1 (by decide) (by decide) (by decide) (by decide)
    (by decide) (by decide) (by decide)

/-- C19: bilinear weights. For a grid step `grid ≥ 1` and an output pixel `(i, j)` with
`i, j ≥ 0`, `ii = i % grid`, `jj = j % grid`: the four integer weights are non-negative
and add up to `grid * grid`; the interpolated value lies between the minimum and the
maximum of the four grid values it reads; and it is the value of the node
`(i / grid, j / grid)` itself when `ii = jj = 0`. -/
theorem bilinear_weights (values : List ℚ) (grid gw i j : ℤ)
    (hg : 1 ≤ grid) (hi : 0 ≤ i) (hj : 0 ≤ j) :
    0 ≤ (grid - Int.tmod i grid) * (grid - Int.tmod j grid)
    ∧ 0 ≤ Int.tmod i grid * (grid - Int.tmod j grid)
    ∧ 0 ≤ (grid - Int.tmod i grid) * Int.tmod j grid
    ∧ 0 ≤ Int.tmod i grid * Int.tmod j grid
    ∧ (grid - Int.tmod i grid) * (grid - Int.tmod j grid)
        + Int.tmod i grid * (grid - Int.tmod j grid)
        + (grid - Int.tmod i grid) * Int.tmod j grid
        + Int.tmod i grid * Int.tmod j grid = grid * grid
    ∧ min (min (values.getD (Int.tdiv j grid * gw + Int.tdiv i grid).toNat 0)
            (values.getD (Int.tdiv j grid * gw + Int.tdiv i grid + 1).toNat 0))
          (min (values.getD ((Int.tdiv j grid + 1) * gw + Int.tdiv i grid).toNat 0)
            (values.getD ((Int.tdiv j grid + 1) * gw + Int.tdiv i grid + 1).toNat 0))
        ≤ interpolate values grid gw i j
    ∧ interpolate values grid gw i j
        ≤ max (max (values.getD (Int.tdiv j grid * gw + Int.tdiv i grid).toNat 0)
            (values.getD (Int.tdiv j grid * gw + Int.tdiv i grid + 1).toNat 0))
          (max (values.getD ((Int.tdiv j grid + 1) * gw + Int.tdiv i grid).toNat 0)
            (values.getD ((Int.tdiv j grid + 1) * gw + Int.tdiv i grid + 1).toNat 0))
    ∧ (Int.tmod i grid = 0 → Int.tmod j grid = 0 →
        interpolate values grid gw i j
          = values.getD (Int.tdiv j grid * gw + Int.tdiv i grid).toNat 0) := by
  have hii0 : 0 ≤ Int.tmod i grid := by
    rw [Int.tmod_eq_emod hi (by omega)]; exact Int.emod_nonneg _ (by omega)
  have hii1 : Int.tmod i grid < grid := by
    rw [Int.tmod_eq_emod hi (by omega)]; exact Int.emod_lt_of_pos _ (by omega)
  have hjj0 : 0 ≤ Int.tmod j grid := by
    rw [Int.tmod_eq_emod hj (by omega)]; exact Int.emod_nonneg _ (by omega)
  have hjj1 : Int.tmod j grid < grid := by
    rw [Int.tmod_eq_emod hj (by omega)]; exact Int.emod_lt_of_pos _ (by omega)
  generalize hii : Int.tmod i grid = ii at *
  generalize hjj : Int.tmod j grid = jj at *
  have w1 : 0 ≤ (grid - ii) * (grid - jj) := mul_nonneg (by omega) (by omega)
  have w2 : 0 ≤ ii * (grid - jj) := mul_nonneg hii0 (by omega)
  have w3 : 0 ≤ (grid - ii) * jj := mul_nonneg (by omega) hjj0
  have w4 : 0 ≤ ii * jj := mul_nonneg hii0 hjj0
  have hsum : (grid - ii) * (grid - jj) + ii * (grid - jj) + (grid - ii) * jj + ii * jj
      = grid * grid := by ring
  have hform : ∀ a b c d : ℚ,
      (a * ((grid - ii : ℤ) : ℚ) * ((grid - jj : ℤ) : ℚ) + b * (ii : ℚ) * ((grid - jj : ℤ) : ℚ)
        + c * ((grid - ii : ℤ) : ℚ) * (jj : ℚ) + d * (ii : ℚ) * (jj : ℚ))
        / ((grid * grid : ℤ) : ℚ)
      = (a * (((grid - ii) * (grid - jj) : ℤ) : ℚ) + b * ((ii * (grid - jj) : ℤ) : ℚ)
          + c * (((grid - ii) * jj : ℤ) : ℚ) + d * ((ii * jj : ℤ) : ℚ))
        / ((((grid - ii) * (grid - jj) : ℤ) : ℚ) + ((ii * (grid - jj) : ℤ) : ℚ)
          + (((grid - ii) * jj : ℤ) : ℚ) + ((ii * jj : ℤ) : ℚ)) := by
    intro a b c d
    congr 1
    · push_cast; ring
    · push_cast; ring
  have hpos : (0 : ℚ) < (((grid - ii) * (grid - jj) : ℤ) : ℚ) + ((ii * (grid - jj) : ℤ) : ℚ)
          + (((grid - ii) * jj : ℤ) : ℚ) + ((ii * jj : ℤ) : ℚ) := by
    have : (0 : ℤ) < (grid - ii) * (grid - jj) + ii * (grid - jj) + (grid - ii) * jj + ii * jj := by
      rw [hsum]; exact mul_pos (by omega) (by omega)
    exact_mod_cast this
  have hb := fun a b c d : ℚ => weighted_mean_bounds a b c d _ _ _ _
    (by exact_mod_cast w1 : (0 : ℚ) ≤ (((grid - ii) * (grid - jj) : ℤ) : ℚ))
    (by exact_mod_cast w2 : (0 : ℚ) ≤ ((ii * (grid - jj) : ℤ) : ℚ))
    (by exact_mod_cast w3 : (0 : ℚ) ≤ (((grid - ii) * jj : ℤ) : ℚ))
    (by exact_mod_cast w4 : (0 : ℚ) ≤ ((ii * jj : ℤ) : ℚ)) hpos
  refine ⟨w1, w2, w3, w4, hsum, ?_, ?_, ?_⟩
  · unfold interpolate
    simp only [hii, hjj]
    rw [hform]
    exact (hb _ _ _ _).1
  · unfold interpolate
    simp only [hii, hjj]
    rw [hform]
    exact (hb _ _ _ _).2
  · intro h1 h2
    subst h1 h2
    unfold interpolate
    simp only [hii, hjj]
    have hgq : (grid : ℚ) ≠ 0 := by
      have : (0 : ℚ) < (grid : ℚ) := by exact_mod_cast (show (0 : ℤ) < grid by omega)
      exact ne_of_gt this
    push_cast
    field_simp
    ring

/-- C19, at concrete inputs: four grid values, the grid step 8 and the pixel (3, 5). -/
theorem bilinear_weights_witness :
    0 ≤ (8 - Int.tmod 3 8) * (8 - Int.tmod 5 8)
    ∧ 0 ≤ Int.tmod 3 8 * (8 - Int.tmod 5 8)
    ∧ 0 ≤ (8 - Int.tmod 3 8) * Int.tmod 5 8
    ∧ 0 ≤ Int.tmod 3 8 * Int.tmod 5 8
    ∧ (8 - Int.tmod 3 8) * (8 - Int.tmod 5 8)
        + Int.tmod 3 8 * (8 - Int.tmod 5 8)
        + (8 - Int.tmod 3 8) * Int.tmod 5 8
        + Int.tmod 3 8 * Int.tmod 5 8 = 8 * 8
    ∧ min (min ([0, 1, 1 / 2, 1 / 4].getD (Int.tdiv 5 8 * 2 + Int.tdiv 3 8).toNat 0)
            ([0, 1, 1 / 2, 1 / 4].getD (Int.tdiv 5 8 * 2 + Int.tdiv 3 8 + 1).toNat 0))
          (min ([0, 1, 1 / 2, 1 / 4].getD ((Int.tdiv 5 8 + 1) * 2 + Int.tdiv 3 8).toNat 0)
            ([0, 1, 1 / 2, 1 / 4].getD ((Int.tdiv 5 8 + 1) * 2 + Int.tdiv 3 8 + 1).toNat 0))
        ≤ interpolate [0, 1, 1 / 2, 1 / 4] 8 2 3 5
    ∧ interpolate [0, 1, 1 / 2, 1 / 4] 8 2 3 5
        ≤ max (max ([0, 1, 1 / 2, 1 / 4].getD (Int.tdiv 5 8 * 2 + Int.tdiv 3 8).toNat 0)
            ([0, 1, 1 / 2, 1 / 4].getD (Int.tdiv 5 8 * 2 + Int.tdiv 3 8 + 1).toNat 0))
          (max ([0, 1, 1 / 2, 1 / 4].getD ((Int.tdiv 5 8 + 1) * 2 + Int.tdiv 3 8).toNat 0)
            ([0, 1, 1 / 2, 1 / 4].getD ((Int.tdiv 5 8 + 1) * 2 + Int.tdiv 3 8 + 1).toNat 0))
    ∧ (Int.tmod 3 8 = 0 → Int.tmod 5 8 = 0 →
        interpolate [0, 1, 1 / 2, 1 / 4] 8 2 3 5
          = [0, 1, 1 / 2, 1 / 4].getD (Int.tdiv 5 8 * 2 + Int.tdiv 3 8).toNat 0) :=
  bilinear_weights [0, 1, 1 / 2, 1 / 4] 8 2 3 5 (by decide) (by decide) (by decide)

/-- C20: lookup-table definition. When `sqrtf` returns a positive value and `erff 0 = 0`,
with `c = max compression 0.001` and `hwscale = 1 / sqrtf (wd² + ht²)`: `lutmax` is
`ceil (4 * c / hwscale)` and is not negative; the table has `2 * lutmax + 2` entries;
entry `n` is `0.5 + 0.5 * g ((n - lutmax) * hwscale / c)` clamped to [0,1], with `g` the
identity in the linear state and `erff` in the sigmoidal state, so it lies in [0,1]; the
entry at index `lutmax` is exactly 1/2; and the sampled distances reach from at most
`-4c` (at `n = 0`) to at least `4c` (at `n = 2 * lutmax`). -/
theorem lut_definition (E : Env) (iwidth iheight : ℤ) (g : dt_masks_point_gradient_t)
    (hs : 0 < E.sqrtf ((iwidth : ℚ) * iwidth + (iheight : ℚ) * iheight))
    (herf : E.erff 0 = 0) :
    (field_consts E iwidth iheight g).compression = max g.compression (1 / 1000)
    ∧ (field_consts E iwidth iheight g).hwscale
        = 1 / E.sqrtf ((iwidth : ℚ) * iwidth + (iheight : ℚ) * iheight)
    ∧ (field_consts E iwidth iheight g).lutmax
        = ⌈4 * (field_consts E iwidth iheight g).compression
            / (field_consts E iwidth iheight g).hwscale⌉
    ∧ 0 ≤ (field_consts E iwidth iheight g).lutmax
    ∧ ((gradient_lut E (field_consts E iwidth iheight g)).length : ℤ)
        = 2 * (field_consts E iwidth iheight g).lutmax + 2
    ∧ (∀ n : ℕ, (n : ℤ) < 2 * (field_consts E iwidth iheight g).lutmax + 2 →
        (gradient_lut E (field_consts E iwidth iheight g))[n]?
          = some (max 0 (min 1 (1 / 2 + 1 / 2 *
              (if g.state = dt_masks_gradient_states_t.DT_MASKS_GRADIENT_STATE_LINEAR
                then (((n : ℤ) - (field_consts E iwidth iheight g).lutmax : ℤ) : ℚ)
                  * (field_consts E iwidth iheight g).hwscale
                  / (field_consts E iwidth iheight g).compression
                else E.erff ((((n : ℤ) - (field_consts E iwidth iheight g).lutmax : ℤ) : ℚ)
                  * (field_consts E iwidth iheight g).hwscale
                  / (field_consts E iwidth iheight g).compression)))))
        ∧ ∃ v, (gradient_lut E (field_consts E iwidth iheight g))[n]? = some v
            ∧ 0 ≤ v ∧ v ≤ 1)
    ∧ (gradient_lut E (field_consts E iwidth iheight g))[
          (field_consts E iwidth iheight g).lutmax.toNat]? = some (1 / 2)
    ∧ (((0 : ℤ) - (field_consts E iwidth iheight g).lutmax : ℤ) : ℚ)
          * (field_consts E iwidth iheight g).hwscale
        ≤ -4 * (field_consts E iwidth iheight g).compression
    ∧ 4 * (field_consts E iwidth iheight g).compression
        ≤ ((2 * (field_consts E iwidth iheight g).lutmax
            - (field_consts E iwidth iheight g).lutmax : ℤ) : ℚ)
          * (field_consts E iwidth iheight g).hwscale := by
  have hcomp : (field_consts E iwidth iheight g).compression = max g.compression (1 / 1000) := by
    show fmaxf _ _ = _
    unfold fmaxf
    split_ifs with h
    · exact (max_eq_right h.le).symm
    · exact (max_eq_left (not_lt.mp h)).symm
  have hcpos : 0 < (field_consts E iwidth iheight g).compression :=
    compression_pos E iwidth iheight g
  have hhw : (field_consts E iwidth iheight g).hwscale
      = 1 / E.sqrtf ((iwidth : ℚ) * iwidth + (iheight : ℚ) * iheight) := rfl
  have hihw := ihwscale_eq E iwidth iheight g
  have hL := lutmax_eq E iwidth iheight g
  have hsize : (field_consts E iwidth iheight g).lutsize
      = 2 * (field_consts E iwidth iheight g).lutmax + 2 := rfl
  have hnormf : (field_consts E iwidth iheight g).normf
      = 1 / (field_consts E iwidth iheight g).compression := rfl
  have hstate : (field_consts E iwidth iheight g).state = g.state := rfl
  have hlen := lut_length E (field_consts E iwidth iheight g)
  have hget := lut_getElem E (field_consts E iwidth iheight g)
  have hentry : ∀ n : ℤ, lut_entry E (field_consts E iwidth iheight g) n
      = max 0 (min 1 (1 / 2 + 1 / 2 *
          (if g.state = dt_masks_gradient_states_t.DT_MASKS_GRADIENT_STATE_LINEAR
            then ((n - (field_consts E iwidth iheight g).lutmax : ℤ) : ℚ)
              * (field_consts E iwidth iheight g).hwscale
              / (field_consts E iwidth iheight g).compression
            else E.erff (((n - (field_consts E iwidth iheight g).lutmax : ℤ) : ℚ)
              * (field_consts E iwidth iheight g).hwscale
              / (field_consts E iwidth iheight g).compression)))) := by
    intro n
    unfold lut_entry
    simp only [clamp_eq, hnormf, hstate]
    congr 3
    split_ifs
    · ring
    · rfl
  generalize (field_consts E iwidth iheight g).lutmax = L at *
  generalize (field_consts E iwidth iheight g).compression = c at *
  generalize (field_consts E iwidth iheight g).ihwscale = s at *
  generalize (field_consts E iwidth iheight g).hwscale = hw at *
  generalize (field_consts E iwidth iheight g).lutsize = sz at *
  generalize E.sqrtf ((iwidth : ℚ) * iwidth + (iheight : ℚ) * iheight) = r at *
  subst hihw hhw hsize
  have hdiv : 4 * c * s = 4 * c / (1 / s) := by field_simp
  have hup : 4 * c * s ≤ (L : ℚ) := by rw [hL]; exact Int.le_ceil _
  have hL0 : 0 ≤ L := by
    have : (0 : ℚ) ≤ (L : ℚ) := by
      have : 0 ≤ 4 * c * s := by positivity
      linarith
    exact_mod_cast this
  have hcov : 4 * c ≤ (L : ℚ) * (1 / s) := by
    rw [mul_one_div, le_div_iff₀ hs]; exact hup
  refine ⟨hcomp, rfl, by rw [← hdiv]; exact hL, hL0, by rw [hlen]; omega, ?_, ?_, ?_, ?_⟩
  · intro n hn
    rw [hget n hn, hentry]
    exact ⟨rfl, _, rfl, le_max_left _ _, max_le zero_le_one (min_le_left _ _)⟩
  · have := hget L.toNat (by omega)
    rw [this, hentry, Int.toNat_of_nonneg hL0, sub_self]
    simp [herf]
    norm_num
  · push_cast; linarith
  · push_cast; linarith

/-- C20, at concrete inputs: the sigmoidal sample gradient on a 400 x 300 image in the
concrete environment. -/
theorem lut_definition_witness :
    (field_consts refEnv 400 300 sample_sigmoidal).compression = max sample_sigmoidal.compression
        (1 / 1000)
    ∧ (field_consts refEnv 400 300 sample_sigmoidal).hwscale
        = 1 / refEnv.sqrtf ((400 : ℚ) * 400 + (300 : ℚ) * 300)
    ∧ (field_consts refEnv 400 300 sample_sigmoidal).lutmax
        = ⌈4 * (field_consts refEnv 400 300 sample_sigmoidal).compression
            / (field_consts refEnv 400 300 sample_sigmoidal).hwscale⌉
    ∧ 0 ≤ (field_consts refEnv 400 300 sample_sigmoidal).lutmax
    ∧ ((gradient_lut refEnv (field_consts refEnv 400 300 sample_sigmoidal)).length : ℤ)
        = 2 * (field_consts refEnv 400 300 sample_sigmoidal).lutmax + 2
    ∧ (∀ n : ℕ, (n : ℤ) < 2 * (field_consts refEnv 400 300 sample_sigmoidal).lutmax + 2 →
        (gradient_lut refEnv (field_consts refEnv 400 300 sample_sigmoidal))[n]?
          = some (max 0 (min 1 (1 / 2 + 1 / 2 *
              (if sample_sigmoidal.state = dt_masks_gradient_states_t.DT_MASKS_GRADIENT_STATE_LINEAR
                then (((n : ℤ) - (field_consts refEnv 400 300 sample_sigmoidal).lutmax : ℤ) : ℚ)
                  * (field_consts refEnv 400 300 sample_sigmoidal).hwscale
                  / (field_consts refEnv 400 300 sample_sigmoidal).compression
                else refEnv.erff ((((n : ℤ) - (field_consts refEnv 400 300
                    sample_sigmoidal).lutmax : ℤ) : ℚ)
                  * (field_consts refEnv 400 300 sample_sigmoidal).hwscale
                  / (field_consts refEnv 400 300 sample_sigmoidal).compression)))))
        ∧ ∃ v, (gradient_lut refEnv (field_consts refEnv 400 300 sample_sigmoidal))[n]? = some v
            ∧ 0 ≤ v ∧ v ≤ 1)
    ∧ (gradient_lut refEnv (field_consts refEnv 400 300 sample_sigmoidal))[
          (field_consts refEnv 400 300 sample_sigmoidal).lutmax.toNat]? = some (1 / 2)
    ∧ (((0 : ℤ) - (field_consts refEnv 400 300 sample_sigmoidal).lutmax : ℤ) : ℚ)
          * (field_consts refEnv 400 300 sample_sigmoidal).hwscale
        ≤ -4 * (field_consts refEnv 400 300 sample_sigmoidal).compression
    ∧ 4 * (field_consts refEnv 400 300 sample_sigmoidal).compression
        ≤ ((2 * (field_consts refEnv 400 300 sample_sigmoidal).lutmax
            - (field_consts refEnv 400 300 sample_sigmoidal).lutmax : ℤ) : ℚ)
          * (field_consts refEnv 400 300 sample_sigmoidal).hwscale :=
  lut_definition refEnv 400 300 sample_sigmoidal (by decide!) (by decide!)

/-! ### Grid step, sampling, iso-lines, lookup and table symmetry -/

theorem CLAMP_range (x : ℚ) : 1 ≤ CLAMP x 1 4 ∧ CLAMP x 1 4 ≤ 4 := by
  unfold CLAMP
  split_ifs with h1 h2
  · norm_num
  · norm_num
  · exact ⟨not_lt.mp h2, not_lt.mp h1⟩

theorem CLAMP_mono (x y : ℚ) (h : x ≤ y) : CLAMP x 1 4 ≤ CLAMP y 1 4 := by
  unfold CLAMP
  split_ifs <;> linarith

theorem roi_grid_step_eq_floor (scale : ℚ) :
    roi_grid_step scale = ⌊CLAMP ((10 * scale + 2) / 3) 1 4⌋ := by
  unfold roi_grid_step toInt
  rw [if_pos (by linarith [(CLAMP_range ((10 * scale + 2) / 3)).1])]

theorem roi_grid_step_range (scale : ℚ) :
    1 ≤ roi_grid_step scale ∧ roi_grid_step scale ≤ 4 := by
  have h := CLAMP_range ((10 * scale + 2) / 3)
  exact toInt_mem _ 1 4 (by exact_mod_cast h.1) (by exact_mod_cast h.2)

/-- C21, refuted at concrete scales: for the region scales 1/10 and 1 the grid steps are 1
and 4, so the larger scale has the larger grid step. -/
theorem grid_step_grows_with_scale :
    (0 : ℚ) < 1 / 10 ∧ (1 / 10 : ℚ) ≤ 1
    ∧ roi_grid_step (1 / 10) = 1 ∧ roi_grid_step 1 = 4
    ∧ ¬ (roi_grid_step 1 ≤ roi_grid_step (1 / 10)) := by
  decide!

/-- C21, amended: the grid step of `_gradient_get_mask_roi`, counted in pixels of the
region, does not decrease when the scale grows: for scales `s1 ≤ s2` the step chosen for
`s1` is at most the step chosen for `s2`. -/
theorem roi_grid_step_mono (s1 s2 : ℚ) (h : s1 ≤ s2) :
    roi_grid_step s1 ≤ roi_grid_step s2 := by
  rw [roi_grid_step_eq_floor, roi_grid_step_eq_floor]
  apply Int.floor_mono
  apply CLAMP_mono
  linarith

/-- C21 amended, at the scales 1/10 and 1. -/
theorem roi_grid_step_mono_witness : roi_grid_step (1 / 10) ≤ roi_grid_step 1 :=
  roi_grid_step_mono (1 / 10) 1 (by norm_num)

/-- C22: grid step values. The full-frame rasterizer builds its grid with the step 8, and
when it returns a new buffer it is filled with the step 8. For every region the grid of
the region rasterizer is built, and its output filled, with the step `roi_grid_step`,
which is the truncation, here the floor, of `CLAMP((10 * scale + 2) / 3, 1, 4)`; it is
1, 2, 3 or 4, so neither it nor its square is 0. -/
theorem grid_step_values (E : Env) (iwidth iheight : ℤ) (g : dt_masks_point_gradient_t)
    (s : MaskState) (a : AreaState) (roi : dt_iop_roi_t) (buffer : List ℚ) :
    mask_points a = mask_grid 8 (grid_count a.width 8) (grid_count a.height 8) a.posx a.posy
    ∧ ((_gradient_get_mask E iwidth iheight g s).2.buffer = s.buffer
      ∨ (_gradient_get_mask E iwidth iheight g s).2.buffer = none
      ∨ ∃ values, (_gradient_get_mask E iwidth iheight g s).2.buffer
          = some (fill_buffer values 8
              (grid_count (_gradient_get_mask E iwidth iheight g s).2.area.width 8)
              (_gradient_get_mask E iwidth iheight g s).2.area.width
              (_gradient_get_mask E iwidth iheight g s).2.area.height))
    ∧ roi_points roi = roi_grid (roi_grid_step roi.scale)
        (grid_count roi.width (roi_grid_step roi.scale))
        (grid_count roi.height (roi_grid_step roi.scale)) roi.x roi.y (1 / roi.scale)
    ∧ ((_gradient_get_mask_roi E iwidth iheight g roi buffer).2 = buffer
      ∨ ∃ values, (_gradient_get_mask_roi E iwidth iheight g roi buffer).2
          = fill_buffer values (roi_grid_step roi.scale)
              (grid_count roi.width (roi_grid_step roi.scale)) roi.width roi.height
            ++ buffer.drop (fill_buffer values (roi_grid_step roi.scale)
              (grid_count roi.width (roi_grid_step roi.scale)) roi.width roi.height).length)
    ∧ roi_grid_step roi.scale = toInt (CLAMP ((10 * roi.scale + 2) / 3) 1 4)
    ∧ roi_grid_step roi.scale = ⌊CLAMP ((10 * roi.scale + 2) / 3) 1 4⌋
    ∧ (roi_grid_step roi.scale = 1 ∨ roi_grid_step roi.scale = 2
      ∨ roi_grid_step roi.scale = 3 ∨ roi_grid_step roi.scale = 4)
    ∧ roi_grid_step roi.scale ≠ 0
    ∧ roi_grid_step roi.scale * roi_grid_step roi.scale ≠ 0 := by
  have hr := roi_grid_step_range roi.scale
  refine ⟨rfl, ?_, rfl, ?_, rfl, roi_grid_step_eq_floor roi.scale, by omega, by omega, ?_⟩
  · unfold _gradient_get_mask
    split
    · exact Or.inl rfl
    · rename_i r a1 hne hA
      cases hb : E.dt_dev_distort_backtransform_plus (mask_points a1) <;>
      cases h1 : E.dt_alloc_align_float
        (2 * grid_count a1.width 8 * grid_count a1.height 8).toNat <;>
      cases h2 : E.dt_alloc_align_float (field_consts E iwidth iheight g).lutsize.toNat <;>
      cases h3 : E.dt_alloc_align_float (a1.width * a1.height).toNat <;>
      simp only [hb, h1, h2, h3, if_true, if_false, Bool.true_eq_false, Bool.false_eq_true] <;>
      first
        | exact Or.inl rfl
        | exact Or.inr (Or.inl rfl)
        | exact Or.inr (Or.inr ⟨_, rfl⟩)
        | exact Or.inl trivial
        | exact Or.inr (Or.inl trivial)
  · unfold _gradient_get_mask_roi
    cases hb : E.dt_dev_distort_backtransform_plus (roi_points roi) <;>
    cases h1 : E.dt_alloc_align_float
      (2 * grid_count roi.width (roi_grid_step roi.scale)
        * grid_count roi.height (roi_grid_step roi.scale)).toNat <;>
    cases h2 : E.dt_alloc_align_float (field_consts E iwidth iheight g).lutsize.toNat <;>
    simp only [hb, h1, h2, if_true, if_false, Bool.true_eq_false, Bool.false_eq_true] <;>
    first
      | exact Or.inl rfl
      | exact Or.inr ⟨_, rfl⟩
      | exact Or.inl trivial
  · have : 0 < roi_grid_step roi.scale := by omega
    positivity

theorem line_loop_true (f : ℤ → ℚ × ℚ) (wd ht : ℚ) (l : List ℤ) :
    line_loop f wd ht l true
      = (l.takeWhile (fun i => !out_of_frame wd ht (f i))).map f := by
  induction l with
  | nil => rfl
  | cons i rest ih =>
    unfold line_loop
    by_cases ho : out_of_frame wd ht (f i) = true
    · rw [if_pos ho, List.takeWhile_cons]
      simp [ho]
    · rw [if_neg ho, List.takeWhile_cons, ih]
      simp [ho]

theorem line_loop_false (f : ℤ → ℚ × ℚ) (wd ht : ℚ) (l : List ℤ) :
    line_loop f wd ht l false
      = ((l.dropWhile (fun i => out_of_frame wd ht (f i))).takeWhile
          (fun i => !out_of_frame wd ht (f i))).map f := by
  induction l with
  | nil => rfl
  | cons i rest ih =>
    unfold line_loop
    by_cases ho : out_of_frame wd ht (f i) = true
    · rw [if_pos ho, List.dropWhile_cons, if_pos ho, ← ih]
      simp
    · rw [if_neg ho, List.dropWhile_cons, if_neg ho, List.takeWhile_cons, line_loop_true]
      simp [ho]

theorem toInt_add_three (s : ℚ) (hs : 0 ≤ s) : toInt (s + 3) = ⌊s⌋ + 3 := by
  unfold toInt
  rw [if_pos (by linarith)]
  have : s + 3 = s + ((3 : ℤ) : ℚ) := by norm_num
  rw [this, Int.floor_add_int]

theorem length_line_indices (count : ℤ) : (line_indices count).length = (count - 3).toNat := by
  simp [line_indices]

theorem out_of_frame_false (wd ht : ℚ) (p : ℚ × ℚ) (h : out_of_frame wd ht p = false) :
    -wd ≤ p.1 ∧ p.1 ≤ 2 * wd ∧ -ht ≤ p.2 ∧ p.2 ≤ 2 * ht := by
  unfold out_of_frame at h
  simp only [Bool.or_eq_false_iff, decide_eq_false_iff_not, not_lt, gt_iff_lt] at h
  exact ⟨h.1.1.1, h.1.1.2, h.1.2, h.2⟩

/-- C23: single in-frame run. With a non-negative square root of `wd² + ht²`, the vertices
of index 3 and above that `_gradient_get_points` writes before the forward transform
are the samples of the first maximal run of in-frame loop indices: the leading out-of-frame
indices are dropped, then the indices are taken up to the first out-of-frame one. Every
such vertex lies in `[-wd, 2wd] × [-ht, 2ht]`, the buffer holds between 3 and
`⌊sqrt(wd² + ht²)⌋ + 3` points, and on success `points_count` is that number. -/
theorem single_in_frame_run (E : Env) (iwidth iheight : ℤ) (x y rotation curvature : ℚ)
    (hs : 0 ≤ E.sqrtf ((iwidth : ℚ) * iwidth + (iheight : ℚ) * iheight)) :
    (gradient_points_raw E iwidth iheight x y rotation curvature).drop 3
        = ((((line_indices
                (toInt (E.sqrtf ((iwidth : ℚ) * iwidth + (iheight : ℚ) * iheight) + 3))).dropWhile
              (fun i => out_of_frame iwidth iheight
                (line_point E iwidth iheight x y rotation curvature
                  (toInt (E.sqrtf ((iwidth : ℚ) * iwidth + (iheight : ℚ) * iheight) + 3))
                  i))).takeWhile
              (fun i => !out_of_frame iwidth iheight
                (line_point E iwidth iheight x y rotation curvature
                  (toInt (E.sqrtf ((iwidth : ℚ) * iwidth + (iheight : ℚ) * iheight) + 3))
                  i))).map
            (line_point E iwidth iheight x y rotation curvature
              (toInt (E.sqrtf ((iwidth : ℚ) * iwidth + (iheight : ℚ) * iheight) + 3))))
    ∧ (∀ p ∈ (gradient_points_raw E iwidth iheight x y rotation curvature).drop 3,
        -(iwidth : ℚ) ≤ p.1 ∧ p.1 ≤ 2 * (iwidth : ℚ)
        ∧ -(iheight : ℚ) ≤ p.2 ∧ p.2 ≤ 2 * (iheight : ℚ))
    ∧ 3 ≤ ((gradient_points_raw E iwidth iheight x y rotation curvature).length : ℤ)
    ∧ ((gradient_points_raw E iwidth iheight x y rotation curvature).length : ℤ)
        ≤ ⌊E.sqrtf ((iwidth : ℚ) * iwidth + (iheight : ℚ) * iheight)⌋ + 3
    ∧ ((_gradient_get_points E iwidth iheight x y rotation curvature).ret ≠ 0 →
        (_gradient_get_points E iwidth iheight x y rotation curvature).points_count
          = ((gradient_points_raw E iwidth iheight x y rotation curvature).length : ℤ)
        ∧ 3 ≤ (_gradient_get_points E iwidth iheight x y rotation curvature).points_count
        ∧ (_gradient_get_points E iwidth iheight x y rotation curvature).points_count
          ≤ ⌊E.sqrtf ((iwidth : ℚ) * iwidth + (iheight : ℚ) * iheight)⌋ + 3) := by
  have hraw : (gradient_points_raw E iwidth iheight x y rotation curvature).drop 3
      = line_loop (line_point E iwidth iheight x y rotation curvature
            (toInt (E.sqrtf ((iwidth : ℚ) * iwidth + (iheight : ℚ) * iheight) + 3)))
          iwidth iheight
          (line_indices (toInt (E.sqrtf ((iwidth : ℚ) * iwidth + (iheight : ℚ) * iheight) + 3)))
          false := rfl
  have hlen : (gradient_points_raw E iwidth iheight x y rotation curvature).length
      = 3 + ((gradient_points_raw E iwidth iheight x y rotation curvature).drop 3).length := by
    simp [gradient_points_raw]
    omega
  have hfloor := Int.floor_nonneg.mpr hs
  have hle : (((gradient_points_raw E iwidth iheight x y rotation curvature).drop 3).length : ℤ)
      ≤ ⌊E.sqrtf ((iwidth : ℚ) * iwidth + (iheight : ℚ) * iheight)⌋ := by
    rw [hraw, line_loop_false, List.length_map]
    have h1 := (List.takeWhile_sublist (fun i => !out_of_frame (iwidth : ℚ) iheight
        (line_point E iwidth iheight x y rotation curvature
          (toInt (E.sqrtf ((iwidth : ℚ) * iwidth + (iheight : ℚ) * iheight) + 3)) i))
      (l := (line_indices
        (toInt (E.sqrtf ((iwidth : ℚ) * iwidth + (iheight : ℚ) * iheight) + 3))).dropWhile
          (fun i => out_of_frame iwidth iheight
            (line_point E iwidth iheight x y rotation curvature
              (toInt (E.sqrtf ((iwidth : ℚ) * iwidth + (iheight : ℚ) * iheight) + 3))
              i)))).length_le
    have h2 := (List.dropWhile_sublist (fun i => out_of_frame (iwidth : ℚ) iheight
        (line_point E iwidth iheight x y rotation curvature
          (toInt (E.sqrtf ((iwidth : ℚ) * iwidth + (iheight : ℚ) * iheight) + 3)) i))
      (l := line_indices
        (toInt (E.sqrtf ((iwidth : ℚ) * iwidth + (iheight : ℚ) * iheight) + 3)))).length_le
    have hc : (toInt (E.sqrtf ((iwidth : ℚ) * iwidth + (iheight : ℚ) * iheight) + 3) - 3).toNat
        = ⌊E.sqrtf ((iwidth : ℚ) * iwidth + (iheight : ℚ) * iheight)⌋.toNat := by
      rw [toInt_add_three _ hs, add_sub_cancel_right]
    rw [length_line_indices, hc] at h2
    have h3 := Int.toNat_of_nonneg hfloor
    have h4 := h1.trans h2
    omega
  have hcount : 3 ≤ ((gradient_points_raw E iwidth iheight x y rotation curvature).length : ℤ)
      ∧ ((gradient_points_raw E iwidth iheight x y rotation curvature).length : ℤ)
        ≤ ⌊E.sqrtf ((iwidth : ℚ) * iwidth + (iheight : ℚ) * iheight)⌋ + 3 := by
    rw [hlen]
    push_cast
    omega
  refine ⟨?_, ?_, hcount.1, hcount.2, ?_⟩
  · rw [hraw, line_loop_false]
  · intro p hp
    rw [hraw] at hp
    obtain ⟨i, -, rfl, ho⟩ := mem_line_loop _ _ _ _ _ _ hp
    exact out_of_frame_false _ _ _ ho
  · intro hret
    have hpc : (_gradient_get_points E iwidth iheight x y rotation curvature).points_count
        = ((gradient_points_raw E iwidth iheight x y rotation curvature).length : ℤ) := by
      unfold _gradient_get_points at hret ⊢
      simp only at hret ⊢
      split_ifs at hret ⊢ with ha
      · exact absurd rfl hret
      · cases ht : E.dt_dev_distort_transform
            (gradient_points_raw E iwidth iheight x y rotation curvature) with
        | none => rw [ht] at hret; exact absurd rfl hret
        | some q => rfl
    rw [hpc]
    exact ⟨rfl, hcount⟩

/-- C23 at the reference environment, a 4 x 3 image and the anchor `(-3/2, 1/2)`: the
hypothesis holds and the call succeeds. -/
theorem single_in_frame_run_witness :
    0 ≤ refEnv.sqrtf ((4 : ℚ) * 4 + (3 : ℚ) * 3)
    ∧ (_gradient_get_points refEnv 4 3 (-3 / 2) (1 / 2) 0 0).ret ≠ 0
    ∧ ((gradient_points_raw refEnv 4 3 (-3 / 2) (1 / 2) 0 0).drop 3
        = ((((line_indices
                (toInt (refEnv.sqrtf ((4 : ℚ) * 4 + (3 : ℚ) * 3) + 3))).dropWhile
              (fun i => out_of_frame 4 3
                (line_point refEnv 4 3 (-3 / 2) (1 / 2) 0 0
                  (toInt (refEnv.sqrtf ((4 : ℚ) * 4 + (3 : ℚ) * 3) + 3))
                  i))).takeWhile
              (fun i => !out_of_frame 4 3
                (line_point refEnv 4 3 (-3 / 2) (1 / 2) 0 0
                  (toInt (refEnv.sqrtf ((4 : ℚ) * 4 + (3 : ℚ) * 3) + 3))
                  i))).map
            (line_point refEnv 4 3 (-3 / 2) (1 / 2) 0 0
              (toInt (refEnv.sqrtf ((4 : ℚ) * 4 + (3 : ℚ) * 3) + 3))))
    ∧ (∀ p ∈ (gradient_points_raw refEnv 4 3 (-3 / 2) (1 / 2) 0 0).drop 3,
        -(4 : ℚ) ≤ p.1 ∧ p.1 ≤ 2 * (4 : ℚ)
        ∧ -(3 : ℚ) ≤ p.2 ∧ p.2 ≤ 2 * (3 : ℚ))
    ∧ 3 ≤ ((gradient_points_raw refEnv 4 3 (-3 / 2) (1 / 2) 0 0).length : ℤ)
    ∧ ((gradient_points_raw refEnv 4 3 (-3 / 2) (1 / 2) 0 0).length : ℤ)
        ≤ ⌊refEnv.sqrtf ((4 : ℚ) * 4 + (3 : ℚ) * 3)⌋ + 3
    ∧ ((_gradient_get_points refEnv 4 3 (-3 / 2) (1 / 2) 0 0).ret ≠ 0 →
        (_gradient_get_points refEnv 4 3 (-3 / 2) (1 / 2) 0 0).points_count
          = ((gradient_points_raw refEnv 4 3 (-3 / 2) (1 / 2) 0 0).length : ℤ)
        ∧ 3 ≤ (_gradient_get_points refEnv 4 3 (-3 / 2) (1 / 2) 0 0).points_count
        ∧ (_gradient_get_points refEnv 4 3 (-3 / 2) (1 / 2) 0 0).points_count
          ≤ ⌊refEnv.sqrtf ((4 : ℚ) * 4 + (3 : ℚ) * 3)⌋ + 3)) :=
  ⟨by decide!, by decide!, single_in_frame_run refEnv 4 3 (-3 / 2) (1 / 2) 0 0 (by decide!)⟩

theorem line_xstart_nonpos (E : Env) (curvature : ℚ)
    (hq : 1 < fabsf curvature → 0 ≤ E.sqrtf (1 / fabsf curvature)) :
    line_xstart E curvature ≤ 0 := by
  unfold line_xstart
  split_ifs with h
  · linarith [hq h]
  · norm_num

theorem line_point_local (E : Env) (wd ht x y rotation curvature : ℚ) (count i : ℤ) :
    line_point E wd ht x y rotation curvature count i
      = ((E.cosf ((-rotation / 180) * E.M_PI) * (line_local E curvature count i).1
            + E.sinf ((-rotation / 180) * E.M_PI) * (line_local E curvature count i).2)
            * E.sqrtf (wd * wd + ht * ht) + x * wd,
          (E.sinf ((-rotation / 180) * E.M_PI) * (line_local E curvature count i).1
            - E.cosf ((-rotation / 180) * E.M_PI) * (line_local E curvature count i).2)
            * E.sqrtf (wd * wd + ht * ht) + y * ht) := rfl

/-- C24: center-line sampling. With a non-negative square root of `wd² + ht²`, and, for
`|curvature| > 1`, a square root of `1 / |curvature|` that is non-negative and equal to
`1 / sqrt(|curvature|)`: `count` is `⌊sqrt(wd² + ht²)⌋ + 3`; `xstart` is -1 when
`|curvature| ≤ 1` and `-1 / sqrt(|curvature|)` otherwise; the sample `k` (loop index
`k + 3`, `0 ≤ k ≤ count - 4`) has the local abscissa
`x_k = xstart + k * (-2 * xstart / (count - 3))` and the local ordinate `curvature * x_k²`,
from which the loop computes its point by rotation, scaling and translation; the first
sample is at `xstart`, and `xstart ≤ x_k ≤ -xstart`. -/
theorem center_line_sampling (E : Env) (iwidth iheight : ℤ) (x y rotation curvature : ℚ)
    (k : ℤ)
    (hs : 0 ≤ E.sqrtf ((iwidth : ℚ) * iwidth + (iheight : ℚ) * iheight))
    (hq : 1 < fabsf curvature → 0 ≤ E.sqrtf (1 / fabsf curvature))
    (hinv : 1 < fabsf curvature →
      E.sqrtf (1 / fabsf curvature) = 1 / E.sqrtf (fabsf curvature))
    (hk0 : 0 ≤ k)
    (hk : k ≤ toInt (E.sqrtf ((iwidth : ℚ) * iwidth + (iheight : ℚ) * iheight) + 3) - 4) :
    toInt (E.sqrtf ((iwidth : ℚ) * iwidth + (iheight : ℚ) * iheight) + 3)
        = ⌊E.sqrtf ((iwidth : ℚ) * iwidth + (iheight : ℚ) * iheight)⌋ + 3
    ∧ (fabsf curvature ≤ 1 → line_xstart E curvature = -1)
    ∧ (1 < fabsf curvature → line_xstart E curvature = -1 / E.sqrtf (fabsf curvature))
    ∧ (line_local E curvature
          (toInt (E.sqrtf ((iwidth : ℚ) * iwidth + (iheight : ℚ) * iheight) + 3)) (k + 3)).1
        = line_xstart E curvature + (k : ℚ) * (-2 * line_xstart E curvature
            / (((toInt (E.sqrtf ((iwidth : ℚ) * iwidth + (iheight : ℚ) * iheight) + 3) - 3
                : ℤ)) : ℚ))
    ∧ (line_local E curvature
          (toInt (E.sqrtf ((iwidth : ℚ) * iwidth + (iheight : ℚ) * iheight) + 3)) (k + 3)).2
        = curvature * (line_local E curvature
            (toInt (E.sqrtf ((iwidth : ℚ) * iwidth + (iheight : ℚ) * iheight) + 3))
            (k + 3)).1 ^ 2
    ∧ line_point E iwidth iheight x y rotation curvature
          (toInt (E.sqrtf ((iwidth : ℚ) * iwidth + (iheight : ℚ) * iheight) + 3)) (k + 3)
        = ((E.cosf ((-rotation / 180) * E.M_PI) * (line_local E curvature
                (toInt (E.sqrtf ((iwidth : ℚ) * iwidth + (iheight : ℚ) * iheight) + 3))
                (k + 3)).1
              + E.sinf ((-rotation / 180) * E.M_PI) * (line_local E curvature
                (toInt (E.sqrtf ((iwidth : ℚ) * iwidth + (iheight : ℚ) * iheight) + 3))
                (k + 3)).2)
              * E.sqrtf ((iwidth : ℚ) * iwidth + (iheight : ℚ) * iheight) + x * iwidth,
            (E.sinf ((-rotation / 180) * E.M_PI) * (line_local E curvature
                (toInt (E.sqrtf ((iwidth : ℚ) * iwidth + (iheight : ℚ) * iheight) + 3))
                (k + 3)).1
              - E.cosf ((-rotation / 180) * E.M_PI) * (line_local E curvature
                (toInt (E.sqrtf ((iwidth : ℚ) * iwidth + (iheight : ℚ) * iheight) + 3))
                (k + 3)).2)
              * E.sqrtf ((iwidth : ℚ) * iwidth + (iheight : ℚ) * iheight) + y * iheight)
    ∧ (line_local E curvature
          (toInt (E.sqrtf ((iwidth : ℚ) * iwidth + (iheight : ℚ) * iheight) + 3)) 3).1
        = line_xstart E curvature
    ∧ line_xstart E curvature ≤ (line_local E curvature
          (toInt (E.sqrtf ((iwidth : ℚ) * iwidth + (iheight : ℚ) * iheight) + 3)) (k + 3)).1
    ∧ (line_local E curvature
          (toInt (E.sqrtf ((iwidth : ℚ) * iwidth + (iheight : ℚ) * iheight) + 3)) (k + 3)).1
        ≤ -line_xstart E curvature := by
  have hx := line_xstart_nonpos E curvature hq
  generalize hcount :
    toInt (E.sqrtf ((iwidth : ℚ) * iwidth + (iheight : ℚ) * iheight) + 3) = count at *
  have hc3 : (0 : ℚ) < ((count - 3 : ℤ) : ℚ) := by
    have : 0 < count - 3 := by omega
    exact_mod_cast this
  have hxk : (line_local E curvature count (k + 3)).1
      = line_xstart E curvature + (k : ℚ) * (-2 * line_xstart E curvature
          / ((count - 3 : ℤ) : ℚ)) := by
    unfold line_local
    simp only [add_sub_cancel_right]
  have hkq : (k : ℚ) ≤ ((count - 3 : ℤ) : ℚ) := by
    have : k ≤ count - 3 := by omega
    exact_mod_cast this
  have hk0q : (0 : ℚ) ≤ (k : ℚ) := by exact_mod_cast hk0
  have hd : 0 ≤ -2 * line_xstart E curvature / ((count - 3 : ℤ) : ℚ) :=
    div_nonneg (by linarith) hc3.le
  refine ⟨?_, ?_, ?_, hxk, ?_, line_point_local _ _ _ _ _ _ _ _ _, ?_, ?_, ?_⟩
  · rw [← hcount]
    exact toInt_add_three _ hs
  · intro h
    unfold line_xstart
    rw [if_neg (not_lt.mpr h)]
  · intro h
    unfold line_xstart
    rw [if_pos h, hinv h]
    ring
  · unfold line_local
    simp only
    ring
  · unfold line_local
    simp
  · rw [hxk]
    nlinarith [mul_nonneg hk0q hd]
  · rw [hxk]
    have h1 : (k : ℚ) * (-2 * line_xstart E curvature / ((count - 3 : ℤ) : ℚ))
        ≤ ((count - 3 : ℤ) : ℚ) * (-2 * line_xstart E curvature / ((count - 3 : ℤ) : ℚ)) :=
      mul_le_mul_of_nonneg_right hkq hd
    have h2 : ((count - 3 : ℤ) : ℚ) * (-2 * line_xstart E curvature / ((count - 3 : ℤ) : ℚ))
        = -2 * line_xstart E curvature := mul_div_cancel₀ _ hc3.ne.symm
    linarith

/-- C24 at the reference environment, a 4 x 3 image, curvature 4 and the sample 2. -/
theorem center_line_sampling_witness :
    0 ≤ refEnv.sqrtf ((4 : ℚ) * 4 + (3 : ℚ) * 3)
    ∧ 1 < fabsf 4
    ∧ 0 ≤ refEnv.sqrtf (1 / fabsf 4)
    ∧ refEnv.sqrtf (1 / fabsf 4) = 1 / refEnv.sqrtf (fabsf 4)
    ∧ (2 : ℤ) ≤ toInt (refEnv.sqrtf ((4 : ℚ) * 4 + (3 : ℚ) * 3) + 3) - 4
    ∧ (toInt (refEnv.sqrtf ((4 : ℚ) * 4 + (3 : ℚ) * 3) + 3)
        = ⌊refEnv.sqrtf ((4 : ℚ) * 4 + (3 : ℚ) * 3)⌋ + 3
    ∧ (fabsf 4 ≤ 1 → line_xstart refEnv 4 = -1)
    ∧ (1 < fabsf 4 → line_xstart refEnv 4 = -1 / refEnv.sqrtf (fabsf 4))
    ∧ (line_local refEnv 4
          (toInt (refEnv.sqrtf ((4 : ℚ) * 4 + (3 : ℚ) * 3) + 3)) (2 + 3)).1
        = line_xstart refEnv 4 + (2 : ℚ) * (-2 * line_xstart refEnv 4
            / (((toInt (refEnv.sqrtf ((4 : ℚ) * 4 + (3 : ℚ) * 3) + 3) - 3
                : ℤ)) : ℚ))
    ∧ (line_local refEnv 4
          (toInt (refEnv.sqrtf ((4 : ℚ) * 4 + (3 : ℚ) * 3) + 3)) (2 + 3)).2
        = 4 * (line_local refEnv 4
            (toInt (refEnv.sqrtf ((4 : ℚ) * 4 + (3 : ℚ) * 3) + 3))
            (2 + 3)).1 ^ 2
    ∧ line_point refEnv 4 3 (1 / 2) (1 / 2) 0 4
          (toInt (refEnv.sqrtf ((4 : ℚ) * 4 + (3 : ℚ) * 3) + 3)) (2 + 3)
        = ((refEnv.cosf ((-(0 : ℚ) / 180) * refEnv.M_PI) * (line_local refEnv 4
                (toInt (refEnv.sqrtf ((4 : ℚ) * 4 + (3 : ℚ) * 3) + 3))
                (2 + 3)).1
              + refEnv.sinf ((-(0 : ℚ) / 180) * refEnv.M_PI) * (line_local refEnv 4
                (toInt (refEnv.sqrtf ((4 : ℚ) * 4 + (3 : ℚ) * 3) + 3))
                (2 + 3)).2)
              * refEnv.sqrtf ((4 : ℚ) * 4 + (3 : ℚ) * 3) + 1 / 2 * 4,
            (refEnv.sinf ((-(0 : ℚ) / 180) * refEnv.M_PI) * (line_local refEnv 4
                (toInt (refEnv.sqrtf ((4 : ℚ) * 4 + (3 : ℚ) * 3) + 3))
                (2 + 3)).1
              - refEnv.cosf ((-(0 : ℚ) / 180) * refEnv.M_PI) * (line_local refEnv 4
                (toInt (refEnv.sqrtf ((4 : ℚ) * 4 + (3 : ℚ) * 3) + 3))
                (2 + 3)).2)
              * refEnv.sqrtf ((4 : ℚ) * 4 + (3 : ℚ) * 3) + 1 / 2 * 3)
    ∧ (line_local refEnv 4
          (toInt (refEnv.sqrtf ((4 : ℚ) * 4 + (3 : ℚ) * 3) + 3)) 3).1
        = line_xstart refEnv 4
    ∧ line_xstart refEnv 4 ≤ (line_local refEnv 4
          (toInt (refEnv.sqrtf ((4 : ℚ) * 4 + (3 : ℚ) * 3) + 3)) (2 + 3)).1
    ∧ (line_local refEnv 4
          (toInt (refEnv.sqrtf ((4 : ℚ) * 4 + (3 : ℚ) * 3) + 3)) (2 + 3)).1
        ≤ -line_xstart refEnv 4) :=
  ⟨by decide!, by decide!, by decide!, by decide!, by decide!,
    center_line_sampling refEnv 4 3 (1 / 2) (1 / 2) 0 4 2 (by decide!) (fun _ => by decide!)
      (fun _ => by decide!) (by decide) (by decide!)⟩

theorem lutmax_nonneg (E : Env) (iwidth iheight : ℤ) (g : dt_masks_point_gradient_t)
    (hs : 0 ≤ E.sqrtf ((iwidth : ℚ) * iwidth + (iheight : ℚ) * iheight)) :
    0 ≤ (field_consts E iwidth iheight g).lutmax := by
  rw [lutmax_eq, ihwscale_eq]
  have hc := compression_pos E iwidth iheight g
  exact Int.ceil_nonneg (by positivity)

theorem lut_entry_centre (E : Env) (c : FieldConsts)
    (herf : c.state ≠ DT_MASKS_GRADIENT_STATE_LINEAR → E.erff 0 = 0) :
    lut_entry E c c.lutmax = 1 / 2 := by
  unfold lut_entry
  simp only [sub_self, Int.cast_zero, zero_mul, mul_zero, zero_div]
  by_cases h : c.state = DT_MASKS_GRADIENT_STATE_LINEAR
  · rw [if_pos h]
    norm_num
  · rw [if_neg h, herf h]
    norm_num

theorem field_value_zero (E : Env) (iwidth iheight : ℤ) (g : dt_masks_point_gradient_t)
    (hs : 0 ≤ E.sqrtf ((iwidth : ℚ) * iwidth + (iheight : ℚ) * iheight))
    (herf : g.state ≠ DT_MASKS_GRADIENT_STATE_LINEAR → E.erff 0 = 0) :
    field_value E iwidth iheight g 0 = 1 / 2 := by
  have hc := compression_pos E iwidth iheight g
  have hL := lutmax_nonneg E iwidth iheight g hs
  have hsize : (field_consts E iwidth iheight g).lutsize
      = 2 * (field_consts E iwidth iheight g).lutmax + 2 := rfl
  unfold field_value node_value
  simp only
  rw [if_neg (by linarith), if_neg (by linarith), zero_mul]
  have h0 : ((0 : ℤ) : ℚ) = 0 := Int.cast_zero
  rw [← h0, lookup_intCast, clut_entry E _ 0 (by omega) (by omega), add_zero]
  exact lut_entry_centre E _ herf

theorem node_local_line_point (E : Env) (iwidth iheight : ℤ) (g : dt_masks_point_gradient_t)
    (count i : ℤ)
    (hpyth : E.cosf ((-g.rotation / 180) * E.M_PI) ^ 2
      + E.sinf ((-g.rotation / 180) * E.M_PI) ^ 2 = 1)
    (hscale : 0 < E.sqrtf ((iwidth : ℚ) * iwidth + (iheight : ℚ) * iheight)) :
    node_local (field_consts E iwidth iheight g)
        (line_point E iwidth iheight g.anchor.1 g.anchor.2 g.rotation g.curvature count i)
      = line_local E g.curvature count i := by
  rw [line_point_local]
  generalize line_local E g.curvature count i = L
  unfold node_local field_consts
  simp only
  generalize E.sqrtf ((iwidth : ℚ) * iwidth + (iheight : ℚ) * iheight) = s at *
  generalize E.cosf ((-g.rotation / 180) * E.M_PI) = c at *
  generalize E.sinf ((-g.rotation / 180) * E.M_PI) = d at *
  have hs : s ≠ 0 := hscale.ne.symm
  ext
  · simp only
    field_simp
    linear_combination (L.1 * s) * hpyth
  · simp only
    field_simp
    linear_combination (L.2 * s) * hpyth

/-- C25: the center line is the iso-line of value 1/2. With an identity forward
transform, `cos² + sin² = 1` at the angle of the gradient, a positive square root of
`wd² + ht²` and, for the sigmoidal falloff, `erf(0) = 0`: every vertex of index 3 or more
that `_gradient_get_points` returns is the point of a loop index `i` whose local
coordinates in the rasterizer, `(x0, y0)`, are the local coordinates `(xi, yi)` of the
sample, with `yi = curvature * xi²`; its signed distance is 0 and the value of the scalar
field there is 1/2. -/
theorem center_line_iso (E : Env) (iwidth iheight : ℤ) (g : dt_masks_point_gradient_t)
    (q : List (ℚ × ℚ)) (n : ℕ) (P : ℚ × ℚ)
    (hid : ∀ pts, E.dt_dev_distort_transform pts = some pts)
    (hpyth : E.cosf ((-g.rotation / 180) * E.M_PI) ^ 2
      + E.sinf ((-g.rotation / 180) * E.M_PI) ^ 2 = 1)
    (hscale : 0 < E.sqrtf ((iwidth : ℚ) * iwidth + (iheight : ℚ) * iheight))
    (herf : g.state ≠ DT_MASKS_GRADIENT_STATE_LINEAR → E.erff 0 = 0)
    (hq : (_gradient_get_points E iwidth iheight g.anchor.1 g.anchor.2 g.rotation
      g.curvature).points = some q)
    (hn : 3 ≤ n) (hP : q[n]? = some P) :
    ∃ i : ℤ, 3 ≤ i
      ∧ i < toInt (E.sqrtf ((iwidth : ℚ) * iwidth + (iheight : ℚ) * iheight) + 3)
      ∧ P = line_point E iwidth iheight g.anchor.1 g.anchor.2 g.rotation g.curvature
          (toInt (E.sqrtf ((iwidth : ℚ) * iwidth + (iheight : ℚ) * iheight) + 3)) i
      ∧ node_local (field_consts E iwidth iheight g) P
        = line_local E g.curvature
            (toInt (E.sqrtf ((iwidth : ℚ) * iwidth + (iheight : ℚ) * iheight) + 3)) i
      ∧ (node_local (field_consts E iwidth iheight g) P).2
        = g.curvature * (node_local (field_consts E iwidth iheight g) P).1 ^ 2
      ∧ node_distance (field_consts E iwidth iheight g) P = 0
      ∧ direct_value E iwidth iheight g P = 1 / 2 := by
  have hraw : q = gradient_points_raw E iwidth iheight g.anchor.1 g.anchor.2 g.rotation
      g.curvature := by
    unfold _gradient_get_points at hq
    simp only [hid] at hq
    split_ifs at hq
    exact (Option.some.inj hq).symm
  have hmem : P ∈ (gradient_points_raw E iwidth iheight g.anchor.1 g.anchor.2 g.rotation
      g.curvature).drop 3 := by
    rw [← hraw]
    have h3 : (q.drop 3)[n - 3]? = some P := by
      rw [List.getElem?_drop]
      have : 3 + (n - 3) = n := by omega
      rw [this]
      exact hP
    exact List.getElem?_mem h3
  have hloop : (gradient_points_raw E iwidth iheight g.anchor.1 g.anchor.2 g.rotation
      g.curvature).drop 3
      = line_loop (line_point E iwidth iheight g.anchor.1 g.anchor.2 g.rotation g.curvature
            (toInt (E.sqrtf ((iwidth : ℚ) * iwidth + (iheight : ℚ) * iheight) + 3)))
          iwidth iheight
          (line_indices (toInt (E.sqrtf ((iwidth : ℚ) * iwidth + (iheight : ℚ) * iheight) + 3)))
          false := rfl
  rw [hloop] at hmem
  obtain ⟨i, hi, hPi, -⟩ := mem_line_loop _ _ _ _ _ _ hmem
  have hi2 := mem_line_indices _ _ hi
  have hloc := node_local_line_point E iwidth iheight g
    (toInt (E.sqrtf ((iwidth : ℚ) * iwidth + (iheight : ℚ) * iheight) + 3)) i hpyth hscale
  rw [← hPi] at hloc
  have hy : (node_local (field_consts E iwidth iheight g) P).2
      = g.curvature * (node_local (field_consts E iwidth iheight g) P).1 ^ 2 := by
    rw [hloc]
    unfold line_local
    simp only
    ring
  have hd : node_distance (field_consts E iwidth iheight g) P = 0 := by
    have : node_distance (field_consts E iwidth iheight g) P
        = (node_local (field_consts E iwidth iheight g) P).2
          - g.curvature * (node_local (field_consts E iwidth iheight g) P).1
            * (node_local (field_consts E iwidth iheight g) P).1 := rfl
    rw [this, hy]
    ring
  refine ⟨i, hi2.1, hi2.2, hPi, hloc, hy, hd, ?_⟩
  unfold direct_value
  rw [hd]
  exact field_value_zero E iwidth iheight g hscale.le herf

/-- C25 at the reference environment, a 4 x 3 image and the curved sample gradient: the
vertex of index 4 of the outline is `(-1, 3/5)`. -/
theorem center_line_iso_witness :
    (∀ pts, refEnv.dt_dev_distort_transform pts = some pts)
    ∧ refEnv.cosf ((-sample_curved.rotation / 180) * refEnv.M_PI) ^ 2
      + refEnv.sinf ((-sample_curved.rotation / 180) * refEnv.M_PI) ^ 2 = 1
    ∧ 0 < refEnv.sqrtf ((4 : ℚ) * 4 + (3 : ℚ) * 3)
    ∧ refEnv.erff 0 = 0
    ∧ (_gradient_get_points refEnv 4 3 sample_curved.anchor.1 sample_curved.anchor.2
        sample_curved.rotation sample_curved.curvature).points
      = some (gradient_points_raw refEnv 4 3 (1 / 2) (1 / 2) 0 (1 / 2))
    ∧ (gradient_points_raw refEnv 4 3 (1 / 2) (1 / 2) 0 (1 / 2))[4]? = some ((-1, 3 / 5) : ℚ × ℚ)
    ∧ (∃ i : ℤ, 3 ≤ i
      ∧ i < toInt (refEnv.sqrtf ((4 : ℚ) * 4 + (3 : ℚ) * 3) + 3)
      ∧ ((-1, 3 / 5) : ℚ × ℚ)
        = line_point refEnv 4 3 sample_curved.anchor.1 sample_curved.anchor.2
          sample_curved.rotation sample_curved.curvature
          (toInt (refEnv.sqrtf ((4 : ℚ) * 4 + (3 : ℚ) * 3) + 3)) i
      ∧ node_local (field_consts refEnv 4 3 sample_curved) ((-1, 3 / 5) : ℚ × ℚ)
        = line_local refEnv sample_curved.curvature
            (toInt (refEnv.sqrtf ((4 : ℚ) * 4 + (3 : ℚ) * 3) + 3)) i
      ∧ (node_local (field_consts refEnv 4 3 sample_curved) ((-1, 3 / 5) : ℚ × ℚ)).2
        = sample_curved.curvature
          * (node_local (field_consts refEnv 4 3 sample_curved) ((-1, 3 / 5) : ℚ × ℚ)).1 ^ 2
      ∧ node_distance (field_consts refEnv 4 3 sample_curved) ((-1, 3 / 5) : ℚ × ℚ) = 0
      ∧ direct_value refEnv 4 3 sample_curved ((-1, 3 / 5) : ℚ × ℚ) = 1 / 2) :=
  ⟨fun _ => rfl, by decide!, by decide!, by decide!, by decide!, by decide!,
    center_line_iso refEnv 4 3 sample_curved
      (gradient_points_raw refEnv 4 3 (1 / 2) (1 / 2) 0 (1 / 2)) 4 (-1, 3 / 5)
      (fun _ => rfl) (by decide!) (by decide!) (fun _ => by decide!) (by decide!) (by decide)
      (by decide!)⟩

theorem node_distance_local (c : FieldConsts) (p : ℚ × ℚ) :
    node_distance c p
      = (node_local c p).2 - c.curvature * (node_local c p).1 * (node_local c p).1 := rfl

theorem node_distance_shifted (E : Env) (iwidth iheight : ℤ) (g : dt_masks_point_gradient_t)
    (count i : ℤ) (cs sn sgn : ℚ)
    (hc : cs = -sgn * E.sinf ((-g.rotation / 180) * E.M_PI))
    (hs : sn = sgn * E.cosf ((-g.rotation / 180) * E.M_PI))
    (hpyth : E.cosf ((-g.rotation / 180) * E.M_PI) ^ 2
      + E.sinf ((-g.rotation / 180) * E.M_PI) ^ 2 = 1)
    (hscale : 0 < E.sqrtf ((iwidth : ℚ) * iwidth + (iheight : ℚ) * iheight))
    (hw : iwidth ≠ 0) (hh : iheight ≠ 0) :
    node_distance (field_consts E iwidth iheight g)
        (line_point E iwidth iheight
          ((g.anchor.1 * iwidth + g.compression
            * E.sqrtf ((iwidth : ℚ) * iwidth + (iheight : ℚ) * iheight) * cs) / iwidth)
          ((g.anchor.2 * iheight + g.compression
            * E.sqrtf ((iwidth : ℚ) * iwidth + (iheight : ℚ) * iheight) * sn) / iheight)
          g.rotation g.curvature count i)
      = -sgn * g.compression := by
  have hwq : (iwidth : ℚ) ≠ 0 := by exact_mod_cast hw
  have hhq : (iheight : ℚ) ≠ 0 := by exact_mod_cast hh
  rw [node_distance_local, line_point_local]
  have hcurv : (field_consts E iwidth iheight g).curvature = g.curvature := rfl
  rw [hcurv]
  have hy : (line_local E g.curvature count i).2
      = g.curvature * (line_local E g.curvature count i).1
        * (line_local E g.curvature count i).1 := rfl
  generalize line_local E g.curvature count i = L at *
  unfold node_local field_consts
  simp only
  rw [div_mul_cancel₀ _ hwq, div_mul_cancel₀ _ hhq, hc, hs]
  generalize E.sqrtf ((iwidth : ℚ) * iwidth + (iheight : ℚ) * iheight) = s at *
  generalize E.cosf ((-g.rotation / 180) * E.M_PI) = c at *
  generalize E.sinf ((-g.rotation / 180) * E.M_PI) = d at *
  have hs0 : s ≠ 0 := hscale.ne.symm
  have hx0 : (c * ((c * L.1 + d * L.2) * s + (g.anchor.1 * ↑iwidth + g.compression * s
      * (-sgn * d))) + d * ((d * L.1 - c * L.2) * s + (g.anchor.2 * ↑iheight
      + g.compression * s * (sgn * c))) - (c * g.anchor.1 * ↑iwidth + d * g.anchor.2
      * ↑iheight)) * (1 / s) = L.1 := by
    field_simp
    linear_combination (L.1 * s) * hpyth
  have hy0 : (d * ((c * L.1 + d * L.2) * s + (g.anchor.1 * ↑iwidth + g.compression * s
      * (-sgn * d))) - c * ((d * L.1 - c * L.2) * s + (g.anchor.2 * ↑iheight
      + g.compression * s * (sgn * c))) - (d * g.anchor.1 * ↑iwidth - c * g.anchor.2
      * ↑iheight)) * (1 / s) = L.2 - sgn * g.compression := by
    field_simp
    linear_combination ((L.2 - sgn * g.compression) * s) * hpyth
  rw [hx0, hy0, hy]
  ring

theorem mem_line_part (r : PointsOut) (P : ℚ × ℚ) (h : some P ∈ line_part r) :
    ∃ q, r.points = some q ∧ P ∈ q.drop 3 := by
  unfold line_part at h
  rw [List.mem_map] at h
  obtain ⟨P', hP', he⟩ := h
  cases Option.some.inj he
  cases hq : r.points with
  | none => rw [hq] at hP'; simp at hP'
  | some q =>
    refine ⟨q, rfl, ?_⟩
    rw [hq, Option.getD_some, List.drop_take] at hP'
    exact List.mem_of_mem_take hP'

theorem mem_points_line (E : Env) (iwidth iheight : ℤ) (x y rotation curvature : ℚ)
    (q : List (ℚ × ℚ)) (P : ℚ × ℚ)
    (hid : ∀ pts, E.dt_dev_distort_transform pts = some pts)
    (hq : (_gradient_get_points E iwidth iheight x y rotation curvature).points = some q)
    (hP : P ∈ q.drop 3) :
    ∃ i : ℤ, P = line_point E iwidth iheight x y rotation curvature
      (toInt (E.sqrtf ((iwidth : ℚ) * iwidth + (iheight : ℚ) * iheight) + 3)) i := by
  have hraw : q = gradient_points_raw E iwidth iheight x y rotation curvature := by
    unfold _gradient_get_points at hq
    simp only [hid] at hq
    split_ifs at hq
    exact (Option.some.inj hq).symm
  rw [hraw] at hP
  have hloop : (gradient_points_raw E iwidth iheight x y rotation curvature).drop 3
      = line_loop (line_point E iwidth iheight x y rotation curvature
            (toInt (E.sqrtf ((iwidth : ℚ) * iwidth + (iheight : ℚ) * iheight) + 3)))
          iwidth iheight
          (line_indices (toInt (E.sqrtf ((iwidth : ℚ) * iwidth + (iheight : ℚ) * iheight) + 3)))
          false := rfl
  rw [hloop] at hP
  obtain ⟨i, -, hPi, -⟩ := mem_line_loop _ _ _ _ _ _ hP
  exact ⟨i, hPi⟩

/-- C26: the borders are iso-lines of the scalar field. With an identity forward
transform, a non-empty image, a positive square root of `wd² + ht²`, and sine and cosine
that take at the pivot angles the values of exact trigonometry
(`cos (v ± π/2) = ∓ sin v`, `sin (v ± π/2) = ± cos v`, `cos² v + sin² v = 1`): every
vertex of the first line of the border (the copy of the points of index 3 and above of
the first call of `_gradient_get_points`) has the signed distance `-compression`, every
vertex of the second line has the signed distance `+compression`, and the border that
`_gradient_get_pts_border` returns for the gradient is made of these two lines. -/
theorem border_iso (E : Env) (iwidth iheight : ℤ) (g : dt_masks_point_gradient_t)
    (hid : ∀ pts, E.dt_dev_distort_transform pts = some pts)
    (hc1 : E.cosf ((-(g.rotation - 90) / 180) * E.M_PI)
      = -E.sinf ((-g.rotation / 180) * E.M_PI))
    (hs1 : E.sinf ((-(g.rotation - 90) / 180) * E.M_PI)
      = E.cosf ((-g.rotation / 180) * E.M_PI))
    (hc2 : E.cosf ((-(g.rotation + 90) / 180) * E.M_PI)
      = E.sinf ((-g.rotation / 180) * E.M_PI))
    (hs2 : E.sinf ((-(g.rotation + 90) / 180) * E.M_PI)
      = -E.cosf ((-g.rotation / 180) * E.M_PI))
    (hpyth : E.cosf ((-g.rotation / 180) * E.M_PI) ^ 2
      + E.sinf ((-g.rotation / 180) * E.M_PI) ^ 2 = 1)
    (hscale : 0 < E.sqrtf ((iwidth : ℚ) * iwidth + (iheight : ℚ) * iheight))
    (hw : iwidth ≠ 0) (hh : iheight ≠ 0) :
    (∀ P, some P ∈ line_part (border_side1 E iwidth iheight g.anchor.1 g.anchor.2
          g.rotation g.compression g.curvature) →
        node_distance (field_consts E iwidth iheight g) P = -g.compression)
    ∧ (∀ P, some P ∈ line_part (border_side2 E iwidth iheight g.anchor.1 g.anchor.2
          g.rotation g.compression g.curvature) →
        node_distance (field_consts E iwidth iheight g) P = g.compression)
    ∧ (∀ b, (_gradient_get_pts_border E iwidth iheight g.anchor.1 g.anchor.2 g.rotation
          g.compression g.curvature).points = some b →
        b = line_part (border_side1 E iwidth iheight g.anchor.1 g.anchor.2
              g.rotation g.compression g.curvature) ++ [none]
            ++ line_part (border_side2 E iwidth iheight g.anchor.1 g.anchor.2
              g.rotation g.compression g.curvature)
        ∨ b = line_part (border_side1 E iwidth iheight g.anchor.1 g.anchor.2
              g.rotation g.compression g.curvature)
        ∨ b = line_part (border_side2 E iwidth iheight g.anchor.1 g.anchor.2
              g.rotation g.compression g.curvature))
    ∧ (∀ b P, (_gradient_get_pts_border E iwidth iheight g.anchor.1 g.anchor.2 g.rotation
          g.compression g.curvature).points = some b → some P ∈ b →
        node_distance (field_consts E iwidth iheight g) P = -g.compression
        ∨ node_distance (field_consts E iwidth iheight g) P = g.compression) := by
  have h1 : ∀ P, some P ∈ line_part (border_side1 E iwidth iheight g.anchor.1 g.anchor.2
      g.rotation g.compression g.curvature) →
      node_distance (field_consts E iwidth iheight g) P = -g.compression := by
    intro P hP
    obtain ⟨q, hq, hPq⟩ := mem_line_part _ _ hP
    obtain ⟨i, rfl⟩ := mem_points_line E iwidth iheight _ _ _ _ q P hid hq hPq
    have := node_distance_shifted E iwidth iheight g
      (toInt (E.sqrtf ((iwidth : ℚ) * iwidth + (iheight : ℚ) * iheight) + 3)) i
      (E.cosf ((-(g.rotation - 90) / 180) * E.M_PI))
      (E.sinf ((-(g.rotation - 90) / 180) * E.M_PI)) 1
      (by rw [hc1]; ring) (by rw [hs1]; ring) hpyth hscale hw hh
    rw [this]
    ring
  have h2 : ∀ P, some P ∈ line_part (border_side2 E iwidth iheight g.anchor.1 g.anchor.2
      g.rotation g.compression g.curvature) →
      node_distance (field_consts E iwidth iheight g) P = g.compression := by
    intro P hP
    obtain ⟨q, hq, hPq⟩ := mem_line_part _ _ hP
    obtain ⟨i, rfl⟩ := mem_points_line E iwidth iheight _ _ _ _ q P hid hq hPq
    have := node_distance_shifted E iwidth iheight g
      (toInt (E.sqrtf ((iwidth : ℚ) * iwidth + (iheight : ℚ) * iheight) + 3)) i
      (E.cosf ((-(g.rotation + 90) / 180) * E.M_PI))
      (E.sinf ((-(g.rotation + 90) / 180) * E.M_PI)) (-1)
      (by rw [hc2]; ring) (by rw [hs2]; ring) hpyth hscale hw hh
    rw [this]
    ring
  have h3 : ∀ b, (_gradient_get_pts_border E iwidth iheight g.anchor.1 g.anchor.2 g.rotation
      g.compression g.curvature).points = some b →
      b = line_part (border_side1 E iwidth iheight g.anchor.1 g.anchor.2
            g.rotation g.compression g.curvature) ++ [none]
          ++ line_part (border_side2 E iwidth iheight g.anchor.1 g.anchor.2
            g.rotation g.compression g.curvature)
      ∨ b = line_part (border_side1 E iwidth iheight g.anchor.1 g.anchor.2
            g.rotation g.compression g.curvature)
      ∨ b = line_part (border_side2 E iwidth iheight g.anchor.1 g.anchor.2
            g.rotation g.compression g.curvature) := by
    intro b hb
    unfold _gradient_get_pts_border at hb
    simp only at hb
    split_ifs at hb
    · exact Or.inl (Option.some.inj hb).symm
    · exact Or.inr (Or.inl (Option.some.inj hb).symm)
    · exact Or.inr (Or.inr (Option.some.inj hb).symm)
  refine ⟨h1, h2, h3, ?_⟩
  intro b P hb hP
  rcases h3 b hb with rfl | rfl | rfl
  · rw [List.mem_append, List.mem_append] at hP
    rcases hP with (hP | hP) | hP
    · exact Or.inl (h1 P hP)
    · simp at hP
    · exact Or.inr (h2 P hP)
  · exact Or.inl (h1 P hP)
  · exact Or.inr (h2 P hP)

/-- C26 with sine and cosine exact at the quarter turns, a 4 x 3 image and the curved
sample gradient: the border has both lines, `(-1, 37/20)` is a vertex of the first and
`(-1, -13/20)` a vertex of the second. -/
theorem border_iso_witness :
    (∀ pts, quarterEnv.dt_dev_distort_transform pts = some pts)
    ∧ quarterEnv.cosf ((-(sample_curved.rotation - 90) / 180) * quarterEnv.M_PI)
      = -quarterEnv.sinf ((-sample_curved.rotation / 180) * quarterEnv.M_PI)
    ∧ quarterEnv.sinf ((-(sample_curved.rotation - 90) / 180) * quarterEnv.M_PI)
      = quarterEnv.cosf ((-sample_curved.rotation / 180) * quarterEnv.M_PI)
    ∧ quarterEnv.cosf ((-(sample_curved.rotation + 90) / 180) * quarterEnv.M_PI)
      = quarterEnv.sinf ((-sample_curved.rotation / 180) * quarterEnv.M_PI)
    ∧ quarterEnv.sinf ((-(sample_curved.rotation + 90) / 180) * quarterEnv.M_PI)
      = -quarterEnv.cosf ((-sample_curved.rotation / 180) * quarterEnv.M_PI)
    ∧ quarterEnv.cosf ((-sample_curved.rotation / 180) * quarterEnv.M_PI) ^ 2
      + quarterEnv.sinf ((-sample_curved.rotation / 180) * quarterEnv.M_PI) ^ 2 = 1
    ∧ 0 < quarterEnv.sqrtf ((4 : ℚ) * 4 + (3 : ℚ) * 3)
    ∧ (_gradient_get_pts_border quarterEnv 4 3 sample_curved.anchor.1 sample_curved.anchor.2
        sample_curved.rotation sample_curved.compression sample_curved.curvature).ret = 1
    ∧ some ((-1, 37 / 20) : ℚ × ℚ) ∈ line_part (border_side1 quarterEnv 4 3
        sample_curved.anchor.1 sample_curved.anchor.2 sample_curved.rotation
        sample_curved.compression sample_curved.curvature)
    ∧ some ((-1, -13 / 20) : ℚ × ℚ) ∈ line_part (border_side2 quarterEnv 4 3
        sample_curved.anchor.1 sample_curved.anchor.2 sample_curved.rotation
        sample_curved.compression sample_curved.curvature)
    ∧ ((∀ P, some P ∈ line_part (border_side1 quarterEnv 4 3 sample_curved.anchor.1
        sample_curved.anchor.2
          sample_curved.rotation sample_curved.compression sample_curved.curvature) →
        node_distance (field_consts quarterEnv 4 3 sample_curved) P = -sample_curved.compression)
    ∧ (∀ P, some P ∈ line_part (border_side2 quarterEnv 4 3 sample_curved.anchor.1
        sample_curved.anchor.2
          sample_curved.rotation sample_curved.compression sample_curved.curvature) →
        node_distance (field_consts quarterEnv 4 3 sample_curved) P = sample_curved.compression)
    ∧ (∀ b, (_gradient_get_pts_border quarterEnv 4 3 sample_curved.anchor.1 sample_curved.anchor.2
        sample_curved.rotation
          sample_curved.compression sample_curved.curvature).points = some b →
        b = line_part (border_side1 quarterEnv 4 3 sample_curved.anchor.1 sample_curved.anchor.2
              sample_curved.rotation sample_curved.compression sample_curved.curvature) ++ [none]
            ++ line_part (border_side2 quarterEnv 4 3 sample_curved.anchor.1 sample_curved.anchor.2
              sample_curved.rotation sample_curved.compression sample_curved.curvature)
        ∨ b = line_part (border_side1 quarterEnv 4 3 sample_curved.anchor.1 sample_curved.anchor.2
              sample_curved.rotation sample_curved.compression sample_curved.curvature)
        ∨ b = line_part (border_side2 quarterEnv 4 3 sample_curved.anchor.1 sample_curved.anchor.2
              sample_curved.rotation sample_curved.compression sample_curved.curvature))
    ∧ (∀ b P, (_gradient_get_pts_border quarterEnv 4 3 sample_curved.anchor.1
        sample_curved.anchor.2 sample_curved.rotation
          sample_curved.compression sample_curved.curvature).points = some b → some P ∈ b →
        node_distance (field_consts quarterEnv 4 3 sample_curved) P = -sample_curved.compression
        ∨ node_distance (field_consts quarterEnv 4 3 sample_curved) P = sample_curved.compression))
            :=
  ⟨fun _ => rfl, by decide!, by decide!, by decide!, by decide!, by decide!, by decide!,
    by decide!, by decide!, by decide!,
    border_iso quarterEnv 4 3 sample_curved (fun _ => rfl) (by decide!) (by decide!)
      (by decide!) (by decide!) (by decide!) (by decide!) (by decide) (by decide)⟩

theorem toInt_of_nonneg (q : ℚ) (h : 0 ≤ q) : toInt q = ⌊q⌋ := by
  unfold toInt
  rw [if_pos h]

theorem lut_entry_range (E : Env) (c : FieldConsts) (n : ℤ) :
    0 ≤ lut_entry E c n ∧ lut_entry E c n ≤ 1 := by
  unfold lut_entry
  simp only
  split_ifs <;> constructor <;> linarith

theorem lookup_floor (lut : ℤ → ℚ) (i : ℚ) (hi : 0 ≤ i) :
    dt_gradient_lookup lut i
      = lut ⌊i⌋ * (1 - (i - (⌊i⌋ : ℚ))) + lut (⌊i⌋ + 1) * (i - (⌊i⌋ : ℚ)) := by
  unfold dt_gradient_lookup
  simp only
  rw [toInt_of_nonneg i hi, toInt_of_nonneg (i + 1) (by linarith), Int.floor_add_one]
  ring

theorem lookup_table_range (E : Env) (c : FieldConsts) (i : ℚ)
    (hsize : c.lutsize = 2 * c.lutmax + 2) (hi : 0 ≤ i) (hL : i ≤ (c.lutmax : ℚ)) :
    dt_gradient_lookup (clut (gradient_lut E c) c.lutmax) i
        = lut_entry E c (c.lutmax + ⌊i⌋) * (1 - (i - (⌊i⌋ : ℚ)))
          + lut_entry E c (c.lutmax + (⌊i⌋ + 1)) * (i - (⌊i⌋ : ℚ))
    ∧ 0 ≤ dt_gradient_lookup (clut (gradient_lut E c) c.lutmax) i
    ∧ dt_gradient_lookup (clut (gradient_lut E c) c.lutmax) i ≤ 1 := by
  have hf0 : 0 ≤ ⌊i⌋ := Int.floor_nonneg.mpr hi
  have hf1 : ⌊i⌋ ≤ c.lutmax := by
    have : ⌊i⌋ ≤ ⌊(c.lutmax : ℚ)⌋ := Int.floor_mono hL
    rwa [Int.floor_intCast] at this
  have hfl := Int.floor_le i
  have hlt := Int.lt_floor_add_one i
  have e : dt_gradient_lookup (clut (gradient_lut E c) c.lutmax) i
      = lut_entry E c (c.lutmax + ⌊i⌋) * (1 - (i - (⌊i⌋ : ℚ)))
        + lut_entry E c (c.lutmax + (⌊i⌋ + 1)) * (i - (⌊i⌋ : ℚ)) := by
    rw [lookup_floor _ _ hi, clut_entry E c ⌊i⌋ (by omega) (by omega),
      clut_entry E c (⌊i⌋ + 1) (by omega) (by omega)]
  have r0 := lut_entry_range E c (c.lutmax + ⌊i⌋)
  have r1 := lut_entry_range E c (c.lutmax + (⌊i⌋ + 1))
  refine ⟨e, ?_, ?_⟩
  · rw [e]
    have a1 : 0 ≤ lut_entry E c (c.lutmax + ⌊i⌋) * (1 - (i - (⌊i⌋ : ℚ))) :=
      mul_nonneg r0.1 (by linarith)
    have a2 : 0 ≤ lut_entry E c (c.lutmax + (⌊i⌋ + 1)) * (i - (⌊i⌋ : ℚ)) :=
      mul_nonneg r1.1 (by linarith)
    linarith
  · rw [e]
    have a1 : lut_entry E c (c.lutmax + ⌊i⌋) * (1 - (i - (⌊i⌋ : ℚ)))
        ≤ 1 * (1 - (i - (⌊i⌋ : ℚ))) :=
      mul_le_mul_of_nonneg_right r0.2 (by linarith)
    have a2 : lut_entry E c (c.lutmax + (⌊i⌋ + 1)) * (i - (⌊i⌋ : ℚ))
        ≤ 1 * (i - (⌊i⌋ : ℚ)) :=
      mul_le_mul_of_nonneg_right r1.2 (by linarith)
    linarith

/-- C27: lookup on the non-negative half. For every table and every index `i ≥ 0`,
`dt_gradient_lookup` returns `lut[⌊i⌋] * (1 - f) + lut[⌊i⌋ + 1] * f` with
`f = i - ⌊i⌋` in `[0, 1)`. With a non-negative square root of `wd² + ht²`, for the table
of the rasterizers and `i ≤ lutmax` the two entries read are entries of the table and
the result lies in `[0, 1]`; so a grid node of signed distance `distance ≥ 0` receives a
value in `[0, 1]`, whatever the falloff state. -/
theorem lookup_nonneg_half (E : Env) (iwidth iheight : ℤ) (g : dt_masks_point_gradient_t)
    (lut : ℤ → ℚ) (i distance : ℚ)
    (hs : 0 ≤ E.sqrtf ((iwidth : ℚ) * iwidth + (iheight : ℚ) * iheight))
    (hi : 0 ≤ i) (hd : 0 ≤ distance) :
    dt_gradient_lookup lut i
        = lut ⌊i⌋ * (1 - (i - (⌊i⌋ : ℚ))) + lut (⌊i⌋ + 1) * (i - (⌊i⌋ : ℚ))
    ∧ 0 ≤ i - (⌊i⌋ : ℚ) ∧ i - (⌊i⌋ : ℚ) < 1
    ∧ (i ≤ ((field_consts E iwidth iheight g).lutmax : ℚ) →
        dt_gradient_lookup (clut (gradient_lut E (field_consts E iwidth iheight g))
            (field_consts E iwidth iheight g).lutmax) i
          = lut_entry E (field_consts E iwidth iheight g)
              ((field_consts E iwidth iheight g).lutmax + ⌊i⌋) * (1 - (i - (⌊i⌋ : ℚ)))
            + lut_entry E (field_consts E iwidth iheight g)
              ((field_consts E iwidth iheight g).lutmax + (⌊i⌋ + 1)) * (i - (⌊i⌋ : ℚ))
        ∧ 0 ≤ (field_consts E iwidth iheight g).lutmax + ⌊i⌋
        ∧ (field_consts E iwidth iheight g).lutmax + (⌊i⌋ + 1)
            < (field_consts E iwidth iheight g).lutsize
        ∧ 0 ≤ dt_gradient_lookup (clut (gradient_lut E (field_consts E iwidth iheight g))
            (field_consts E iwidth iheight g).lutmax) i
        ∧ dt_gradient_lookup (clut (gradient_lut E (field_consts E iwidth iheight g))
            (field_consts E iwidth iheight g).lutmax) i ≤ 1)
    ∧ 0 ≤ field_value E iwidth iheight g distance
    ∧ field_value E iwidth iheight g distance ≤ 1 := by
  have hsize : (field_consts E iwidth iheight g).lutsize
      = 2 * (field_consts E iwidth iheight g).lutmax + 2 := rfl
  have hfl := Int.floor_le i
  have hlt := Int.lt_floor_add_one i
  refine ⟨lookup_floor lut i hi, by linarith, by linarith, ?_, ?_⟩
  · intro hL
    have h := lookup_table_range E (field_consts E iwidth iheight g) i hsize hi hL
    have hf0 : 0 ≤ ⌊i⌋ := Int.floor_nonneg.mpr hi
    have hf1 : ⌊i⌋ ≤ (field_consts E iwidth iheight g).lutmax := by
      have : ⌊i⌋ ≤ ⌊((field_consts E iwidth iheight g).lutmax : ℚ)⌋ := Int.floor_mono hL
      rwa [Int.floor_intCast] at this
    exact ⟨h.1, by omega, by omega, h.2.1, h.2.2⟩
  · unfold field_value node_value
    simp only
    split_ifs with h1 h2
    · norm_num
    · norm_num
    · have hihw := ihwscale_eq E iwidth iheight g
      have hLe := lutmax_eq E iwidth iheight g
      have hcp := compression_pos E iwidth iheight g
      have hi0 : 0 ≤ distance * (field_consts E iwidth iheight g).ihwscale := by
        rw [hihw]
        exact mul_nonneg hd hs
      have hiL : distance * (field_consts E iwidth iheight g).ihwscale
          ≤ ((field_consts E iwidth iheight g).lutmax : ℚ) := by
        have h3 : distance * (field_consts E iwidth iheight g).ihwscale
            ≤ 4 * (field_consts E iwidth iheight g).compression
              * (field_consts E iwidth iheight g).ihwscale := by
          rw [hihw]
          exact mul_le_mul_of_nonneg_right (not_le.mp h2).le hs
        have h4 : 4 * (field_consts E iwidth iheight g).compression
              * (field_consts E iwidth iheight g).ihwscale
            ≤ ((field_consts E iwidth iheight g).lutmax : ℚ) := by
          rw [hLe]
          exact Int.le_ceil _
        linarith
      have h := lookup_table_range E (field_consts E iwidth iheight g) _ hsize hi0 hiL
      exact ⟨h.2.1, h.2.2⟩

/-- C27 at the reference environment, a 40 x 30 image, the sigmoidal sample gradient, the
table `k ↦ k²`, the index 5/2 and the distance 1/100. -/
theorem lookup_nonneg_half_witness :
    0 ≤ refEnv.sqrtf ((40 : ℚ) * 40 + (30 : ℚ) * 30)
    ∧ (0 : ℚ) ≤ 5 / 2 ∧ (0 : ℚ) ≤ 1 / 100
    ∧ (5 / 2 : ℚ) ≤ ((field_consts refEnv 40 30 sample_sigmoidal).lutmax : ℚ)
    ∧ (dt_gradient_lookup (fun (k : ℤ) => (k : ℚ) ^ 2) (5 / 2 : ℚ)
        = (fun (k : ℤ) => (k : ℚ) ^ 2) ⌊(5 / 2 : ℚ)⌋
            * (1 - ((5 / 2 : ℚ) - (⌊(5 / 2 : ℚ)⌋ : ℚ)))
          + (fun (k : ℤ) => (k : ℚ) ^ 2) (⌊(5 / 2 : ℚ)⌋ + 1)
            * ((5 / 2 : ℚ) - (⌊(5 / 2 : ℚ)⌋ : ℚ))
    ∧ 0 ≤ (5 / 2 : ℚ) - (⌊(5 / 2 : ℚ)⌋ : ℚ) ∧ (5 / 2 : ℚ) - (⌊(5 / 2 : ℚ)⌋ : ℚ) < 1
    ∧ ((5 / 2 : ℚ) ≤ ((field_consts refEnv 40 30 sample_sigmoidal).lutmax : ℚ) →
        dt_gradient_lookup
            (clut (gradient_lut refEnv (field_consts refEnv 40 30 sample_sigmoidal))
              (field_consts refEnv 40 30 sample_sigmoidal).lutmax) (5 / 2 : ℚ)
          = lut_entry refEnv (field_consts refEnv 40 30 sample_sigmoidal)
              ((field_consts refEnv 40 30 sample_sigmoidal).lutmax + ⌊(5 / 2 : ℚ)⌋)
              * (1 - ((5 / 2 : ℚ) - (⌊(5 / 2 : ℚ)⌋ : ℚ)))
            + lut_entry refEnv (field_consts refEnv 40 30 sample_sigmoidal)
              ((field_consts refEnv 40 30 sample_sigmoidal).lutmax + (⌊(5 / 2 : ℚ)⌋ + 1))
              * ((5 / 2 : ℚ) - (⌊(5 / 2 : ℚ)⌋ : ℚ))
        ∧ 0 ≤ (field_consts refEnv 40 30 sample_sigmoidal).lutmax + ⌊(5 / 2 : ℚ)⌋
        ∧ (field_consts refEnv 40 30 sample_sigmoidal).lutmax + (⌊(5 / 2 : ℚ)⌋ + 1)
            < (field_consts refEnv 40 30 sample_sigmoidal).lutsize
        ∧ 0 ≤ dt_gradient_lookup
            (clut (gradient_lut refEnv (field_consts refEnv 40 30 sample_sigmoidal))
              (field_consts refEnv 40 30 sample_sigmoidal).lutmax) (5 / 2 : ℚ)
        ∧ dt_gradient_lookup
            (clut (gradient_lut refEnv (field_consts refEnv 40 30 sample_sigmoidal))
              (field_consts refEnv 40 30 sample_sigmoidal).lutmax) (5 / 2 : ℚ) ≤ 1)
    ∧ 0 ≤ field_value refEnv 40 30 sample_sigmoidal (1 / 100)
    ∧ field_value refEnv 40 30 sample_sigmoidal (1 / 100) ≤ 1) :=
  ⟨by decide!, by decide!, by decide!, by decide!,
    lookup_nonneg_half refEnv 40 30 sample_sigmoidal (fun (k : ℤ) => (k : ℚ) ^ 2) (5 / 2)
      (1 / 100) (by decide!) (by decide!) (by decide!)⟩

theorem clamp_sum (v : ℚ) :
    (if v < 0 then 0 else if v > 1 then 1 else v)
      + (if 1 - v < 0 then 0 else if 1 - v > 1 then 1 else 1 - v) = (1 : ℚ) := by
  split_ifs <;> linarith

theorem lut_entry_sum (E : Env) (c : FieldConsts) (k : ℤ)
    (hodd : c.state ≠ DT_MASKS_GRADIENT_STATE_LINEAR → ∀ x, E.erff (-x) = -E.erff x) :
    lut_entry E c (c.lutmax + k) + lut_entry E c (c.lutmax - k) = 1 := by
  unfold lut_entry
  simp only
  have e1 : (((c.lutmax + k - c.lutmax : ℤ)) : ℚ) = (k : ℚ) := by push_cast; ring
  have e2 : (((c.lutmax - k - c.lutmax : ℤ)) : ℚ) = -(k : ℚ) := by push_cast; ring
  rw [e1, e2]
  by_cases h : c.state = DT_MASKS_GRADIENT_STATE_LINEAR
  · simp only [if_pos h]
    have e3 : 1 / 2 + 1 / 2 * (c.normf * (-(k : ℚ) * c.hwscale))
        = 1 - (1 / 2 + 1 / 2 * (c.normf * ((k : ℚ) * c.hwscale))) := by ring
    rw [e3]
    exact clamp_sum _
  · simp only [if_neg h]
    have e3 : 1 / 2 + 1 / 2 * E.erff (-(k : ℚ) * c.hwscale / c.compression)
        = 1 - (1 / 2 + 1 / 2 * E.erff ((k : ℚ) * c.hwscale / c.compression)) := by
      have : -(k : ℚ) * c.hwscale / c.compression = -((k : ℚ) * c.hwscale / c.compression) := by
        ring
      rw [this, hodd h]
      ring
    rw [e3]
    exact clamp_sum _

theorem ref_erff_odd (x : ℚ) : ref_erff (-x) = -ref_erff x := by
  rw [ref_erff_eq, ref_erff_eq]
  rcases lt_trichotomy x 0 with h | h | h
  · rw [if_neg (by linarith), if_pos h]
    ring
  · subst h
    norm_num [ref_erff_den]
  · rw [if_pos (by linarith), if_neg (by linarith), neg_neg]

/-- C28: symmetry of the lookup table. In the linear state, and in the sigmoidal state
with an odd `erff`, the table that both rasterizers build is point-symmetric about its
centre: for `0 ≤ k ≤ lutmax` the entries of index `lutmax + k` and `lutmax - k` both
exist and add up to 1. -/
theorem lut_symmetry (E : Env) (iwidth iheight : ℤ) (g : dt_masks_point_gradient_t) (k : ℤ)
    (hodd : g.state ≠ DT_MASKS_GRADIENT_STATE_LINEAR → ∀ x, E.erff (-x) = -E.erff x)
    (hk0 : 0 ≤ k) (hk : k ≤ (field_consts E iwidth iheight g).lutmax) :
    ∃ a b : ℚ,
      (gradient_lut E (field_consts E iwidth iheight g))[
          ((field_consts E iwidth iheight g).lutmax + k).toNat]? = some a
      ∧ (gradient_lut E (field_consts E iwidth iheight g))[
          ((field_consts E iwidth iheight g).lutmax - k).toNat]? = some b
      ∧ a = lut_entry E (field_consts E iwidth iheight g)
          ((field_consts E iwidth iheight g).lutmax + k)
      ∧ b = lut_entry E (field_consts E iwidth iheight g)
          ((field_consts E iwidth iheight g).lutmax - k)
      ∧ a + b = 1
      ∧ clut (gradient_lut E (field_consts E iwidth iheight g))
            (field_consts E iwidth iheight g).lutmax k
          + clut (gradient_lut E (field_consts E iwidth iheight g))
            (field_consts E iwidth iheight g).lutmax (-k) = 1 := by
  have hsize : (field_consts E iwidth iheight g).lutsize
      = 2 * (field_consts E iwidth iheight g).lutmax + 2 := rfl
  have hst : (field_consts E iwidth iheight g).state = g.state := rfl
  have hsum := lut_entry_sum E (field_consts E iwidth iheight g) k (by rw [hst]; exact hodd)
  have ha := lut_getElem E (field_consts E iwidth iheight g)
    ((field_consts E iwidth iheight g).lutmax + k).toNat (by omega)
  have hb := lut_getElem E (field_consts E iwidth iheight g)
    ((field_consts E iwidth iheight g).lutmax - k).toNat (by omega)
  rw [Int.toNat_of_nonneg (by omega)] at ha hb
  refine ⟨_, _, ha, hb, rfl, rfl, hsum, ?_⟩
  rw [clut_entry E _ k (by omega) (by omega), clut_entry E _ (-k) (by omega) (by omega)]
  exact hsum

/-- C28 at the reference environment, whose `erff` is odd, for the sigmoidal sample
gradient on a 40 x 30 image and `k = 3`. -/
theorem lut_symmetry_witness :
    (∀ x, refEnv.erff (-x) = -refEnv.erff x)
    ∧ (3 : ℤ) ≤ (field_consts refEnv 40 30 sample_sigmoidal).lutmax
    ∧ (∃ a b : ℚ,
      (gradient_lut refEnv (field_consts refEnv 40 30 sample_sigmoidal))[
          ((field_consts refEnv 40 30 sample_sigmoidal).lutmax + 3).toNat]? = some a
      ∧ (gradient_lut refEnv (field_consts refEnv 40 30 sample_sigmoidal))[
          ((field_consts refEnv 40 30 sample_sigmoidal).lutmax - 3).toNat]? = some b
      ∧ a = lut_entry refEnv (field_consts refEnv 40 30 sample_sigmoidal)
          ((field_consts refEnv 40 30 sample_sigmoidal).lutmax + 3)
      ∧ b = lut_entry refEnv (field_consts refEnv 40 30 sample_sigmoidal)
          ((field_consts refEnv 40 30 sample_sigmoidal).lutmax - 3)
      ∧ a + b = 1
      ∧ clut (gradient_lut refEnv (field_consts refEnv 40 30 sample_sigmoidal))
            (field_consts refEnv 40 30 sample_sigmoidal).lutmax 3
          + clut (gradient_lut refEnv (field_consts refEnv 40 30 sample_sigmoidal))
            (field_consts refEnv 40 30 sample_sigmoidal).lutmax (-3) = 1) :=
  ⟨ref_erff_odd, by decide!,
    lut_symmetry refEnv 40 30 sample_sigmoidal 3 (fun _ => ref_erff_odd) (by decide)
      (by decide!)⟩

end Gradient

namespace Modulegroups

/-! ## Properties of the module-group presets -/

theorem splitOn_single (x : Char) (a : List Char) (h : x ∉ a) : a.splitOn x = [a] := by
  unfold List.splitOn
  apply List.splitOnP_eq_single
  intro c hc
  simp only [beq_iff_eq]
  rintro rfl
  exact h hc

theorem splitOn_first (x : Char) (a rest : List Char) (h : x ∉ a) :
    (a ++ x :: rest).splitOn x = a :: rest.splitOn x := by
  unfold List.splitOn
  apply List.splitOnP_first
  · intro c hc
    simp only [beq_iff_eq]
    rintro rfl
    exact h hc
  · simp

theorem splitOn_pieces (x : Char) (ps : List (List Char)) (hps : ∀ p ∈ ps, x ∉ p) :
    ∀ a : List Char, x ∉ a → (a ++ ps.flatMap (fun p => x :: p)).splitOn x = a :: ps := by
  induction ps with
  | nil =>
    intro a ha
    simp only [List.flatMap_nil, List.append_nil]
    exact splitOn_single x a ha
  | cons p ps ih =>
    intro a ha
    simp only [List.flatMap_cons, List.cons_append]
    rw [splitOn_first x a _ ha,
      ih (fun q hq => hps q (List.mem_cons_of_mem _ hq)) p (hps p (List.mem_cons_self _ _))]

theorem foldl_append_flatMap {α : Type} (f : α → List Char) (l : List α) :
    ∀ res : List Char, l.foldl (fun res a => res ++ f a) res = res ++ l.flatMap f := by
  induction l with
  | nil => intro res; simp
  | cons a l ih => intro res; simp [ih, List.append_assoc]

theorem preset_to_string_eq (d : dt_lib_modulegroups_t) (edition : Bool) :
    _preset_to_string d edition
      = [if sel_show_search d edition then '1' else '0']
        ++ ([basics_text (sel_basics_show d edition) (sel_basics d edition)]
            ++ (sel_groups d edition).map group_text).flatMap (fun p => 'ꬹ' :: p) := by
  unfold _preset_to_string
  simp only
  rw [foldl_append_flatMap (fun (item : dt_lib_modulegroups_basic_item_t) => '|' :: item.id)]
  have hg : ∀ (gs : List dt_lib_modulegroups_group_t) (res : List Char),
      gs.foldl (fun res g => g.modules.foldl (fun res m => res ++ '|' :: m)
          (res ++ 'ꬹ' :: g.name ++ '|' :: g.icon ++ ['|'])) res
        = res ++ (gs.map group_text).flatMap (fun p => 'ꬹ' :: p) := by
    intro gs
    induction gs with
    | nil => intro res; simp
    | cons g gs ih =>
      intro res
      rw [List.foldl_cons, ih, foldl_append_flatMap (fun (m : List Char) => '|' :: m)]
      simp [group_text, List.append_assoc]
  rw [hg]
  simp [basics_text, List.append_assoc]

theorem digit_ne_bar (b : Bool) : '|' ∉ [if b then '1' else '0'] := by
  cases b <;> decide

theorem digit_ne_sep (b : Bool) : 'ꬹ' ∉ [if b then '1' else '0'] := by
  cases b <;> decide

theorem basics_text_eq (basics_show : Bool) (basics : List dt_lib_modulegroups_basic_item_t) :
    basics_text basics_show basics
      = [if basics_show then '1' else '0']
        ++ ([[], []]
            ++ basics.map (fun (item : dt_lib_modulegroups_basic_item_t) => item.id)).flatMap
          (fun p => '|' :: p) := by
  have h : ∀ l : List dt_lib_modulegroups_basic_item_t,
      (l.map (fun (item : dt_lib_modulegroups_basic_item_t) => item.id)).flatMap
          (fun p => '|' :: p)
        = l.flatMap (fun item => '|' :: item.id) := by
    intro l
    induction l with
    | nil => rfl
    | cons a l ih => simp [ih]
  simp [basics_text, h]

theorem group_text_eq (g : dt_lib_modulegroups_group_t) :
    group_text g = g.name ++ ([g.icon, []] ++ g.modules).flatMap (fun p => '|' :: p) := by
  simp [group_text]

theorem split_basics_text (basics_show : Bool)
    (basics : List dt_lib_modulegroups_basic_item_t)
    (hb : ∀ item ∈ basics, '|' ∉ item.id) :
    g_strsplit (basics_text basics_show basics) '|'
      = [if basics_show then '1' else '0'] :: [] :: []
        :: basics.map (fun (item : dt_lib_modulegroups_basic_item_t) => item.id) := by
  have hne : basics_text basics_show basics ≠ [] := by simp [basics_text]
  unfold g_strsplit
  rw [if_neg hne, basics_text_eq, splitOn_pieces _ _ _ _ (digit_ne_bar basics_show)]
  · rfl
  · intro p hp
    simp only [List.cons_append, List.nil_append, List.mem_cons, List.mem_map] at hp
    rcases hp with rfl | rfl | ⟨item, hi, rfl⟩
    · simp
    · simp
    · exact hb item hi

theorem split_group_text (g : dt_lib_modulegroups_group_t)
    (hn : '|' ∉ g.name) (hi : '|' ∉ g.icon) (hm : ∀ m ∈ g.modules, '|' ∉ m) :
    g_strsplit (group_text g) '|' = g.name :: g.icon :: [] :: g.modules := by
  have hne : group_text g ≠ [] := by simp [group_text]
  unfold g_strsplit
  rw [if_neg hne, group_text_eq, splitOn_pieces _ _ _ _ hn]
  · rfl
  · intro p hp
    simp only [List.cons_append, List.nil_append, List.mem_cons] at hp
    rcases hp with rfl | rfl | hp
    · exact hi
    · simp
    · exact hm p hp

theorem sep_not_mem_basics_text (basics_show : Bool)
    (basics : List dt_lib_modulegroups_basic_item_t)
    (hb : ∀ item ∈ basics, 'ꬹ' ∉ item.id) :
    'ꬹ' ∉ basics_text basics_show basics := by
  intro h
  unfold basics_text at h
  rcases List.mem_append.mp h with h | h
  · revert h
    cases basics_show <;> decide
  · obtain ⟨item, hi, h⟩ := List.mem_flatMap.mp h
    rcases List.mem_cons.mp h with h | h
    · exact absurd h (by decide)
    · exact hb item hi h

theorem sep_not_mem_group_text (g : dt_lib_modulegroups_group_t)
    (hn : 'ꬹ' ∉ g.name) (hi : 'ꬹ' ∉ g.icon) (hm : ∀ m ∈ g.modules, 'ꬹ' ∉ m) :
    'ꬹ' ∉ group_text g := by
  intro h
  unfold group_text at h
  simp only [List.mem_append, List.mem_cons, List.mem_flatMap] at h
  rcases h with (h | h | h) | h | ⟨m, hmm, h | h⟩
  · exact hn h
  · exact absurd h (by decide)
  · exact hi h
  · exact absurd h (by decide)
  · exact absurd h (by decide)
  · exact hm m hmm h

theorem split_preset (d : dt_lib_modulegroups_t) (edition : Bool)
    (hb : ∀ item ∈ sel_basics d edition, 'ꬹ' ∉ item.id) :
    ∃ tail, g_strsplit (_preset_to_string d edition) 'ꬹ'
        = [if sel_show_search d edition then '1' else '0']
          :: basics_text (sel_basics_show d edition) (sel_basics d edition) :: tail
      ∧ ((∀ g ∈ sel_groups d edition, 'ꬹ' ∉ group_text g) →
          tail = (sel_groups d edition).map group_text) := by
  have e : _preset_to_string d edition
      = [if sel_show_search d edition then '1' else '0']
        ++ 'ꬹ' :: (basics_text (sel_basics_show d edition) (sel_basics d edition)
          ++ ((sel_groups d edition).map group_text).flatMap (fun p => 'ꬹ' :: p)) := by
    rw [preset_to_string_eq]
    simp
  have hne : _preset_to_string d edition ≠ [] := by
    rw [e]
    simp
  have hbt := sep_not_mem_basics_text (sel_basics_show d edition) (sel_basics d edition) hb
  unfold g_strsplit
  rw [if_neg hne, e, splitOn_first _ _ _ (digit_ne_sep _)]
  cases sel_groups d edition with
  | nil =>
    refine ⟨[], ?_, fun _ => rfl⟩
    simp only [List.map_nil, List.flatMap_nil, List.append_nil]
    rw [splitOn_single _ _ hbt]
  | cons g gs =>
    refine ⟨(group_text g ++ (gs.map group_text).flatMap (fun p => 'ꬹ' :: p)).splitOn 'ꬹ',
      ?_, ?_⟩
    · simp only [List.map_cons, List.flatMap_cons, List.cons_append]
      rw [splitOn_first _ _ _ hbt]
    · intro hfree
      simp only [List.map_cons]
      apply splitOn_pieces
      · intro p hp
        obtain ⟨g', hg', rfl⟩ := List.mem_map.mp hp
        exact hfree g' (List.mem_cons_of_mem _ hg')
      · exact hfree g (List.mem_cons_self _ _)

theorem read_groups_texts (gs : List dt_lib_modulegroups_group_t)
    (hg : ∀ g ∈ gs, '|' ∉ g.name ∧ '|' ∉ g.icon ∧ ∀ m ∈ g.modules, '|' ∉ m) :
    read_groups (gs.map group_text) = gs.reverse := by
  unfold read_groups
  have h : ∀ (gs : List dt_lib_modulegroups_group_t),
      (∀ g ∈ gs, '|' ∉ g.name ∧ '|' ∉ g.icon ∧ ∀ m ∈ g.modules, '|' ∉ m) →
      ∀ acc : List dt_lib_modulegroups_group_t,
        (gs.map group_text).foldl
          (fun (res : List dt_lib_modulegroups_group_t) tx =>
            let gr2 := g_strsplit tx '|'
            if gr2.length > 2 then
              { name := gr2.getD 0 [], icon := gr2.getD 1 [], modules := gr2.drop 3 } :: res
            else res)
          acc = gs.reverse ++ acc := by
    intro gs
    induction gs with
    | nil => intro _ acc; rfl
    | cons g gs ih =>
      intro hg acc
      have hgg := hg g (List.mem_cons_self _ _)
      rw [List.map_cons, List.foldl_cons,
        ih (fun g' hg' => hg g' (List.mem_cons_of_mem _ hg'))]
      simp only [split_group_text g hgg.1 hgg.2.1 hgg.2.2]
      simp
  simpa using h gs hg []

theorem from_string_groups (d0 : dt_lib_modulegroups_t) (txt : List Char) (edition : Bool)
    (show_search : Bool) (piece : List Char) (tail : List (List Char))
    (hgr : g_strsplit txt 'ꬹ' = [if show_search then '1' else '0'] :: piece :: tail) :
    sel_show_search (_preset_from_string d0 (some txt) edition) edition = show_search
    ∧ sel_groups (_preset_from_string d0 (some txt) edition) edition
        = (read_groups tail).reverse := by
  unfold _preset_from_string
  simp only [hgr, List.length_cons, List.drop_succ_cons, List.drop_zero,
    List.getElem?_cons_zero, List.getElem?_cons_succ]
  cases edition <;> cases show_search <;>
    simp [sel_show_search, sel_groups]

theorem from_string_basics (d0 : dt_lib_modulegroups_t) (txt : List Char) (edition : Bool)
    (first : List Char) (basics_show : Bool) (basics : List dt_lib_modulegroups_basic_item_t)
    (tail : List (List Char))
    (hb : ∀ item ∈ basics, '|' ∉ item.id)
    (hgr : g_strsplit txt 'ꬹ' = first :: basics_text basics_show basics :: tail) :
    sel_basics (_preset_from_string d0 (some txt) edition) edition
        = sel_basics d0 edition ++ basics
    ∧ sel_basics_show (_preset_from_string d0 (some txt) edition) edition
        = (basics_show && !basics.isEmpty) := by
  have hmap : (basics.map (fun (item : dt_lib_modulegroups_basic_item_t) => item.id)).map
      (fun s => ({ id := s } : dt_lib_modulegroups_basic_item_t)) = basics := by
    rw [List.map_map]
    exact List.map_id _
  unfold _preset_from_string
  simp only [hgr, split_basics_text basics_show basics hb, List.length_cons, List.drop_succ_cons,
    List.drop_zero, List.getElem?_cons_zero, List.getElem?_cons_succ, hmap]
  cases edition <;> cases basics_show <;> cases basics <;>
    simp [sel_basics, sel_basics_show]

/-- C29, refuted at a concrete state: the groups of `injected_state` are free of the
separators and its show_search flag is a boolean, but its quick-access item has the id
`lensꬹa|b|`; the encoded string is `1ꬹ1|||lensꬹa|b|ꬹbase|basic||exposure`, and
decoding it gives a first group `a` with icon `b` that the state does not have. -/
theorem preset_groups_not_restored :
    (∀ g ∈ injected_state.groups,
      separator_free g.name ∧ separator_free g.icon ∧ ∀ m ∈ g.modules, separator_free m)
    ∧ _preset_to_string injected_state false
      = "1ꬹ1|||lensꬹa|b|ꬹbase|basic||exposure".toList
    ∧ (_preset_from_string empty_state (some (_preset_to_string injected_state false))
        false).groups
      = { name := ['a'], icon := ['b'], modules := [] } :: injected_state.groups
    ∧ (_preset_from_string empty_state (some (_preset_to_string injected_state false))
        false).groups ≠ injected_state.groups := by
  decide!

/-- C29, amended: round trip of the groups. For every state whose groups have names,
icons and modules free of the separators `|` and `ꬹ`, and whose quick-access item ids do
not contain `ꬹ`, decoding with `_preset_from_string`, into any state, the string that
`_preset_to_string` produces yields the same show_search flag and the same list of
groups, in the same order, with the same names, icons and modules. -/
theorem preset_round_trip_groups (d0 d : dt_lib_modulegroups_t) (edition : Bool)
    (hg : ∀ g ∈ sel_groups d edition,
      separator_free g.name ∧ separator_free g.icon ∧ ∀ m ∈ g.modules, separator_free m)
    (hb : ∀ item ∈ sel_basics d edition, 'ꬹ' ∉ item.id) :
    sel_show_search
        (_preset_from_string d0 (some (_preset_to_string d edition)) edition) edition
      = sel_show_search d edition
    ∧ sel_groups
        (_preset_from_string d0 (some (_preset_to_string d edition)) edition) edition
      = sel_groups d edition := by
  obtain ⟨tail, hgr, htail⟩ := split_preset d edition hb
  have ht := htail (fun g hgm =>
    sep_not_mem_group_text g (hg g hgm).1.2 (hg g hgm).2.1.2
      (fun m hm => ((hg g hgm).2.2 m hm).2))
  subst ht
  have hread := read_groups_texts (sel_groups d edition) (fun g hgm =>
    ⟨(hg g hgm).1.1, (hg g hgm).2.1.1, fun m hm => ((hg g hgm).2.2 m hm).1⟩)
  have h := from_string_groups d0 (_preset_to_string d edition) edition
    (sel_show_search d edition) _ _ hgr
  rw [hread, List.reverse_reverse] at h
  exact h

/-- C29 amended, at the sample state decoded into the empty state. -/
theorem preset_round_trip_groups_witness :
    (∀ g ∈ sel_groups sample_state false,
      separator_free g.name ∧ separator_free g.icon ∧ ∀ m ∈ g.modules, separator_free m)
    ∧ (∀ item ∈ sel_basics sample_state false, 'ꬹ' ∉ item.id)
    ∧ sel_show_search
        (_preset_from_string empty_state (some (_preset_to_string sample_state false)) false)
        false
      = sel_show_search sample_state false
    ∧ sel_groups
        (_preset_from_string empty_state (some (_preset_to_string sample_state false)) false)
        false
      = sel_groups sample_state false :=
  ⟨by decide!, by decide!,
    preset_round_trip_groups empty_state sample_state false (by decide!) (by decide!)⟩

/-- C30, refuted at a concrete state: `empty_panel_state` has the flag basics_show set
and no quick-access item; the encoded string is `1ꬹ1||ꬹbase|basic||exposure`, and
decoding it into the empty state gives the flag basics_show unset. -/
theorem preset_empty_panel_not_restored :
    (∀ item ∈ empty_panel_state.basics, separator_free item.id)
    ∧ empty_state.basics = []
    ∧ empty_panel_state.basics_show = true
    ∧ empty_panel_state.basics = []
    ∧ _preset_to_string empty_panel_state false = "1ꬹ1||ꬹbase|basic||exposure".toList
    ∧ (_preset_from_string empty_state (some (_preset_to_string empty_panel_state false))
        false).basics_show = false
    ∧ (_preset_from_string empty_state (some (_preset_to_string empty_panel_state false))
        false).basics_show ≠ empty_panel_state.basics_show := by
  decide!

/-- C30, amended: round trip of the quick-access panel. For every state whose
quick-access item ids are free of the separators `|` and `ꬹ`, decoding with
`_preset_from_string`, into a state with an empty list of quick-access items, the string
that `_preset_to_string` produces restores the ordered list of item ids exactly; the
decoded flag basics_show is the conjunction of the encoded flag and of the list being
non-empty, so it is restored when the flag is unset or the list is non-empty, and it is
unset when the flag is set and the list is empty. -/
theorem preset_round_trip_basics (d0 d : dt_lib_modulegroups_t) (edition : Bool)
    (hb : ∀ item ∈ sel_basics d edition, separator_free item.id)
    (h0 : sel_basics d0 edition = []) :
    sel_basics
        (_preset_from_string d0 (some (_preset_to_string d edition)) edition) edition
      = sel_basics d edition
    ∧ sel_basics_show
        (_preset_from_string d0 (some (_preset_to_string d edition)) edition) edition
      = (sel_basics_show d edition && !(sel_basics d edition).isEmpty)
    ∧ (sel_basics_show d edition = false ∨ sel_basics d edition ≠ [] →
        sel_basics_show
            (_preset_from_string d0 (some (_preset_to_string d edition)) edition) edition
          = sel_basics_show d edition)
    ∧ (sel_basics_show d edition = true ∧ sel_basics d edition = [] →
        sel_basics_show
            (_preset_from_string d0 (some (_preset_to_string d edition)) edition) edition
          = false) := by
  obtain ⟨tail, hgr, -⟩ := split_preset d edition (fun item hi => (hb item hi).2)
  have h := from_string_basics d0 (_preset_to_string d edition) edition _
    (sel_basics_show d edition) (sel_basics d edition) tail (fun item hi => (hb item hi).1) hgr
  rw [h0, List.nil_append] at h
  refine ⟨h.1, h.2, ?_, ?_⟩
  · intro hc
    rw [h.2]
    rcases hc with hc | hc
    · rw [hc]
      rfl
    · cases hl : sel_basics d edition with
      | nil => exact absurd hl hc
      | cons a l => simp
  · rintro ⟨hs, hl⟩
    rw [h.2, hs, hl]
    rfl

/-- C30 amended, at the sample state decoded into the empty state. -/
theorem preset_round_trip_basics_witness :
    (∀ item ∈ sel_basics sample_state false, separator_free item.id)
    ∧ sel_basics empty_state false = []
    ∧ sel_basics
        (_preset_from_string empty_state (some (_preset_to_string sample_state false)) false)
        false
      = sel_basics sample_state false
    ∧ sel_basics_show
        (_preset_from_string empty_state (some (_preset_to_string sample_state false)) false)
        false
      = (sel_basics_show sample_state false && !(sel_basics sample_state false).isEmpty)
    ∧ (sel_basics_show sample_state false = false ∨ sel_basics sample_state false ≠ [] →
        sel_basics_show
            (_preset_from_string empty_state (some (_preset_to_string sample_state false))
              false) false
          = sel_basics_show sample_state false)
    ∧ (sel_basics_show sample_state false = true ∧ sel_basics sample_state false = [] →
        sel_basics_show
            (_preset_from_string empty_state (some (_preset_to_string sample_state false))
              false) false
          = false) :=
  ⟨by decide!, by decide!,
    preset_round_trip_basics empty_state sample_state false (by decide!) (by decide!)⟩

end Modulegroups
